import Mathlib

/-!
# ESPAsyncWebServer: response pipeline, template engine and buffers

A shallow embedding of `src/WebResponses.cpp` and `src/DynamicBuffer.cpp`.

Bytes are natural numbers below 256, byte strings are `List Nat`, and `size_t` is a natural
number reduced modulo `2 ^ 32` wherever the C++ arithmetic can wrap (the code targets the 32-bit
Espressif MCUs).  Pointers into a buffer are offsets from its first byte.  Everything the code
asks of its surroundings (the content source, the transport, the heap) is an explicit input.
-/

set_option autoImplicit false

namespace ESPAsyncWebServer

/-! ## Constants and platform parameters -/

/-- Modulus of `size_t` arithmetic on the 32-bit target. -/
def SIZE_MOD : Nat := 2 ^ 32

/-- Modelled from the spec: the placeholder delimiter of `%NAME%`, the byte `'%'`; the macro
`TEMPLATE_PLACEHOLDER` is defined in a header that is not part of the sources at hand. -/
def TEMPLATE_PLACEHOLDER : Nat := 37

/-- Modelled from the spec: `TRY_AGAIN` is a content-source result distinct from every byte count;
the macro `RESPONSE_TRY_AGAIN` is defined in a header that is not part of the sources at hand.
It is the all-ones `size_t`, the one value no 32-bit buffer length can take. -/
def RESPONSE_TRY_AGAIN : Nat := 0xFFFFFFFF

/-- Numeric macros used by the code whose definitions are not in the sources at hand; they are
parameters of the embedding. -/
structure Platform where
  /-- The macro `TCP_MSS` (one TCP segment). -/
  TCP_MSS : Nat
  /-- The macro `TEMPLATE_PARAM_NAME_LENGTH` (capacity of the name buffer, less the terminator). -/
  TEMPLATE_PARAM_NAME_LENGTH : Nat
deriving Repr

/-- The values the upstream headers give the platform macros. -/
def esp : Platform := { TCP_MSS := 1460, TEMPLATE_PARAM_NAME_LENGTH := 32 }

/-- Byte codes of a text. -/
def ascii (s : String) : List Nat := s.toList.map Char.toNat

/-! ## Raw memory -/

/-- Bytes `[off, off + n)` of a memory region (`memcpy` source operand). -/
def slice (mem : List Nat) (off n : Nat) : List Nat := (mem.drop off).take n

/-- Store `xs` into `mem` from offset `off` on; the region keeps its size, so a byte that would
land outside it is not represented in the result (the store itself is recorded by `Buf.hw`). -/
def pokeAt : List Nat → Nat → List Nat → List Nat
  | [], _, _ => []
  | b :: bs, 0, [] => b :: bs
  | _ :: bs, 0, x :: xs => x :: pokeAt bs 0 xs
  | b :: bs, off + 1, xs => b :: pokeAt bs off xs

/-- Offset of the first occurrence of byte `c` (`memchr` over a whole region). -/
def findByte (c : Nat) : List Nat → Option Nat
  | [] => none
  | b :: bs => if b = c then some 0 else (findByte c bs).map (· + 1)

/-- Search `memchr(mem + off, c, n)`, as an offset from the start of `mem`. -/
def memchr (mem : List Nat) (off c n : Nat) : Option Nat :=
  (findByte c (slice mem off n)).map (· + off)

/-- The C string starting at the head of a region whose last byte is a terminator: the bytes
before the first zero byte (`String(const char*)`). -/
def cstr (xs : List Nat) : List Nat := xs.takeWhile (· ≠ 0)

/-- Comparison `data + a < data + b` of two pointers formed from `size_t` offsets, for a buffer
at address `base` in the flat 32-bit address space. -/
def ptrLt (base a b : Nat) : Bool := decide ((base + a) % SIZE_MOD < (base + b) % SIZE_MOD)

/-- The caller's output buffer together with a record of how far it has been written. -/
structure Buf where
  /-- The bytes of the buffer, `originalLen` of them. -/
  bytes : List Nat
  /-- One past the highest offset any store has touched so far (0 when nothing was stored). -/
  hw : Nat
deriving Repr, DecidableEq

/-- Store a byte string at an offset of the output buffer (`memcpy`/`memmove` destination). -/
def Buf.store (b : Buf) (off : Nat) (xs : List Nat) : Buf :=
  if xs.length = 0 then b
  else { bytes := pokeAt b.bytes off xs, hw := max b.hw (off + xs.length) }

/-! ## Content source -/

/-- The virtual `_fillBuffer` of a response, as a deterministic oracle: the bytes the source still
has to deliver, and for each coming call what it is ready to give (`none`: `RESPONSE_TRY_AGAIN`;
`some k`: at most `k` bytes, a short read when `k` is below the request).  Calls beyond the
schedule are served in full. -/
structure Source where
  content : List Nat
  answers : List (Option Nat)
deriving Repr, DecidableEq

/-- One call `_fillBuffer(data, n)`: the returned `size_t`, the bytes stored at `data`, and the
source afterwards. -/
def Source._fillBuffer (src : Source) (n : Nat) : Nat × List Nat × Source :=
  match src.answers with
  | [] => (min n src.content.length, src.content.take n, { src with content := src.content.drop n })
  | none :: rest => (RESPONSE_TRY_AGAIN, [], { src with answers := rest })
  | some k :: rest =>
      (min (min k n) src.content.length, src.content.take (min k n),
        { content := src.content.drop (min k n), answers := rest })

/-- The members of `AsyncAbstractResponse` that a fill reads and updates. -/
structure FillState where
  /-- Bytes left in `_cache` (a `Walkable` buffer: what `data()`/`size()` expose). -/
  _cache : List Nat
  /-- The content source behind `_fillBuffer`. -/
  source : Source
  _sentLength : Nat
deriving Repr, DecidableEq

/-- `AsyncAbstractResponse::_readDataFromCacheOrContent(data, len)`: returns the `size_t` result,
the bytes stored from `data` on, and the updated members. -/
def _readDataFromCacheOrContent (st : FillState) (len : Nat) : Nat × List Nat × FillState :=
  let readFromCache := min len st._cache.length
  let fromCache := st._cache.take readFromCache
  let st1 : FillState := { st with _cache := st._cache.drop readFromCache }
  if len > readFromCache then
    let needFromFile := len - readFromCache
    let res := st1.source._fillBuffer needFromFile
    let readFromContent := res.1
    let st2 : FillState := { st1 with source := res.2.2 }
    if readFromContent ≠ RESPONSE_TRY_AGAIN then
      (readFromCache + readFromContent, fromCache ++ res.2.1,
        { st2 with _sentLength := (st2._sentLength + readFromContent) % SIZE_MOD })
    else if readFromCache = 0 then (readFromContent, [], st2)
    else (readFromCache, fromCache, st2)
  else (readFromCache, fromCache, st1)

/-- The static `push_front(buf, data, end)`: the bytes `[data, end)` are put in front of what the
cache holds (the allocation of the new cache buffer is taken to succeed). -/
def push_front (st : FillState) (xs : List Nat) : FillState :=
  { st with _cache := xs ++ st._cache }

/-! ## Template substitution engine -/

/-- The template callback (`AwsTemplateProcessor`): from the parameter name to its value. -/
abbrev AwsTemplateProcessor := List Nat → List Nat

/-- The local variables of `_fillBufferAndProcessTemplates` between two iterations of its scan
loop, with the members it updates and the names it has passed to the callback so far. -/
structure Scan where
  /-- The buffer `data`. -/
  buf : Buf
  /-- The local `len`. -/
  len : Nat
  /-- The offset of `pTemplateStart` in `data`. -/
  pTemplateStart : Nat
  st : FillState
  /-- Arguments of the callback invocations made so far, oldest first. -/
  calls : List (List Nat)
deriving Repr, DecidableEq

/-- How one pass through the scan loop ends. -/
inductive Step where
  /-- The loop condition failed: the function returns `len`. -/
  | exit (sc : Scan)
  /-- The body ran; the loop condition is evaluated again. -/
  | next (sc : Scan)
  /-- The body ran into undefined behaviour (a `memchr` over `RESPONSE_TRY_AGAIN` bytes). -/
  | undefined (sc : Scan)
deriving Repr, DecidableEq

/-- The state a pass through the loop ends in. -/
def Step.scan : Step → Scan
  | Step.exit sc => sc
  | Step.next sc => sc
  | Step.undefined sc => sc

/-- The first part of a substitution, "make room for param value": the data after the placeholder
`[pTemplateStart, e]` is moved to where the value will end, and what no longer fits in the buffer
goes to the cache.  Returns the buffer, the local `len` and the members afterwards. -/
def makeRoom (originalLen : Nat) (sc : Scan) (e numBytesCopied : Nat) : Buf × Nat × FillState :=
  let s := sc.pTemplateStart
  let data := sc.buf.bytes
  let len := sc.len
  if e + 1 < s + numBytesCopied ∧ originalLen - (s + numBytesCopied - e - 1) < len then
    let tail := originalLen - (s + numBytesCopied - e - 1)
    (sc.buf.store (s + numBytesCopied) (slice data (e + 1) (originalLen - s - numBytesCopied)),
      originalLen, push_front sc.st (slice data tail (len - tail)))
  else if e + 1 ≠ s + numBytesCopied then
    (sc.buf.store (s + numBytesCopied) (slice data (e + 1) (len - e - 1)), len, sc.st)
  else (sc.buf, len, sc.st)

/-- The tail of the loop body, `if(paramName.length()) ...`: the callback is invoked and its value
replaces `[pTemplateStart, pTemplateEnd]`.  `sc.pTemplateStart` is the opening delimiter and `e`
the offset of `pTemplateEnd`. -/
def substitute (originalLen : Nat) (callback : AwsTemplateProcessor) (sc : Scan) (e : Nat)
    (paramName : List Nat) : Scan :=
  if paramName.length = 0 then sc
  else
    let s := sc.pTemplateStart
    let paramValue := callback paramName
    let pvlen := paramValue.length
    let calls := sc.calls ++ [paramName]
    let numBytesCopied := min pvlen (originalLen - s)
    let moved := makeRoom originalLen sc e numBytesCopied
    let len1 := moved.2.1
    let st1 := moved.2.2
    -- replace placeholder with actual value
    let buf2 := moved.1.store s (paramValue.take numBytesCopied)
    if numBytesCopied < pvlen then
      { buf := buf2, len := len1, pTemplateStart := s,
        st := push_front st1 (paramValue.drop numBytesCopied), calls := calls }
    else if s + numBytesCopied < e + 1 then
      let roomFreed := e + 1 - s - numBytesCopied
      let totalFreeRoom := originalLen - len1 + roomFreed
      let res := _readDataFromCacheOrContent st1 totalFreeRoom
      { buf := buf2.store (len1 - roomFreed) res.2.1,
        len := (len1 + (res.1 + SIZE_MOD - roomFreed) % SIZE_MOD) % SIZE_MOD,
        pTemplateStart := s, st := res.2.2, calls := calls }
    else
      let roomTaken := s + numBytesCopied - e - 1
      { buf := buf2, len := min (len1 + roomTaken) originalLen, pTemplateStart := s,
        st := st1, calls := calls }

/-- One evaluation of the loop condition of `_fillBufferAndProcessTemplates` followed, when it
holds, by one run of the loop body.  `base` is the address of `data`. -/
def scanStep (pf : Platform) (base originalLen : Nat) (callback : AwsTemplateProcessor)
    (sc : Scan) : Step :=
  let data := sc.buf.bytes
  let len := sc.len
  if ¬ ptrLt base sc.pTemplateStart len then Step.exit sc
  else
    match memchr data sc.pTemplateStart TEMPLATE_PLACEHOLDER (len - sc.pTemplateStart) with
    | none => Step.exit sc
    | some s =>
      let sc0 : Scan := { sc with pTemplateStart := s }
      let pTemplateEnd :=
        if s + 1 < len then memchr data (s + 1) TEMPLATE_PLACEHOLDER (len - 1 - s) else none
      match pTemplateEnd with
      | some e =>
        let paramNameLength := min pf.TEMPLATE_PARAM_NAME_LENGTH (e - s - 1)
        if paramNameLength ≠ 0 then
          Step.next (substitute originalLen callback sc0 e (cstr (slice data (s + 1) paramNameLength)))
        else
          -- double percent sign: remove the 2nd percent sign
          let buf1 := sc.buf.store e (slice data (e + 1) (len - e - 1))
          let res := _readDataFromCacheOrContent sc.st 1
          Step.next
            { buf := buf1.store (len - 1) res.2.1,
              len := (len + (res.1 + SIZE_MOD - 1) % SIZE_MOD) % SIZE_MOD,
              pTemplateStart := s + 1, st := res.2.2, calls := sc.calls }
      | none =>
        if len - s < pf.TEMPLATE_PARAM_NAME_LENGTH + 2 then
          -- closing placeholder not found, check if it is in the remaining file data
          let nameHead := slice data (s + 1) (len - 1 - s)
          let res := _readDataFromCacheOrContent sc.st (pf.TEMPLATE_PARAM_NAME_LENGTH + 2 - (len - s))
          let readFromCacheOrContent := res.1
          let sc1 : Scan := { sc0 with st := res.2.2 }
          if readFromCacheOrContent ≠ 0 then
            if readFromCacheOrContent = RESPONSE_TRY_AGAIN then Step.undefined sc1
            else
              match findByte TEMPLATE_PLACEHOLDER (res.2.1.take readFromCacheOrContent) with
              | some j =>
                let sc2 : Scan := { sc1 with st := push_front res.2.2 (res.2.1.drop (j + 1)) }
                Step.next (substitute originalLen callback sc2 (len - 1) (cstr (nameHead ++ res.2.1.take j)))
              | none =>
                Step.next { sc1 with st := push_front res.2.2 res.2.1, pTemplateStart := s + 1 }
          else Step.next { sc1 with pTemplateStart := s + 1 }
        else Step.next { sc0 with pTemplateStart := s + 1 }

/-- What a call of `_fillBufferAndProcessTemplates` amounts to. -/
inductive Outcome where
  /-- The call returned `sc.len`; `sc` holds the buffer and the members at that point. -/
  | returned (sc : Scan)
  /-- The call ran into undefined behaviour in the state `sc`. -/
  | undefined (sc : Scan)
  /-- The scan loop was still running in state `sc` after the allotted number of passes. -/
  | running (sc : Scan)
deriving Repr, DecidableEq

/-- The state a call has reached when it returns, faults or is cut off. -/
def Outcome.scan : Outcome → Scan
  | Outcome.returned sc => sc
  | Outcome.undefined sc => sc
  | Outcome.running sc => sc

/-- The scan loop `while(...)` of `_fillBufferAndProcessTemplates`, run for at most `fuel` passes. -/
def scanLoop (pf : Platform) (base originalLen : Nat) (callback : AwsTemplateProcessor) :
    Nat → Scan → Outcome
  | 0, sc => Outcome.running sc
  | fuel + 1, sc =>
    match scanStep pf base originalLen callback sc with
    | Step.exit sc1 => Outcome.returned sc1
    | Step.undefined sc1 => Outcome.undefined sc1
    | Step.next sc1 => scanLoop pf base originalLen callback fuel sc1

/-- The opening of `_fillBufferAndProcessTemplates`: the first read into `data`, and the locals
the scan loop starts from. -/
def firstRead (st : FillState) (data : List Nat) : Scan :=
  let res := _readDataFromCacheOrContent st data.length
  { buf := Buf.store { bytes := data, hw := 0 } 0 res.2.1, len := res.1, pTemplateStart := 0,
    st := res.2.2, calls := [] }

/-- `AsyncAbstractResponse::_fillBufferAndProcessTemplates(data, len)`.  `data` is the buffer as
the caller hands it over (its `len` bytes, whatever they hold), `base` its address, `callback`
the member `_callback` (`none` when unset). -/
def _fillBufferAndProcessTemplates (pf : Platform) (fuel base : Nat)
    (callback : Option AwsTemplateProcessor) (st : FillState) (data : List Nat) : Outcome :=
  match callback with
  | none => Outcome.returned (firstRead st data)
  | some f => scanLoop pf base data.length f fuel (firstRead st data)

/-- The bytes a returned fill reports as produced: the first `len` bytes of the buffer (none when
it reports `RESPONSE_TRY_AGAIN`). -/
def Scan.output (sc : Scan) : List Nat :=
  if sc.len = RESPONSE_TRY_AGAIN then [] else sc.buf.bytes.take sc.len

/-! ## Buffers -/

/-- The class `DynamicBuffer`: `_data` is `none` for a null pointer, otherwise the bytes of the
block it points at.  `freed` is no member of the class: it records that the block `_data` points
at has been handed back to the heap while the pointer was kept (a dangling pointer). -/
structure DynamicBuffer where
  _data : Option (List Nat)
  _len : Nat
  freed : Bool := false
deriving Repr, DecidableEq

/-- The constructor `DynamicBuffer::DynamicBuffer(size_t len)`; `granted` tells whether `malloc`
answers with a block, whose bytes then all read `junk`. -/
def DynamicBuffer.ofSize (granted : Bool) (junk len : Nat) : DynamicBuffer :=
  let data : Option (List Nat) :=
    if len ≠ 0 then (if granted then some (List.replicate len junk) else none) else none
  { _data := data, _len := if data.isSome then len else 0 }

/-- The member `DynamicBuffer::clear`. -/
def DynamicBuffer.clear (_b : DynamicBuffer) : DynamicBuffer := { _data := none, _len := 0 }

/-- The member `DynamicBuffer::resize(s)`, with the buffer afterwards and the returned size.
For a size other than 0, `granted` tells whether `realloc` answers with a block, which keeps the
old bytes up to the new size and reads `junk` beyond them; a null answer leaves the old block in
place.  For the size 0 the `realloc` of the target heaps releases the block and answers null:
`next` is null, so `_data` and `_len` stay as they were, and `_data` now dangles.  What a later
`realloc` makes of a dangling pointer is not defined; the mark `freed` is kept then. -/
def DynamicBuffer.resize (b : DynamicBuffer) (granted : Bool) (junk s : Nat) :
    DynamicBuffer × Nat :=
  if b._len ≠ s then
    if s = 0 then ({ b with freed := b._data.isSome || b.freed }, b._len)
    else if granted then
      let old := b._data.getD []
      ({ _data := some (old.take s ++ List.replicate (s - old.length) junk), _len := s,
         freed := b.freed }, s)
    else (b, b._len)
  else (b, b._len)

/-- Modelled from the spec: the in-flight output chunk buffer `_packet`, which retains the bytes
the transport has not accepted yet.  Its type `Walkable<DynamicBuffer>` is declared in
`DynamicBuffer.h`, which is not part of the sources at hand: a buffer and the count `_left` of
bytes already walked past. -/
structure Walkable where
  _buf : DynamicBuffer
  _left : Nat
deriving Repr, DecidableEq

/-- The empty `Walkable` (`_packet = {}`). -/
def Walkable.empty : Walkable := { _buf := { _data := none, _len := 0 }, _left := 0 }

/-- The member `size()`: bytes not walked past yet. -/
def Walkable.size (w : Walkable) : Nat := w._buf._len - w._left

/-- The member `capacity()`. -/
def Walkable.capacity (w : Walkable) : Nat := w._buf._len

/-- The `n` bytes found at `data()`; those past the end of the block read `junk`. -/
def Walkable.read (w : Walkable) (junk n : Nat) : List Nat :=
  let held := ((w._buf._data.getD []).take w._buf._len).drop w._left
  held.take n ++ List.replicate (n - held.length) junk

/-- The member `advance(count)`. -/
def Walkable.advance (w : Walkable) (count : Nat) : Walkable :=
  { w with _left := min w._buf._len (w._left + count) }

/-- The member `clear()`. -/
def Walkable.clear (w : Walkable) : Walkable := { _buf := w._buf.clear, _left := 0 }

/-! ## Transport and heap -/

/-- A call the response makes on the client connection. -/
inductive Event where
  /-- The call `add(data, size)` with the bytes offered and the count the transport returned. -/
  | add (offered : List Nat) (accepted : Nat)
  /-- The call `write(data, size)` with the bytes offered and the count the transport returned. -/
  | write (offered : List Nat) (accepted : Nat)
  | send
  | close (now : Bool)
deriving Repr, DecidableEq

/-- The bytes the transport took over in the course of some calls, in call order. -/
def accepted : List Event → List Nat
  | [] => []
  | Event.add offered n :: rest => offered.take n ++ accepted rest
  | Event.write offered n :: rest => offered.take n ++ accepted rest
  | _ :: rest => accepted rest

/-- What the surroundings answer during one call of `_ack`. -/
structure AckEnv where
  /-- The answer of `_sourceValid()`. -/
  sourceValid : Bool
  /-- The answer of `client()->space()`. -/
  space : Nat
  /-- The counts the transport is ready to accept in the `add`/`write` calls of this `_ack`, in
  call order; each is capped by the length offered, and calls beyond the list accept it all. -/
  accepts : List Nat
  /-- Whether `malloc` serves the packet buffer of the requested size. -/
  allocOk : Bool
  /-- The largest free heap block while that buffer is allocated. -/
  maxFreeBlock : Nat
  /-- Whether the heap serves the `TCP_MSS` packet buffer tried instead. -/
  retryOk : Bool
  /-- Whether `realloc` serves the final `resize` of the packet, when that is to a size other
  than 0. -/
  resizeOk : Bool
  /-- The address of the packet buffer. -/
  addr : Nat
  /-- What a byte reads that the code has not written. -/
  junk : Nat
deriving Repr, DecidableEq

/-- One `add`/`write` call: the count returned and the answers left for the calls to come. -/
def transfer (offered : List Nat) (accepts : List Nat) : Nat × List Nat :=
  match accepts with
  | [] => (offered.length, [])
  | a :: rest => (min a offered.length, rest)

/-- The static `_max_heap_alloc()`: the largest free block less the fudge factor, in `size_t`. -/
def _max_heap_alloc (maxFreeBlock : Nat) : Nat := (maxFreeBlock + SIZE_MOD - 128) % SIZE_MOD

/-- The static `_safe_allocate_buffer(outLen)`. -/
def _safe_allocate_buffer (pf : Platform) (env : AckEnv) (outLen : Nat) : DynamicBuffer :=
  let rv := DynamicBuffer.ofSize env.allocOk env.junk outLen
  if outLen > pf.TCP_MSS then
    if rv._data.isNone ∨ _max_heap_alloc env.maxFreeBlock < outLen then
      (rv.clear.resize env.retryOk env.junk pf.TCP_MSS).1
    else rv
  else rv

/-! ## Responses -/

/-- The enumeration `WebResponseState`. -/
inductive WebResponseState where
  | RESPONSE_SETUP | RESPONSE_HEADERS | RESPONSE_CONTENT | RESPONSE_WAIT_ACK | RESPONSE_END
  | RESPONSE_FAILED
deriving Repr, DecidableEq

open WebResponseState

/-- The data members of `AsyncWebServerResponse` and `AsyncAbstractResponse`, with the content
source standing for the virtual `_fillBuffer`. -/
structure Response where
  _code : Int
  _headers : List (List Nat × List Nat)
  _contentType : List Nat
  _contentLength : Nat
  _sendContentLength : Bool
  _chunked : Bool
  _headLength : Nat
  _sentLength : Nat
  _ackedLength : Nat
  _writtenLength : Nat
  _state : WebResponseState
  _head : List Nat
  _packet : Walkable
  _cache : List Nat
  _callback : Option AwsTemplateProcessor
  source : Source

/-- The members a fill works on. -/
def Response.fillState (r : Response) : FillState :=
  { _cache := r._cache, source := r.source, _sentLength := r._sentLength }

/-- The response after a fill has updated its members. -/
def Response.withFillState (r : Response) (st : FillState) : Response :=
  { r with _cache := st._cache, source := st.source, _sentLength := st._sentLength }

/-- The result of a call of `_ack`. -/
inductive AckOutcome where
  /-- The call returned `ret`, leaving the response `r`, after the transport calls `events`. -/
  | done (r : Response) (ret : Nat) (events : List Event)
  /-- The call ran into undefined behaviour (a store outside the packet buffer, or inside the
  fill). -/
  | undefined
  /-- The scan loop of the fill was still running after the allotted number of passes. -/
  | running

/-- Lowercase hexadecimal digit character. -/
def hexDigit (d : Nat) : Nat := if d < 10 then 48 + d else 87 + d

/-- Hexadecimal digit characters of `n`, least significant first, at most `fuel` of them. -/
def hexRev : Nat → Nat → List Nat
  | 0, _ => []
  | fuel + 1, n => if n = 0 then [] else hexDigit (n % 16) :: hexRev fuel (n / 16)

/-- Shortest lowercase hexadecimal numeral of a 32-bit value (`%x`). -/
def hexNumeral (n : Nat) : List Nat := if n = 0 then [48] else (hexRev 8 n).reverse

/-- The text `sprintf` produces for `"%04x"`: the hexadecimal numeral, zero-padded on the left to
four characters. -/
def sprintf04x (n : Nat) : List Nat :=
  List.replicate (4 - (hexNumeral n).length) 48 ++ hexNumeral n

/-- A store into the packet buffer: `none` when it reaches outside the block. -/
def pokeChecked (mem : List Nat) (off : Nat) (xs : List Nat) : Option (List Nat) :=
  if off + xs.length ≤ mem.length then some (pokeAt mem off xs) else none

/-- The chunk envelope `_ack` puts around `readLen` payload bytes already stored from offset 6 on:
the packet memory afterwards and the final `outLen`. -/
def chunkEnvelope (mem : List Nat) (readLen : Nat) : Option (List Nat × Nat) := do
  let digits := sprintf04x readLen
  let mem1 ← pokeChecked mem 0 (digits ++ [0])
  let outLen := digits.length
  let mem2 ← pokeChecked mem1 outLen [13]
  let mem3 ← pokeChecked mem2 (outLen + 1) [10]
  let outLen := outLen + 2 + readLen
  let mem4 ← pokeChecked mem3 outLen [13]
  let mem5 ← pokeChecked mem4 (outLen + 1) [10]
  pure (mem5, outLen + 2)

/-- The exit `content_abort` of `_ack`. -/
def contentAbort (r : Response) (needs_send : Bool) (events : List Event) : AckOutcome :=
  AckOutcome.done r 0 (if needs_send then events ++ [Event.send] else events)

/-- The second `write` of `_ack` ("Try again, with less"): `min(outLen/2, TCP_MSS)` bytes from
`_packet.data()` on are offered.  Returns the response, the packet and the transport calls
afterwards. -/
def writeAgain (pf : Platform) (env : AckEnv) (r : Response) (packet : Walkable) (outLen : Nat)
    (accepts : List Nat) (events : List Event) : Response × Walkable × List Event :=
  let offered := packet.read env.junk (min (outLen / 2) pf.TCP_MSS)
  let t := transfer offered accepts
  ({ r with _writtenLength := (r._writtenLength + t.1) % SIZE_MOD }, packet.advance t.1,
    events ++ [Event.write offered t.1])

/-- The block `if(_packet.size()) ...` of `_ack`: the packet is written to the transport, a second
time when the first write took less than `outLen`, and released when nothing of it is left. -/
def writePacket (pf : Platform) (env : AckEnv) (r : Response) (packet : Walkable) (outLen : Nat)
    (accepts : List Nat) (events : List Event) : Response × Walkable × List Event :=
  if packet.size ≠ 0 then
    let offered := packet.read env.junk packet.size
    let t := transfer offered accepts
    let r1 : Response := { r with _writtenLength := (r._writtenLength + t.1) % SIZE_MOD }
    let packet1 := packet.advance t.1
    let events1 := events ++ [Event.write offered t.1]
    let again :=
      if t.1 < outLen then writeAgain pf env r1 packet1 outLen t.2 events1
      else (r1, packet1, events1)
    -- Data we couldn't send is held in _packet
    (again.1, if again.2.1.size = 0 then Walkable.empty else again.2.1, again.2.2)
  else (r, packet, events)

/-- The end of the `RESPONSE_CONTENT` branch of `_ack`, from `_packet.resize(outLen)` on.
`packet` is the filled packet buffer.  When the `resize` has released the block and kept the
pointer (a non-empty packet resized to 0), the `write` that follows reads the released block:
undefined behaviour. -/
def ackSend (pf : Platform) (env : AckEnv) (r : Response) (packet : Walkable)
    (outLen readLen : Nat) (accepts : List Nat) (events : List Event) : AckOutcome :=
  let packet1 : Walkable :=
    { packet with _buf := (packet._buf.resize env.resizeOk env.junk (outLen + packet._left)).1 }
  if packet1._buf.freed ∧ packet1.size ≠ 0 then AckOutcome.undefined
  else
    let sent := writePacket pf env r packet1 outLen accepts events
    let r2 : Response := { sent.1 with _packet := sent.2.1 }
    let r3 : Response :=
      if (r2._chunked ∧ readLen = 0) ∨ (¬ r2._sendContentLength ∧ outLen = 0)
          ∨ (¬ r2._chunked ∧ r2._writtenLength = (r2._headLength + r2._contentLength) % SIZE_MOD)
      then { r2 with _state := RESPONSE_WAIT_ACK } else r2
    AckOutcome.done r3 outLen sent.2.2

/-- The `RESPONSE_CONTENT` branch of `_ack` once no earlier packet is pending: a buffer is
allocated, filled and handed to the transport. -/
def ackFill (pf : Platform) (fuel : Nat) (env : AckEnv) (r : Response) (space : Nat)
    (needs_send : Bool) (accepts : List Nat) (events : List Event) : AckOutcome :=
  if r._chunked ∧ space ≤ 8 then contentAbort r needs_send events
  else
    let outLen :=
      if r._chunked then space
      else if ¬ r._sendContentLength then space
      else min space ((r._contentLength + SIZE_MOD - r._sentLength) % SIZE_MOD)
    -- Limit outlen based on available memory
    let packet : Walkable := { _buf := _safe_allocate_buffer pf env outLen, _left := 0 }
    let mem := packet._buf._data.getD []
    if r._chunked then
      if packet.size < 8 then contentAbort { r with _packet := packet.clear } needs_send events
      else
        match _fillBufferAndProcessTemplates pf fuel (env.addr + 6) r._callback r.fillState
            (slice mem 6 (packet.size - 8)) with
        | Outcome.running _ => AckOutcome.running
        | Outcome.undefined _ => AckOutcome.undefined
        | Outcome.returned sc =>
          let r1 := r.withFillState sc.st
          if sc.buf.hw > packet.size - 8 then AckOutcome.undefined
          else if sc.len = RESPONSE_TRY_AGAIN then
            contentAbort { r1 with _packet := packet.clear } needs_send events
          else
            match chunkEnvelope (pokeAt mem 6 sc.buf.bytes) sc.len with
            | none => AckOutcome.undefined
            | some (mem1, outLen1) =>
              ackSend pf env r1 { packet with _buf := { packet._buf with _data := some mem1 } }
                outLen1 sc.len accepts events
    else
      match _fillBufferAndProcessTemplates pf fuel env.addr r._callback r.fillState
          (slice mem 0 packet.size) with
      | Outcome.running _ => AckOutcome.running
      | Outcome.undefined _ => AckOutcome.undefined
      | Outcome.returned sc =>
        let r1 := r.withFillState sc.st
        if sc.buf.hw > packet.size then AckOutcome.undefined
        else if sc.len = RESPONSE_TRY_AGAIN then
          contentAbort { r1 with _packet := packet.clear } needs_send events
        else
          let data1 := packet._buf._data.map (fun m => pokeAt m 0 sc.buf.bytes)
          ackSend pf env r1 { packet with _buf := { packet._buf with _data := data1 } }
            sc.len sc.len accepts events

/-- The `RESPONSE_CONTENT` branch of `_ack`. -/
def ackContent (pf : Platform) (fuel : Nat) (env : AckEnv) (r : Response) (space : Nat)
    (needs_send : Bool) (accepts : List Nat) (events : List Event) : AckOutcome :=
  if r._packet.size ≠ 0 then
    -- Complete the cached data
    let offered := r._packet.read env.junk (min space r._packet.size)
    let t := transfer offered accepts
    let written := t.1
    let r1 : Response :=
      { r with _writtenLength := (r._writtenLength + written) % SIZE_MOD,
               _packet := r._packet.advance written }
    let ev1 := events ++ [Event.add offered written]
    if r1._packet.size ≠ 0 then
      AckOutcome.done r1 written (if written ≠ 0 then ev1 ++ [Event.send] else ev1)
    else
      ackFill pf fuel env { r1 with _packet := Walkable.empty } (space - written) true t.2 ev1
  else ackFill pf fuel env r space needs_send accepts events

/-- `AsyncAbstractResponse::_ack(request, len, time)`. -/
def _ack (pf : Platform) (fuel : Nat) (env : AckEnv) (r0 : Response) (len : Nat) : AckOutcome :=
  if ¬ env.sourceValid then
    AckOutcome.done { r0 with _state := RESPONSE_FAILED } 0 [Event.close false]
  else
    let r : Response := { r0 with _ackedLength := (r0._ackedLength + len) % SIZE_MOD }
    let space := env.space
    if space = 0 ∧ (r._state = RESPONSE_HEADERS ∨ r._state = RESPONSE_CONTENT) then
      -- Cannot accept more data now, wait for next event
      AckOutcome.done r 0 []
    else if r._state = RESPONSE_HEADERS then
      let headLen := r._head.length
      let offered := r._head.take (min space headLen)
      let t := transfer offered env.accepts
      let headWritten := t.1
      let r1 : Response := { r with _writtenLength := (r._writtenLength + headWritten) % SIZE_MOD }
      let ev := [Event.add offered headWritten]
      if headWritten < headLen then
        AckOutcome.done { r1 with _head := r1._head.drop headWritten } headWritten
          (ev ++ [Event.send])
      else
        ackContent pf fuel env { r1 with _state := RESPONSE_CONTENT, _head := [] }
          (space - headWritten) true t.2 ev
    else if r._state = RESPONSE_CONTENT then
      ackContent pf fuel env r space false env.accepts []
    else if r._state = RESPONSE_WAIT_ACK then
      if ¬ r._sendContentLength ∨ r._ackedLength ≥ r._writtenLength then
        AckOutcome.done { r with _state := RESPONSE_END } 0
          (if ¬ r._chunked ∧ ¬ r._sendContentLength then [Event.close true] else [])
      else AckOutcome.done r 0 []
    else AckOutcome.done r 0 []

/-! ## Response head -/

/-- The reason phrases of `_responseCodeToString`. -/
def reasonPhrases : List (Int × String) :=
  [(100, "Continue"), (101, "Switching Protocols"), (200, "OK"), (201, "Created"),
   (202, "Accepted"), (203, "Non-Authoritative Information"), (204, "No Content"),
   (205, "Reset Content"), (206, "Partial Content"), (300, "Multiple Choices"),
   (301, "Moved Permanently"), (302, "Found"), (303, "See Other"), (304, "Not Modified"),
   (305, "Use Proxy"), (307, "Temporary Redirect"), (400, "Bad Request"), (401, "Unauthorized"),
   (402, "Payment Required"), (403, "Forbidden"), (404, "Not Found"),
   (405, "Method Not Allowed"), (406, "Not Acceptable"),
   (407, "Proxy Authentication Required"), (408, "Request Time-out"), (409, "Conflict"),
   (410, "Gone"), (411, "Length Required"), (412, "Precondition Failed"),
   (413, "Request Entity Too Large"), (414, "Request-URI Too Large"),
   (415, "Unsupported Media Type"), (416, "Requested range not satisfiable"),
   (417, "Expectation Failed"), (500, "Internal Server Error"), (501, "Not Implemented"),
   (502, "Bad Gateway"), (503, "Service Unavailable"), (504, "Gateway Time-out"),
   (505, "HTTP Version not supported")]

/-- `AsyncWebServerResponse::_responseCodeToString(code)`. -/
def _responseCodeToString (code : Int) : List Nat :=
  ascii ((reasonPhrases.lookup code).getD "")

/-- Decimal numeral of a natural number. -/
def decimal (n : Nat) : List Nat := (Nat.toDigits 10 n).map Char.toNat

/-- The text `printf` produces for `%d` and an `int`. -/
def printfD (i : Int) : List Nat :=
  if i < 0 then 45 :: decimal i.natAbs else decimal i.natAbs

/-- A `size_t` read as the `int` that `%d` takes it for. -/
def asInt (v : Nat) : Int :=
  if v % SIZE_MOD < 2 ^ 31 then ((v % SIZE_MOD : Nat) : Int) else ((v % SIZE_MOD : Nat) : Int) - 2 ^ 32

/-- What `snprintf(buf, size, ...)` leaves in `buf` of a formatted text: its first `size - 1`
bytes. -/
def snprintf (size : Nat) (text : List Nat) : List Nat := text.take (size - 1)

/-- The constant `bufSize` of `_assembleHead`. -/
def bufSize : Nat := 300

/-- The bytes `\r\n`. -/
def CRLF : List Nat := [13, 10]

/-- `AsyncWebServerResponse::_assembleHead(version)`: the head returned and the response
afterwards (header list freed, `_headLength` recorded). -/
def _assembleHead (r : Response) (version : Nat) : List Nat × Response :=
  let out := snprintf bufSize
    (ascii "HTTP/1." ++ printfD (version : Int) ++ ascii " " ++ printfD r._code ++ ascii " ")
  let out := out ++ _responseCodeToString r._code
  let out := out ++ CRLF
  let out :=
    if r._sendContentLength then
      out ++ snprintf bufSize (ascii "Content-Length: " ++ printfD (asInt r._contentLength) ++ CRLF)
    else out
  let out :=
    if r._contentType.length ≠ 0 then
      out ++ snprintf bufSize (ascii "Content-Type: " ++ cstr r._contentType ++ CRLF)
    else out
  let out := r._headers.foldl
    (fun acc header => acc ++ snprintf bufSize (cstr header.1 ++ ascii ": " ++ cstr header.2 ++ CRLF))
    out
  let out :=
    if version ≠ 0 then
      let out := out ++ ascii "Accept-Ranges: none" ++ CRLF
      if r._chunked then out ++ ascii "Transfer-Encoding: chunked" ++ CRLF else out
    else out
  let out := out ++ CRLF
  (out, { r with _headers := [], _headLength := out.length })

/-- The head in the wording of the interface description: status line, `Content-Length` when the
length is sent, `Content-Type` when set, the headers in order, `Accept-Ranges: none` and, when
chunked, `Transfer-Encoding: chunked` for protocol version 1 and above, then a blank line. -/
def headFormat (r : Response) (version : Nat) : List Nat :=
  ascii "HTTP/1." ++ decimal version ++ ascii " " ++ printfD r._code ++ ascii " "
    ++ _responseCodeToString r._code ++ CRLF
    ++ (if r._sendContentLength then ascii "Content-Length: " ++ decimal r._contentLength ++ CRLF
        else [])
    ++ (if r._contentType.length ≠ 0 then ascii "Content-Type: " ++ r._contentType ++ CRLF else [])
    ++ (r._headers.map (fun header => header.1 ++ ascii ": " ++ header.2 ++ CRLF)).flatten
    ++ (if version ≥ 1 then
          ascii "Accept-Ranges: none" ++ CRLF
            ++ (if r._chunked then ascii "Transfer-Encoding: chunked" ++ CRLF else [])
        else [])
    ++ CRLF

/-! ## String/code response -/

/-- The `n` bytes found at `c_str()` of a string; those past its end read `junk`. -/
def cRead (s : List Nat) (junk n : Nat) : List Nat :=
  s.take n ++ List.replicate (n - s.length) junk

/-- The class `AsyncBasicResponse`: the members of the base class `AsyncWebServerResponse` (held
in `base`, whose other fields play no part here) and the member `_content`. -/
structure AsyncBasicResponse where
  base : Response
  _content : List Nat

/-- `AsyncBasicResponse::_respond(request)`: `version` is the answer of `request->version()`,
`space` that of `client()->space()`, `accepts` what the transport is ready to take in the
`write` call, `junk` what memory past a string reads.  Returns the response and the transport
calls. -/
def AsyncBasicResponse._respond (version space junk : Nat) (accepts : List Nat)
    (r : AsyncBasicResponse) : AsyncBasicResponse × List Event :=
  let assembled := _assembleHead { r.base with _state := RESPONSE_HEADERS } version
  let out := assembled.1
  let b := assembled.2
  let outLen := out.length
  if b._contentLength = 0 ∧ space ≥ outLen then
    let t := transfer (cRead out junk outLen) accepts
    ({ base := { b with _writtenLength := (b._writtenLength + t.1) % SIZE_MOD,
                        _state := RESPONSE_WAIT_ACK },
       _content := r._content }, [Event.write (cRead out junk outLen) t.1])
  else if b._contentLength ≠ 0 ∧ space ≥ (outLen + b._contentLength) % SIZE_MOD then
    let out1 := out ++ r._content
    let outLen1 := (outLen + b._contentLength) % SIZE_MOD
    let t := transfer (cRead out1 junk outLen1) accepts
    ({ base := { b with _writtenLength := (b._writtenLength + t.1) % SIZE_MOD,
                        _state := RESPONSE_WAIT_ACK },
       _content := r._content }, [Event.write (cRead out1 junk outLen1) t.1])
  else if space ≠ 0 ∧ space < outLen then
    let part := out.take space
    let t := transfer (cRead part junk part.length) accepts
    ({ base := { b with _contentLength := (b._contentLength + (outLen - space)) % SIZE_MOD,
                        _writtenLength := (b._writtenLength + t.1) % SIZE_MOD,
                        _state := RESPONSE_CONTENT },
       _content := out.drop space ++ r._content },
      [Event.write (cRead part junk part.length) t.1])
  else if space > outLen ∧ space < (outLen + b._contentLength) % SIZE_MOD then
    let shift := space - outLen
    let outLen1 := outLen + shift
    let out1 := out ++ r._content.take shift
    let t := transfer (cRead out1 junk outLen1) accepts
    ({ base := { b with _sentLength := (b._sentLength + shift) % SIZE_MOD,
                        _writtenLength := (b._writtenLength + t.1) % SIZE_MOD,
                        _state := RESPONSE_CONTENT },
       _content := r._content.drop shift }, [Event.write (cRead out1 junk outLen1) t.1])
  else
    ({ base := { b with _contentLength := (b._contentLength + outLen) % SIZE_MOD,
                        _state := RESPONSE_CONTENT },
       _content := out ++ r._content }, [])

/-- `AsyncBasicResponse::_ack(request, len, time)`: the response afterwards, the value returned
and the transport calls. -/
def AsyncBasicResponse._ack (space junk : Nat) (accepts : List Nat) (r0 : AsyncBasicResponse)
    (len : Nat) : AsyncBasicResponse × Nat × List Event :=
  let r : AsyncBasicResponse :=
    { r0 with base := { r0.base with _ackedLength := (r0.base._ackedLength + len) % SIZE_MOD } }
  if r.base._state = RESPONSE_CONTENT then
    let available := (r.base._contentLength + SIZE_MOD - r.base._sentLength) % SIZE_MOD
    -- we can fit in this packet
    if space > available then
      let t := transfer (cRead r._content junk available) accepts
      ({ base := { r.base with _writtenLength := (r.base._writtenLength + t.1) % SIZE_MOD,
                               _state := RESPONSE_WAIT_ACK },
         _content := [] }, available, [Event.write (cRead r._content junk available) t.1])
    else
      -- send some data, the rest on ack
      let out := r._content.take space
      let t := transfer (cRead out junk space) accepts
      ({ base := { r.base with _sentLength := (r.base._sentLength + space) % SIZE_MOD,
                               _writtenLength := (r.base._writtenLength + t.1) % SIZE_MOD },
         _content := r._content.drop space }, space, [Event.write (cRead out junk space) t.1])
  else if r.base._state = RESPONSE_WAIT_ACK then
    if r.base._ackedLength ≥ r.base._writtenLength then
      ({ r with base := { r.base with _state := RESPONSE_END } }, 0, [])
    else (r, 0, [])
  else (r, 0, [])

/-! ## Bulk allocation -/

/-- The loop `while (total)` of `allocateList`, run for at most `fuel` passes: `grants` tells for
each buffer constructed whether `malloc` serves it.  Returns what is left of `total` and the
list `buffers` when the loop is left (`none` when it is still running). -/
def allocateLoop (junk max_buffer_size : Nat) :
    Nat → Nat → List Bool → List DynamicBuffer → Option (Nat × List DynamicBuffer)
  | _, 0, _, buffers => some (0, buffers)
  | 0, _ + 1, _, _ => none
  | fuel + 1, total + 1, grants, buffers =>
    let alloc_size := min (total + 1) max_buffer_size
    let b := DynamicBuffer.ofSize (grants.headD true) junk alloc_size
    if b._data.isNone then some (total + 1, buffers ++ [b])  -- out of memory, oops
    else allocateLoop junk max_buffer_size fuel (total + 1 - alloc_size) grants.tail
      (buffers ++ [b])

/-- The template `allocateList<list_type>(total, max_buffer_size)` at `DynamicBufferList`, which
is `allocateDynamicBufferList`. -/
def allocateDynamicBufferList (fuel junk : Nat) (grants : List Bool)
    (total max_buffer_size : Nat) : Option (List DynamicBuffer) :=
  (allocateLoop junk max_buffer_size fuel total grants []).map
    (fun res => if res.1 ≠ 0 then [] else res.2)

/-- Modelled from the spec: the shared buffer, a copy-on-write wrapper over an owning buffer.  The
class `SharedBuffer` is declared in `DynamicBuffer.h`, which is not part of the sources at hand;
its constructor from a length, `data()` and `size()` are those of the buffer it wraps. -/
structure SharedBuffer where
  _buf : DynamicBuffer
deriving Repr, DecidableEq

/-- The template `allocateList` at `SharedBufferList`, which is `allocateSharedBufferList`. -/
def allocateSharedBufferList (fuel junk : Nat) (grants : List Bool)
    (total max_buffer_size : Nat) : Option (List SharedBuffer) :=
  (allocateDynamicBufferList fuel junk grants total max_buffer_size).map
    (fun buffers => buffers.map SharedBuffer.mk)

/-- The function `totalSize(const DynamicBufferList&)`: `std::accumulate` from `0U`. -/
def totalSize (buffers : List DynamicBuffer) : Nat :=
  buffers.foldl (fun s b => (s + b._len) % SIZE_MOD) 0

/-- The function `totalSize(const SharedBufferList&)`. -/
def totalSizeShared (buffers : List SharedBuffer) : Nat :=
  buffers.foldl (fun s b => (s + b._buf._len) % SIZE_MOD) 0

/-! ## Response configuration -/

/-- The member `AsyncWebServerResponse::setCode(code)`. -/
def setCode (r : Response) (code : Int) : Response :=
  if r._state = RESPONSE_SETUP then { r with _code := code } else r

/-- The member `AsyncWebServerResponse::setContentLength(len)`. -/
def setContentLength (r : Response) (len : Nat) : Response :=
  if r._state = RESPONSE_SETUP then { r with _contentLength := len } else r

/-- The member `AsyncWebServerResponse::setContentType(type)`. -/
def setContentType (r : Response) (type : List Nat) : Response :=
  if r._state = RESPONSE_SETUP then { r with _contentType := type } else r

/-- The member `AsyncWebServerResponse::addHeader(name, value)`: the header is put at the end of
the list. -/
def addHeader (r : Response) (name value : List Nat) : Response :=
  { r with _headers := r._headers ++ [(name, value)] }

/-- `AsyncAbstractResponse::_respond(request)`; `version` is the answer of
`request->version()`. -/
def _respond (pf : Platform) (fuel : Nat) (env : AckEnv) (r : Response) (version : Nat) :
    AckOutcome :=
  let r1 := addHeader r (ascii "Connection") (ascii "close")
  let assembled := _assembleHead r1 version
  _ack pf fuel env { assembled.2 with _head := assembled.1, _state := RESPONSE_HEADERS } 0

/-! ## WebSocket client queue -/

/-- The macro `WS_MAX_QUEUED_MESSAGES` after the preprocessor block of `AsyncWebSocket.h`:
`configured` is the value the build defines for it, if any; `esp32` tells which of the two
branches is compiled. -/
def WS_MAX_QUEUED_MESSAGES (esp32 : Bool) (configured : Option Int) : Int :=
  match configured with
  | some v => if v < 1 then (if esp32 then 32 else 8) else v
  | none => if esp32 then 32 else 8

/-- The member `AsyncWebSocketClient::canSend()`, for the data-message queue `_messageQueue`.
The comparison of the queue length with the macro is exact: a bound that is an `int` is at least
1, so its conversion to the unsigned type of the length keeps its value. -/
def canSend {Message : Type} (esp32 : Bool) (configured : Option Int)
    (_messageQueue : List Message) : Bool :=
  decide ((_messageQueue.length : Int) < WS_MAX_QUEUED_MESSAGES esp32 configured)

/-! ## Response stream -/

/-- The members of `AsyncResponseStream` that `_fillBuffer` works on: the queue `_content` of
buffered chunks and the offset `_offset` into the first of them. -/
structure AsyncResponseStream where
  _content : List DynamicBuffer
  _offset : Nat
deriving Repr, DecidableEq

/-- The loop of `AsyncResponseStream::_fillBuffer`, run for at most `fuel` passes: `out` holds
the bytes copied to `buf` so far.  Returns the local `read`, the bytes copied and the stream
when the loop is left (`none` when it is still running). -/
def AsyncResponseStream.fillLoop :
    Nat → AsyncResponseStream → Nat → Nat → List Nat → Option (Nat × List Nat × AsyncResponseStream)
  | fuel, s, maxLen, read, out =>
    match s._content with
    | [] => some (read, out, s)
    | dbuf :: rest =>
      if maxLen = 0 then some (read, out, s)
      else
        match fuel with
        | 0 => none
        | fuel + 1 =>
          let to_read := min ((dbuf._len + SIZE_MOD - s._offset) % SIZE_MOD) maxLen
          let out1 := out ++ slice (dbuf._data.getD []) s._offset to_read
          let offset1 := (s._offset + to_read) % SIZE_MOD
          if offset1 = dbuf._len then
            AsyncResponseStream.fillLoop fuel { _content := rest, _offset := 0 }
              (maxLen - to_read) ((read + to_read) % SIZE_MOD) out1
          else
            AsyncResponseStream.fillLoop fuel { s with _offset := offset1 }
              (maxLen - to_read) ((read + to_read) % SIZE_MOD) out1

/-- `AsyncResponseStream::_fillBuffer(buf, maxLen)`: the value returned, the bytes stored from
`buf` on and the stream afterwards. -/
def AsyncResponseStream._fillBuffer (fuel : Nat) (s : AsyncResponseStream) (maxLen : Nat) :
    Option (Nat × List Nat × AsyncResponseStream) :=
  AsyncResponseStream.fillLoop fuel s maxLen 0 []

/-! ## Buffer to string -/

/-- The C library function `strnlen(s, maxlen)`: the number of bytes before the first zero byte
among the first `maxlen` bytes at `s`, or `maxlen` if there is none. -/
def strnlen (s : List Nat) (maxlen : Nat) : Nat := ((s.take maxlen).takeWhile (· ≠ 0)).length

/-- The members the helper class `DynamicBufferString` sets on the `String` it builds over a
buffer (`setBuffer`, `setCapacity`, `setLen`). -/
structure DynamicBufferString where
  buffer : List Nat
  capacity : Nat
  len : Nat
deriving Repr, DecidableEq

/-- The characters of the string: the `len` bytes at its buffer. -/
def DynamicBufferString.chars (s : DynamicBufferString) : List Nat := s.buffer.take s.len

/-- The constructor `DynamicBufferString(DynamicBuffer&& d)`; `none` when the buffer has no
block, for which `strnlen` is handed a null pointer. -/
def DynamicBufferString.ofBuffer (d : DynamicBuffer) : Option DynamicBufferString :=
  match d._data with
  | none => none
  | some buf =>
    let capacity := (d._len + SIZE_MOD - 1) % SIZE_MOD
    let len := strnlen buf capacity
    -- enforce null termination
    let buf1 := if len = capacity then pokeAt buf len [0] else buf
    some { buffer := buf1, capacity := capacity, len := len }

/-- The function `toString(DynamicBuffer buf)`: the characters of the `String` returned. -/
def toString (buf : DynamicBuffer) : Option (List Nat) :=
  (DynamicBufferString.ofBuffer buf).map DynamicBufferString.chars

/-! ## Constructors -/

/-- The constructor `AsyncWebServerResponse::AsyncWebServerResponse()`: `defaultHeaders` are
the headers of `DefaultHeaders::Instance()`.  The members of the derived classes that the
embedding keeps in the same record are given their initial values, and `source` stands for the
content the derived class reads from. -/
def newAsyncWebServerResponse
    (defaultHeaders : List (List Nat × List Nat)) (source : Source) : Response :=
  { _code := 0, _headers := defaultHeaders, _contentType := [], _contentLength := 0,
    _sendContentLength := true, _chunked := false, _headLength := 0, _sentLength := 0,
    _ackedLength := 0, _writtenLength := 0, _state := RESPONSE_SETUP, _head := [],
    _packet := Walkable.empty, _cache := [], _callback := none, source := source }

/-- The constructor `AsyncAbstractResponse::AsyncAbstractResponse(callback)`. -/
def newAsyncAbstractResponse (defaultHeaders : List (List Nat × List Nat))
    (source : Source) (callback : Option AwsTemplateProcessor) : Response :=
  let r := newAsyncWebServerResponse defaultHeaders source
  -- In case of template processing, we're unable to determine real response size
  if callback.isSome then
    { r with _callback := callback, _contentLength := 0, _sendContentLength := false,
             _chunked := true }
  else { r with _callback := callback }

/-- The constructor `AsyncBasicResponse::AsyncBasicResponse(code, contentType, content)`;
`CONTENT_TYPE_PLAIN` is the literal of that name. -/
def newAsyncBasicResponse (defaultHeaders : List (List Nat × List Nat))
    (CONTENT_TYPE_PLAIN : List Nat) (code : Int) (contentType content : List Nat) :
    AsyncBasicResponse :=
  let r := newAsyncWebServerResponse defaultHeaders
    { content := content, answers := [] }
  let r := { r with _code := code, _contentType := contentType }
  let r :=
    if content.length ≠ 0 then
      let r := { r with _contentLength := content.length }
      if r._contentType.length = 0 then { r with _contentType := CONTENT_TYPE_PLAIN } else r
    else r
  { base := addHeader r (ascii "Connection") (ascii "close"), _content := content }

/-- The constructor `AsyncFileResponse::AsyncFileResponse(content, path, contentType, download,
callback)`, to which the one taking a file system delegates.  Of the file `content` the
embedding takes its size `contentSize` and, as `nameIsGzip`, whether its name ends with
`GZIP_EXTENSION`; `pathIsGzip` tells whether `path` does, `contentTypeFor` is the function of
that name, and `filenameStart` is `path.lastIndexOf('/') + 1`. -/
def newAsyncFileResponse (defaultHeaders : List (List Nat × List Nat))
    (source : Source) (contentTypeFor : List Nat → List Nat) (contentSize : Nat)
    (nameIsGzip pathIsGzip : Bool) (filenameStart : Nat) (path contentType : List Nat)
    (download : Bool) (callback : Option AwsTemplateProcessor) : Response :=
  let r := newAsyncAbstractResponse defaultHeaders source callback
  let r := { r with _code := 200 }
  let r :=
    if !download && nameIsGzip && !pathIsGzip then
      let r := addHeader r (ascii "Content-Encoding") (ascii "gzip")
      -- Unable to process gzipped templates
      { r with _callback := none, _sendContentLength := true, _chunked := false }
    else r
  let r := { r with _contentLength := contentSize % SIZE_MOD }
  let r :=
    if contentType.length = 0 then { r with _contentType := contentTypeFor path }
    else { r with _contentType := contentType }
  let size := 26 + path.length - filenameStart
  let filename := cstr (path.drop filenameStart)
  let buf :=
    if download then snprintf size (ascii "attachment; filename=\"" ++ filename ++ ascii "\"")
    else snprintf size (ascii "inline")
  addHeader r (ascii "Content-Disposition") buf

/-- The constructor `AsyncStreamResponse::AsyncStreamResponse(stream, contentType, len,
callback)`. -/
def newAsyncStreamResponse (defaultHeaders : List (List Nat × List Nat))
    (source : Source) (contentType : List Nat) (len : Nat)
    (callback : Option AwsTemplateProcessor) : Response :=
  let r := newAsyncAbstractResponse defaultHeaders source callback
  { r with _code := 200, _contentLength := len, _contentType := contentType }

/-- The constructor `AsyncCallbackResponse::AsyncCallbackResponse(contentType, len, callback,
templateCallback)`; the filler `callback` is the `source`. -/
def newAsyncCallbackResponse (defaultHeaders : List (List Nat × List Nat))
    (source : Source) (contentType : List Nat) (len : Nat)
    (templateCallback : Option AwsTemplateProcessor) : Response :=
  let r := newAsyncAbstractResponse defaultHeaders source templateCallback
  let r := { r with _code := 200, _contentLength := len }
  let r := if len = 0 then { r with _sendContentLength := false } else r
  { r with _contentType := contentType }

/-- The constructor `AsyncChunkedResponse::AsyncChunkedResponse(contentType, callback,
processorCallback)`; the filler `callback` is the `source`. -/
def newAsyncChunkedResponse (defaultHeaders : List (List Nat × List Nat))
    (source : Source) (contentType : List Nat)
    (processorCallback : Option AwsTemplateProcessor) : Response :=
  let r := newAsyncAbstractResponse defaultHeaders source processorCallback
  { r with _code := 200, _contentLength := 0, _contentType := contentType,
           _sendContentLength := false, _chunked := true }

/-- The constructor `AsyncProgmemResponse::AsyncProgmemResponse(code, contentType, content, len,
callback)`. -/
def newAsyncProgmemResponse (defaultHeaders : List (List Nat × List Nat))
    (code : Int) (contentType content : List Nat) (len : Nat)
    (callback : Option AwsTemplateProcessor) : Response :=
  let r := newAsyncAbstractResponse defaultHeaders
    { content := content.take len, answers := [] } callback
  { r with _code := code, _contentType := contentType, _contentLength := len }

/-- The constructor `AsyncResponseStream::AsyncResponseStream(contentType, bufferSize)`: the
members of the base classes, built without a template callback, and those of the stream. -/
def newAsyncResponseStream (defaultHeaders : List (List Nat × List Nat))
    (contentType : List Nat) : Response × AsyncResponseStream :=
  let r := newAsyncAbstractResponse defaultHeaders
    { content := [], answers := [] } none
  ({ r with _code := 200, _contentLength := 0, _contentType := contentType },
    { _content := [], _offset := 0 })

/-! ## Auxiliary notions for the statements -/

/-- Safety invariant of the scan loop for a buffer of `N` bytes: no store has gone past the
buffer, the buffer has kept its size, and `pTemplateStart` and `len` stay within it (or `len` is
the `RESPONSE_TRY_AGAIN` value). -/
def Scan.Safe (N : Nat) (sc : Scan) : Prop :=
  sc.buf.hw ≤ N ∧ sc.buf.bytes.length = N ∧ sc.pTemplateStart ≤ N
    ∧ (sc.len ≤ N ∨ sc.len = RESPONSE_TRY_AGAIN)

instance (N : Nat) (sc : Scan) : Decidable (Scan.Safe N sc) := by
  unfold Scan.Safe
  infer_instance

/-- The transport calls of a finished `_ack` (none when it did not finish). -/
def AckOutcome.events : AckOutcome → List Event
  | AckOutcome.done _ _ events => events
  | _ => []

/-- The response a finished `_ack` leaves. -/
def AckOutcome.response : AckOutcome → Option Response
  | AckOutcome.done r _ _ => some r
  | _ => none

/-- The state of the response a finished `_ack` leaves. -/
def AckOutcome.state (o : AckOutcome) : Option WebResponseState := o.response.map (·._state)

/-- Successive `_ack` calls: each entry gives what the surroundings answer during the call and
the acknowledged length passed to it.  Returns the final response and all transport calls in
order, as long as every call finishes. -/
def ackRun (pf : Platform) (fuel : Nat) : Response → List (AckEnv × Nat) → Option (Response × List Event)
  | r, [] => some (r, [])
  | r, (env, len) :: rest =>
    match _ack pf fuel env r len with
    | AckOutcome.done r1 _ events =>
      (ackRun pf fuel r1 rest).map (fun res => (res.1, events ++ res.2))
    | _ => none

/-- The packet buffer `_ack` obtains for a chunked response when the transport window is
`env.space`. -/
def chunkPacket (pf : Platform) (env : AckEnv) : DynamicBuffer :=
  _safe_allocate_buffer pf env env.space

/-- The fill `_ack` performs for a chunked response into that packet buffer, six bytes in and
leaving eight bytes for the envelope. -/
def chunkFill (pf : Platform) (fuel : Nat) (env : AckEnv) (r : Response) : Outcome :=
  _fillBufferAndProcessTemplates pf fuel (env.addr + 6) r._callback r.fillState
    (slice ((chunkPacket pf env)._data.getD []) 6 ((chunkPacket pf env)._len - 8))

/-- Successive calls of `_fillBufferAndProcessTemplates`, one per requested length in `lens`, each
into a fresh buffer whose bytes read `junk`.  Returns the outputs concatenated, the members
after the last call and the names passed to the callback, as long as every call returns. -/
def fillRun (pf : Platform) (fuel base junk : Nat) (callback : Option AwsTemplateProcessor) :
    FillState → List Nat → Option (List Nat × FillState × List (List Nat))
  | st, [] => some ([], st, [])
  | st, len :: lens =>
    match _fillBufferAndProcessTemplates pf fuel base callback st (List.replicate len junk) with
    | Outcome.returned sc =>
      (fillRun pf fuel base junk callback sc.st lens).map
        (fun res => (sc.output ++ res.1, res.2.1, sc.calls ++ res.2.2))
    | _ => none

/-- A source that holds the given text and answers every call in full. -/
def textSource (text : String) : FillState :=
  { _cache := [], source := { content := ascii text, answers := [] }, _sentLength := 0 }

/-- A response about to send its body: no head pending, nothing sent yet. -/
def bodyResponse (content : String) (chunked : Bool) : Response :=
  { _code := 200, _headers := [], _contentType := [],
    _contentLength := if chunked then 0 else content.length,
    _sendContentLength := !chunked, _chunked := chunked, _headLength := 0, _sentLength := 0,
    _ackedLength := 0, _writtenLength := 0, _state := RESPONSE_CONTENT, _head := [],
    _packet := Walkable.empty, _cache := [], _callback := none,
    source := { content := ascii content, answers := [] } }

/-- Surroundings with a valid source, a heap that serves every request, and a transport with
window `space` that answers its `add`/`write` calls with `accepts`. -/
def plainEnv (space : Nat) (accepts : List Nat) : AckEnv :=
  { sourceValid := true, space := space, accepts := accepts, allocOk := true,
    maxFreeBlock := 30000, retryOk := true, resizeOk := true, addr := 0x3FFE8000, junk := 63 }

/-- A length-delimited response with its head still to send. -/
def lengthResponse (head content : String) : Response :=
  { bodyResponse content false with
    _state := RESPONSE_HEADERS, _head := ascii head, _headLength := head.length }

/-- A response in `RESPONSE_SETUP` carrying one header whose value is 300 bytes long. -/
def longHeaderResponse : Response :=
  { bodyResponse "" false with
    _state := RESPONSE_SETUP, _headers := [(ascii "X-Note", List.replicate 300 97)] }

/-- A source that holds the given text and answers its first calls as scheduled. -/
def stallingSource (text : String) (answers : List (Option Nat)) : FillState :=
  { _cache := [], source := { content := ascii text, answers := answers }, _sentLength := 0 }

/-- The template callback that gives every parameter the value `X`. -/
def allX : AwsTemplateProcessor := fun _ => ascii "X"

/-- The template callback that gives every parameter the value `0123456789`. -/
def tenDigits : AwsTemplateProcessor := fun _ => ascii "0123456789"

/-- The template callback that gives a parameter its own placeholder as value. -/
def echoName : AwsTemplateProcessor := fun name => [37] ++ name ++ [37]

/-- The scan state right after the three bytes `text` have been read into a three-byte buffer,
with `calls` the callback arguments recorded so far. -/
def stuckScan (text : List Nat) (calls : List (List Nat)) : Scan :=
  { buf := { bytes := text, hw := 3 }, len := 3, pTemplateStart := 0,
    st := { _cache := [], source := { content := [], answers := [] }, _sentLength := 3 },
    calls := calls }

/-- A response sent without Content-Length and without chunking, its head still to send. -/
def unframedResponse (head content : String) : Response :=
  { bodyResponse content false with
    _contentLength := 0, _sendContentLength := false,
    _state := RESPONSE_HEADERS, _head := ascii head, _headLength := head.length }

/-- An `AsyncBasicResponse` as its constructor leaves it when given a code, a content type and
a content that are both not empty: the content length is that of the content, and the header
`Connection: close` is added. -/
def basicResponse (code : Int) (contentType content : String) : AsyncBasicResponse :=
  { base :=
      { bodyResponse content false with
        _code := code, _contentType := ascii contentType,
        _headers := [(ascii "Connection", ascii "close")], _state := RESPONSE_SETUP },
    _content := ascii content }

/-- A whole exchange of an `AsyncBasicResponse`: `_respond` under the window and accepted counts
`first`, then one `_ack` per entry of `acks` (window, accepted counts, acknowledged length).
Returns the response at the end and all transport calls in order. -/
def basicRun (version junk : Nat) (r : AsyncBasicResponse) (first : Nat × List Nat)
    (acks : List (Nat × List Nat × Nat)) : AsyncBasicResponse × List Event :=
  acks.foldl
    (fun acc a =>
      let res := acc.1._ack a.1 junk a.2.1 a.2.2
      (res.1, acc.2 ++ res.2.2))
    (r._respond version first.1 junk first.2)

/-- The number of buffers `allocateList` has to construct for `total` bytes in pieces of at most
`max_buffer_size`. -/
def buffersNeeded (total max_buffer_size : Nat) : Nat :=
  (total + max_buffer_size - 1) / max_buffer_size

/-- Every allocation `allocateList` asks for succeeds: each of the buffers needed is granted its
block, and no buffer of zero bytes is asked for (its data pointer would be null). -/
def allocationsSucceed (grants : List Bool) (total max_buffer_size : Nat) : Prop :=
  (total = 0 ∨ 0 < max_buffer_size)
    ∧ ∀ i, i < buffersNeeded total max_buffer_size → grants.getD i true = true

/-- A fill state with nothing left to deliver: an empty cache and a source at its end that
answers every call in full. -/
def Drained (st : FillState) : Prop :=
  st._cache = [] ∧ st.source.content = [] ∧ st.source.answers = []

/-- The delimiter byte occurs in a text only in adjacent pairs. -/
def pairedOnly : List Nat → Bool
  | [] => true
  | [b] => b ≠ TEMPLATE_PLACEHOLDER
  | b :: c :: rest =>
    if b = TEMPLATE_PLACEHOLDER then c = TEMPLATE_PLACEHOLDER && pairedOnly rest
    else pairedOnly (c :: rest)

/-- The text with every adjacent pair of delimiter bytes replaced by a single delimiter byte,
pairs being taken from the left. -/
def unescape : List Nat → List Nat
  | [] => []
  | [b] => [b]
  | b :: c :: rest =>
    if b = TEMPLATE_PLACEHOLDER ∧ c = TEMPLATE_PLACEHOLDER then
      TEMPLATE_PLACEHOLDER :: unescape rest
    else b :: unescape (c :: rest)

/-- A buffer whose block, if it has one, is as long as its size says; without a block the size
is 0. -/
def DynamicBuffer.WellFormed (b : DynamicBuffer) : Prop :=
  (b._data.getD []).length = b._len

instance (b : DynamicBuffer) : Decidable b.WellFormed := by
  unfold DynamicBuffer.WellFormed
  infer_instance

/-- The bytes a buffer holds. -/
def DynamicBuffer.contents (b : DynamicBuffer) : List Nat := b._data.getD []

/-- The buffer holds an allocation: its data pointer is not null and the block it points at has
not been handed back to the heap. -/
def DynamicBuffer.holdsAllocation (b : DynamicBuffer) : Bool := b._data.isSome && !b.freed

/-- Successive calls of `AsyncResponseStream::_fillBuffer`, one per requested length: the
value returned and the bytes stored by each call, and the stream at the end, as long as every
call returns. -/
def streamRun (fuel : Nat) :
    AsyncResponseStream → List Nat → Option (List (Nat × List Nat) × AsyncResponseStream)
  | s, [] => some ([], s)
  | s, n :: ns =>
    match s._fillBuffer fuel n with
    | none => none
    | some res =>
      (streamRun fuel res.2.2 ns).map (fun tl => ((res.1, res.2.1) :: tl.1, tl.2))

/-- What draining a byte sequence in requests of the given lengths yields: for each request the
count and the bytes, `min(requested, remaining)` of them, taken from the front. -/
def drainInOrder : List Nat → List Nat → List (Nat × List Nat)
  | _, [] => []
  | bytes, n :: ns => (min n bytes.length, bytes.take n) :: drainInOrder (bytes.drop n) ns

/-- The bytes a response stream still has to deliver. -/
def AsyncResponseStream.remaining (s : AsyncResponseStream) : List Nat :=
  ((s._content.map DynamicBuffer.contents).flatten).drop s._offset

/-- The template callback that gives the parameter `A` the value `%B%` and every other parameter
the value `X`. -/
def nestedValue : AwsTemplateProcessor :=
  fun name => if name = ascii "A" then ascii "%B%" else ascii "X"

/-- A buffer holding the four bytes 1, 2, 3, 4. -/
def fourBytes : DynamicBuffer := { _data := some [1, 2, 3, 4], _len := 4 }

/-- The size `_ack` asks `_safe_allocate_buffer` for when the window is `space`: the window for
a chunked response and for one without Content-Length, otherwise the window or the rest of the
content length, whichever is less. -/
def packetRequest (r : Response) (space : Nat) : Nat :=
  if r._chunked then space
  else if ¬ r._sendContentLength then space
  else min space ((r._contentLength + SIZE_MOD - r._sentLength) % SIZE_MOD)

/-- Surroundings like `plainEnv`, but with a heap that serves no request. -/
def fullHeapEnv (space : Nat) : AckEnv :=
  { plainEnv space [] with allocOk := false, retryOk := false }

/-- A response about to send its body whose source answers its next call with
`RESPONSE_TRY_AGAIN`. -/
def stallingResponse (content : String) (chunked : Bool) : Response :=
  { bodyResponse content chunked with
    source := { content := ascii content, answers := [none] } }

/-- The buffered chunks of a response stream are in order: every chunk is well formed and of a
size below `2^32`, and `_offset` lies inside the first chunk or is 0. -/
def AsyncResponseStream.Sound (s : AsyncResponseStream) : Prop :=
  (∀ b ∈ s._content, b.WellFormed ∧ b._len < SIZE_MOD)
    ∧ (s._offset = 0 ∨ ∃ b rest, s._content = b :: rest ∧ s._offset < b._len)

/-- Two `_ack` calls with a valid source: a window of 5 bytes, then a window of 100 bytes with
5 bytes acknowledged. -/
def narrowThenWide : List (AckEnv × Nat) := [(plainEnv 5 [], 0), (plainEnv 100 [], 5)]

/-- The chunks `abc`, an empty chunk, and `defgh`. -/
def threeChunks : List DynamicBuffer :=
  [{ _data := some (ascii "abc"), _len := 3 }, { _data := none, _len := 0 },
   { _data := some (ascii "defgh"), _len := 5 }]

/-- Surroundings like `plainEnv`, but with a largest free block of 100 bytes once the packet
buffer is allocated. -/
def tightHeapEnv (space : Nat) : AckEnv :=
  { plainEnv space [] with maxFreeBlock := 100 }

/-- A fill state with `ab` in the cache and a source that holds `cdef`. -/
def cachedAb : FillState :=
  { _cache := ascii "ab", source := { content := ascii "cdef", answers := [] },
    _sentLength := 0 }

/-- The bytes offered to the transport in the `add` and `write` calls among some calls, in call
order. -/
def offered : List Event → List Nat
  | [] => []
  | Event.add bytes _ :: rest => bytes ++ offered rest
  | Event.write bytes _ :: rest => bytes ++ offered rest
  | _ :: rest => offered rest

/-- A chunked response with the content `hello`, as set up by a handler and not yet started. -/
def chunkedHello : Response :=
  { bodyResponse "hello" true with _state := RESPONSE_SETUP }

/-- The calls of the response constructors of `WebResponses.cpp`, with their arguments. -/
inductive ConstructorCall where
  | basic (CONTENT_TYPE_PLAIN : List Nat) (code : Int) (contentType content : List Nat)
  | file (source : Source) (contentTypeFor : List Nat → List Nat) (contentSize : Nat)
      (nameIsGzip pathIsGzip : Bool) (filenameStart : Nat) (path contentType : List Nat)
      (download : Bool) (callback : Option AwsTemplateProcessor)
  | stream (source : Source) (contentType : List Nat) (len : Nat)
      (callback : Option AwsTemplateProcessor)
  | callback (source : Source) (contentType : List Nat) (len : Nat)
      (templateCallback : Option AwsTemplateProcessor)
  | chunked (source : Source) (contentType : List Nat)
      (processorCallback : Option AwsTemplateProcessor)
  | progmem (code : Int) (contentType content : List Nat) (len : Nat)
      (callback : Option AwsTemplateProcessor)
  | responseStream (contentType : List Nat)

/-- The response a constructor call yields, with `defaultHeaders` the default headers in
force. -/
def ConstructorCall.response (defaultHeaders : List (List Nat × List Nat)) :
    ConstructorCall → Response
  | ConstructorCall.basic plain code contentType content =>
    (newAsyncBasicResponse defaultHeaders plain code contentType content).base
  | ConstructorCall.file source contentTypeFor contentSize nameIsGzip pathIsGzip filenameStart
      path contentType download cb =>
    newAsyncFileResponse defaultHeaders source contentTypeFor contentSize
      nameIsGzip pathIsGzip filenameStart path contentType download cb
  | ConstructorCall.stream source contentType len cb =>
    newAsyncStreamResponse defaultHeaders source contentType len cb
  | ConstructorCall.callback source contentType len templateCallback =>
    newAsyncCallbackResponse defaultHeaders source contentType len
      templateCallback
  | ConstructorCall.chunked source contentType processorCallback =>
    newAsyncChunkedResponse defaultHeaders source contentType
      processorCallback
  | ConstructorCall.progmem code contentType content len cb =>
    newAsyncProgmemResponse defaultHeaders code contentType content len cb
  | ConstructorCall.responseStream contentType =>
    (newAsyncResponseStream defaultHeaders contentType).1

/-- The line `_assembleHead` emits for the content length: the `Content-Length` line when
`_sendContentLength` is set, nothing otherwise. -/
def contentLengthLine (r : Response) : List Nat :=
  if r._sendContentLength then
    snprintf bufSize (ascii "Content-Length: " ++ printfD (asInt r._contentLength) ++ CRLF)
  else []

/-- The line `_assembleHead` emits for the transfer encoding: `Transfer-Encoding: chunked` when
`_chunked` is set and the protocol version is not 0, nothing otherwise. -/
def chunkedLine (r : Response) (version : Nat) : List Nat :=
  if version ≠ 0 ∧ r._chunked then ascii "Transfer-Encoding: chunked" ++ CRLF else []

/-- The status line `_assembleHead` emits. -/
def statusLine (r : Response) (version : Nat) : List Nat :=
  snprintf bufSize
      (ascii "HTTP/1." ++ printfD (version : Int) ++ ascii " " ++ printfD r._code ++ ascii " ")
    ++ _responseCodeToString r._code ++ CRLF

/-- The lines `_assembleHead` emits between the content length and the transfer encoding: the
content type when set, the headers, and `Accept-Ranges: none` when the protocol version is not
0. -/
def middleLines (r : Response) (version : Nat) : List Nat :=
  (if r._contentType.length ≠ 0 then
      snprintf bufSize (ascii "Content-Type: " ++ cstr r._contentType ++ CRLF)
    else [])
    ++ (r._headers.map
        (fun header => snprintf bufSize (cstr header.1 ++ ascii ": " ++ cstr header.2 ++ CRLF))).flatten
    ++ (if version ≠ 0 then ascii "Accept-Ranges: none" ++ CRLF else [])

/-- The count of head bytes the transport takes over during one call of `_ack` in
`RESPONSE_HEADERS`: none while the window is closed, otherwise what `add` returns when it is
offered the first `min(space, headLen)` bytes of the pending head. -/
def headAccepts (head : List Nat) (env : AckEnv) : Nat :=
  if env.space = 0 then 0
  else (transfer (head.take (min env.space head.length)) env.accepts).1

/-! # Properties -/

/-! ## Memory, reads and the scan invariant -/

theorem pokeAt_length (mem : List Nat) (off : Nat) (xs : List Nat) :
    (pokeAt mem off xs).length = mem.length := by
  induction mem generalizing off xs with
  | nil => simp [pokeAt]
  | cons b bs ih =>
    cases off with
    | zero =>
      cases xs with
      | nil => simp [pokeAt]
      | cons x xs => simp [pokeAt, ih]
    | succ off => simp [pokeAt, ih]

theorem store_length (b : Buf) (off : Nat) (xs : List Nat) :
    (b.store off xs).bytes.length = b.bytes.length := by
  unfold Buf.store
  split
  · rfl
  · simp [pokeAt_length]

theorem store_hw (b : Buf) (off : Nat) (xs : List Nat) (N : Nat) (hb : b.hw ≤ N)
    (hx : xs.length = 0 ∨ off + xs.length ≤ N) : (b.store off xs).hw ≤ N := by
  unfold Buf.store
  split
  · exact hb
  · rename_i h
    rcases hx with hx | hx
    · exact absurd hx h
    · simp only [max_le_iff]; exact ⟨hb, hx⟩

theorem slice_length_le (mem : List Nat) (off n : Nat) : (slice mem off n).length ≤ n := by
  unfold slice; simp

theorem slice_length (mem : List Nat) (off n : Nat) :
    (slice mem off n).length = min n (mem.length - off) := by
  unfold slice; simp

theorem findByte_lt (c : Nat) (xs : List Nat) (i : Nat) (h : findByte c xs = some i) :
    i < xs.length := by
  induction xs generalizing i with
  | nil => simp [findByte] at h
  | cons b bs ih =>
    unfold findByte at h
    split at h
    · simp at h; subst h; simp
    · cases hf : findByte c bs with
      | none => simp [hf] at h
      | some j =>
        simp [hf] at h
        subst h
        have := ih j hf
        simp; omega

theorem memchr_bounds (mem : List Nat) (off c n i : Nat) (h : memchr mem off c n = some i) :
    off ≤ i ∧ i < off + n ∧ i < mem.length := by
  unfold memchr at h
  cases hf : findByte c (slice mem off n) with
  | none => simp [hf] at h
  | some j =>
    simp [hf] at h
    subst h
    have hj := findByte_lt c _ j hf
    rw [slice_length] at hj
    omega

theorem fillBuffer_spec (src : Source) (n : Nat) :
    ((src._fillBuffer n).1 = RESPONSE_TRY_AGAIN ∧ (src._fillBuffer n).2.1 = [])
    ∨ ((src._fillBuffer n).1 = (src._fillBuffer n).2.1.length ∧ (src._fillBuffer n).2.1.length ≤ n) := by
  unfold Source._fillBuffer
  split
  · right; simp
  · left; simp
  · right; simp

theorem read_spec (st : FillState) (n : Nat) :
    ((_readDataFromCacheOrContent st n).1 = RESPONSE_TRY_AGAIN
        ∧ (_readDataFromCacheOrContent st n).2.1 = [])
    ∨ ((_readDataFromCacheOrContent st n).1 = (_readDataFromCacheOrContent st n).2.1.length
        ∧ (_readDataFromCacheOrContent st n).2.1.length ≤ n) := by
  unfold _readDataFromCacheOrContent
  simp only []
  split
  · split
    · right
      rename_i h1 h2
      rcases fillBuffer_spec { st with _cache := List.drop (min n st._cache.length) st._cache }.source (n - min n st._cache.length) with h | h
      · exact absurd h.1 h2
      · simp at h ⊢
        omega
    · split
      · left; rename_i h1 h2 h3; simp at h2; simp [h2]
      · right; simp
  · right; simp

theorem SIZE_MOD_eq : SIZE_MOD = 4294967296 := by decide
theorem TRY_AGAIN_eq : RESPONSE_TRY_AGAIN = 4294967295 := by decide

theorem makeRoom_safe (N : Nat) (sc : Scan) (e nbc : Nat) (hs : Scan.Safe N sc)
    (hel : e < sc.len) (hl : sc.len ≤ N)
    (hn : nbc ≤ N - sc.pTemplateStart) :
    (makeRoom N sc e nbc).1.hw ≤ N ∧ (makeRoom N sc e nbc).1.bytes.length = N
      ∧ (makeRoom N sc e nbc).2.1 ≤ N ∧ e < (makeRoom N sc e nbc).2.1
      ∧ (sc.pTemplateStart + nbc ≤ e + 1 → (makeRoom N sc e nbc).2.1 = sc.len)
      ∧ (e + 1 ≤ sc.pTemplateStart + nbc →
          (makeRoom N sc e nbc).2.1 = N ∨
          (makeRoom N sc e nbc).2.1 + (sc.pTemplateStart + nbc - e - 1) ≤ N) := by
  obtain ⟨h1, h2, h3, h4⟩ := hs
  unfold makeRoom
  simp only []
  split
  · rename_i hc
    dsimp only
    refine ⟨?_, ?_, le_refl _, by omega, by omega, by omega⟩
    · apply store_hw _ _ _ _ h1
      right
      have := slice_length_le sc.buf.bytes (e + 1) (N - sc.pTemplateStart - nbc)
      omega
    · rw [store_length]; exact h2
  · split
    · rename_i hc hne
      dsimp only
      refine ⟨?_, ?_, hl, hel, by intro; rfl, by intro; right; omega⟩
      · apply store_hw _ _ _ _ h1
        have := slice_length_le sc.buf.bytes (e + 1) (sc.len - e - 1)
        rw [not_and_or] at hc
        by_cases hlen : (slice sc.buf.bytes (e + 1) (sc.len - e - 1)).length = 0
        · left; exact hlen
        · right; omega
      · rw [store_length]; exact h2
    · rename_i hc hne
      dsimp only
      refine ⟨h1, h2, hl, hel, by intro; rfl, by intro; right; omega⟩

theorem substitute_safe (N : Nat) (cb : AwsTemplateProcessor) (sc : Scan) (e : Nat)
    (name : List Nat) (hs : Scan.Safe N sc) (hel : e < sc.len)
    (hl : sc.len ≤ N) (hN : N < RESPONSE_TRY_AGAIN) :
    Scan.Safe N (substitute N cb sc e name) := by
  unfold substitute
  split
  · exact hs
  · have hsafe := hs
    obtain ⟨h1, h2, h3, h4⟩ := hs
    have hn : min (cb name).length (N - sc.pTemplateStart) ≤ N - sc.pTemplateStart :=
      Nat.min_le_right _ _
    obtain ⟨m1, m2, m3, m4, m5, m6⟩ :=
      makeRoom_safe N sc e (min (cb name).length (N - sc.pTemplateStart)) hsafe hel hl hn
    simp only []
    generalize makeRoom N sc e (min (cb name).length (N - sc.pTemplateStart)) = mv at *
    obtain ⟨b1, l1, st1⟩ := mv
    generalize hnbc : min (cb name).length (N - sc.pTemplateStart) = nbc at *
    dsimp only at *
    have hstore : (b1.store sc.pTemplateStart (List.take nbc (cb name))).hw ≤ N := by
      apply store_hw _ _ _ _ m1
      right
      simp only [List.length_take]
      omega
    have hlen2 : (b1.store sc.pTemplateStart (List.take nbc (cb name))).bytes.length = N := by
      rw [store_length]; exact m2
    split
    · exact ⟨hstore, hlen2, h3, Or.inl m3⟩
    · split
      · rename_i hlt
        have hl1 : l1 = sc.len := m5 (by omega)
        subst hl1
        rcases read_spec st1 (N - sc.len + (e + 1 - sc.pTemplateStart - nbc)) with hr | hr
        · refine ⟨?_, ?_, h3, ?_⟩
          · dsimp only
            rw [hr.2]
            simpa [Buf.store] using hstore
          · dsimp only
            rw [store_length]; exact hlen2
          · dsimp only
            rw [hr.1, SIZE_MOD_eq, TRY_AGAIN_eq]
            rw [TRY_AGAIN_eq] at hN
            omega
        · refine ⟨?_, ?_, h3, ?_⟩
          · dsimp only
            apply store_hw _ _ _ _ hstore
            right
            omega
          · dsimp only
            rw [store_length]; exact hlen2
          · dsimp only
            rw [hr.1, SIZE_MOD_eq]
            rw [TRY_AGAIN_eq] at hN
            left
            omega
      · refine ⟨hstore, hlen2, h3, Or.inl ?_⟩
        dsimp only
        exact Nat.min_le_right _ _

theorem ptrLt_spec (base N a b : Nat) (hbase : 0 < base) (hfit : base + N < SIZE_MOD)
    (ha : a ≤ N) (hb : b ≤ N ∨ b = RESPONSE_TRY_AGAIN) (h : ptrLt base a b = true) :
    a < b ∧ b ≤ N := by
  unfold ptrLt at h
  rw [SIZE_MOD_eq] at h hfit
  rw [TRY_AGAIN_eq] at hb
  simp only [decide_eq_true_eq] at h
  omega

theorem scanStep_safe (pf : Platform) (base N : Nat) (cb : AwsTemplateProcessor) (sc : Scan)
    (hbase : 0 < base) (hfit : base + N < SIZE_MOD) (hs : Scan.Safe N sc) :
    Scan.Safe N (scanStep pf base N cb sc).scan := by
  have hN : N < RESPONSE_TRY_AGAIN := by rw [SIZE_MOD_eq] at hfit; rw [TRY_AGAIN_eq]; omega
  unfold scanStep
  simp only []
  split
  · exact hs
  · rename_i hp
    simp only [Bool.not_eq_true, Bool.not_eq_false] at hp
    obtain ⟨h1, h2, h3, h4⟩ := hs
    obtain ⟨hlt, hlen⟩ := ptrLt_spec base N _ _ hbase hfit h3 h4 hp
    split
    · exact ⟨h1, h2, h3, h4⟩
    · rename_i s hm
      obtain ⟨hs1, hs2, hs3⟩ := memchr_bounds _ _ _ _ _ hm
      have hsl : s < sc.len := by omega
      have hsafe0 : Scan.Safe N { sc with pTemplateStart := s } :=
        ⟨h1, h2, by dsimp only; omega, h4⟩
      split
      · rename_i e he
        have hse : s < e ∧ e < sc.len := by
          split at he
          · obtain ⟨a1, a2, a3⟩ := memchr_bounds _ _ _ _ _ he
            omega
          · exact absurd he (by simp)
        split
        · exact substitute_safe N cb _ e _ hsafe0 hse.2 hlen hN
        · dsimp only [Step.scan]
          have hsl1 := slice_length_le sc.buf.bytes (e + 1) (sc.len - e - 1)
          have hb1 : (sc.buf.store e (slice sc.buf.bytes (e + 1) (sc.len - e - 1))).hw ≤ N := by
            apply store_hw _ _ _ _ h1
            right; omega
          rcases read_spec sc.st 1 with hr | hr
          · refine ⟨?_, ?_, by dsimp only; omega, ?_⟩
            · rw [hr.2]; simpa [Buf.store] using hb1
            · rw [store_length, store_length]; exact h2
            · dsimp only
              rw [hr.1, SIZE_MOD_eq, TRY_AGAIN_eq]
              rw [TRY_AGAIN_eq] at hN
              left; omega
          · refine ⟨?_, ?_, by dsimp only; omega, ?_⟩
            · apply store_hw _ _ _ _ hb1
              right; omega
            · rw [store_length, store_length]; exact h2
            · dsimp only
              rw [hr.1, SIZE_MOD_eq]
              rw [TRY_AGAIN_eq] at hN
              left; omega
      · split
        · split
          · split
            · exact hsafe0
            · split
              · exact substitute_safe N cb _ (sc.len - 1) _ hsafe0
                  (by dsimp only; omega) hlen hN
              · exact ⟨h1, h2, by dsimp only [Step.scan]; omega, h4⟩
          · exact ⟨h1, h2, by dsimp only [Step.scan]; omega, h4⟩
        · exact ⟨h1, h2, by dsimp only [Step.scan]; omega, h4⟩

theorem scanLoop_safe (pf : Platform) (base N : Nat) (cb : AwsTemplateProcessor) (fuel : Nat)
    (sc : Scan) (hbase : 0 < base) (hfit : base + N < SIZE_MOD) (hs : Scan.Safe N sc) :
    Scan.Safe N (scanLoop pf base N cb fuel sc).scan := by
  induction fuel generalizing sc with
  | zero => exact hs
  | succ fuel ih =>
    unfold scanLoop
    have h := scanStep_safe pf base N cb sc hbase hfit hs
    split
    · rename_i sc1 heq; rw [heq] at h; exact h
    · rename_i sc1 heq; rw [heq] at h; exact h
    · rename_i sc1 heq; rw [heq] at h; exact ih sc1 h

theorem firstRead_safe (st : FillState) (data : List Nat) :
    Scan.Safe data.length (firstRead st data) := by
  unfold firstRead
  rcases read_spec st data.length with hr | hr
  · refine ⟨?_, ?_, Nat.zero_le _, Or.inr hr.1⟩
    · simp only []; rw [hr.2]; simp [Buf.store]
    · simp only []; rw [store_length]
  · refine ⟨?_, ?_, Nat.zero_le _, Or.inl (by simp only []; rw [hr.1]; exact hr.2)⟩
    · apply store_hw _ _ _ _ (Nat.zero_le _)
      right; omega
    · simp only []; rw [store_length]

theorem fill_safe (pf : Platform) (fuel base : Nat) (cb : Option AwsTemplateProcessor)
    (st : FillState) (data : List Nat) (hbase : 0 < base)
    (hfit : base + data.length < SIZE_MOD) :
    Scan.Safe data.length (_fillBufferAndProcessTemplates pf fuel base cb st data).scan := by
  unfold _fillBufferAndProcessTemplates
  split
  · exact firstRead_safe st data
  · exact scanLoop_safe pf base data.length _ fuel _ hbase hfit (firstRead_safe st data)

/-! ## Chunk envelope -/

theorem hexRev_length_le (fuel n k : Nat) (h : n < 16 ^ k) : (hexRev fuel n).length ≤ k := by
  induction fuel generalizing n k with
  | zero => simp [hexRev]
  | succ fuel ih =>
    unfold hexRev
    split
    · simp
    · rename_i hn
      cases k with
      | zero => simp at h; exact absurd h hn
      | succ k =>
        have : n / 16 < 16 ^ k := by
          rw [Nat.div_lt_iff_lt_mul (by norm_num)]
          rw [pow_succ] at h
          exact h
        have := ih (n / 16) k this
        simp only [List.length_cons]
        omega

theorem sprintf04x_length (n : Nat) (h : n < 65536) : (sprintf04x n).length = 4 := by
  unfold sprintf04x hexNumeral
  split
  · simp
  · have := hexRev_length_le 8 n 4 (by norm_num; exact h)
    simp only [List.length_append, List.length_replicate, List.length_reverse]
    omega

theorem pokeAt_zero (mem xs : List Nat) (h : xs.length ≤ mem.length) :
    pokeAt mem 0 xs = xs ++ mem.drop xs.length := by
  induction mem generalizing xs with
  | nil =>
    cases xs with
    | nil => simp [pokeAt]
    | cons x xs => simp at h
  | cons b bs ih =>
    cases xs with
    | nil => simp [pokeAt]
    | cons x xs =>
      simp only [pokeAt, List.length_cons, List.drop_succ_cons, List.cons_append, List.cons.injEq,
        true_and]
      exact ih xs (by simpa using h)

theorem pokeAt_append (a b xs : List Nat) : pokeAt (a ++ b) a.length xs = a ++ pokeAt b 0 xs := by
  induction a with
  | nil => simp
  | cons x a ih => simp [pokeAt, ih]

theorem pokeAt_add (a b : List Nat) (off : Nat) (xs : List Nat) :
    pokeAt (a ++ b) (a.length + off) xs = a ++ pokeAt b off xs := by
  induction a with
  | nil => simp
  | cons x a ih =>
    have : (x :: a).length + off = (a.length + off) + 1 := by simp; omega
    rw [this]
    simp [pokeAt, ih]

theorem pokeAt_nil (mem : List Nat) (off : Nat) : pokeAt mem off [] = mem := by
  induction mem generalizing off with
  | nil => simp [pokeAt]
  | cons b bs ih =>
    cases off with
    | zero => simp [pokeAt]
    | succ off => simp [pokeAt, ih]

theorem pokeAt_header (h0 h1 h2 h3 h4 h5 : Nat) (pay back : List Nat) (k : Nat)
    (xs : List Nat) :
    pokeAt (h0 :: h1 :: h2 :: h3 :: h4 :: h5 :: (pay ++ back)) (4 + 2 + pay.length + k) xs
      = h0 :: h1 :: h2 :: h3 :: h4 :: h5 :: (pay ++ pokeAt back k xs) := by
  have h := pokeAt_add ([h0, h1, h2, h3, h4, h5] ++ pay) back k xs
  have e : ([h0, h1, h2, h3, h4, h5] ++ pay).length + k = 4 + 2 + pay.length + k := by
    simp; omega
  rw [e] at h
  simpa using h

theorem chunkEnvelope_spec (mem payload : List Nat) (n : Nat)
    (hmem : mem.length = payload.length + 8) (hn : n ≤ payload.length) (h16 : n < 65536) :
    ∃ rest, chunkEnvelope (pokeAt mem 6 payload) n
        = some (sprintf04x n ++ CRLF ++ payload.take n ++ CRLF ++ rest, n + 8)
      ∧ rest.length = payload.length - n := by
  have hd := sprintf04x_length n h16
  unfold chunkEnvelope
  generalize sprintf04x n = digits at hd ⊢
  match digits, hd with
  | [d0, d1, d2, d3], _ =>
    match mem, hmem with
    | a0 :: a1 :: a2 :: a3 :: a4 :: a5 :: tail, hmem =>
      have htail : tail.length = payload.length + 2 := by simp at hmem; omega
      have h6 : pokeAt (a0 :: a1 :: a2 :: a3 :: a4 :: a5 :: tail) 6 payload
          = a0 :: a1 :: a2 :: a3 :: a4 :: a5 :: (payload ++ tail.drop payload.length) := by
        simp only [pokeAt]
        rw [pokeAt_zero tail payload (by omega)]
      rw [h6]
      have hsplit : payload ++ tail.drop payload.length
          = payload.take n ++ (payload.drop n ++ tail.drop payload.length) := by
        rw [← List.append_assoc, List.take_append_drop]
      have hlen2 : (payload.drop n ++ tail.drop payload.length).length = payload.length - n + 2 := by
        simp; omega
      have htk : (payload.take n).length = n := by simp; omega
      rw [hsplit]
      generalize payload.drop n ++ tail.drop payload.length = back at hlen2
      generalize payload.take n = pay at htk
      subst htk
      match back, hlen2 with
      | b0 :: b1 :: rest, hlen2 =>
        refine ⟨rest, ?_, by simp at hlen2; omega⟩
        have e1 : pokeAt (d0 :: d1 :: d2 :: d3 :: 13 :: 10 :: (pay ++ b0 :: b1 :: rest))
            (6 + pay.length) [13]
            = d0 :: d1 :: d2 :: d3 :: 13 :: 10 :: (pay ++ 13 :: b1 :: rest) := by
          have := pokeAt_header d0 d1 d2 d3 13 10 pay (b0 :: b1 :: rest) 0 [13]
          simpa [pokeAt] using this
        have e2 : pokeAt (d0 :: d1 :: d2 :: d3 :: 13 :: 10 :: (pay ++ 13 :: b1 :: rest))
            (6 + pay.length + 1) [10]
            = d0 :: d1 :: d2 :: d3 :: 13 :: 10 :: (pay ++ 13 :: 10 :: rest) := by
          have := pokeAt_header d0 d1 d2 d3 13 10 pay (13 :: b1 :: rest) 1 [10]
          simpa [pokeAt, pokeAt_nil] using this
        simp [pokeChecked, pokeAt, pokeAt_nil, CRLF, e1, e2]
        rw [if_pos (by omega)]
        simp [e2]
        rw [if_pos (by omega)]
        simp
        omega

theorem pokeChecked_length (mem : List Nat) (off : Nat) (xs out : List Nat)
    (h : pokeChecked mem off xs = some out) : out.length = mem.length := by
  unfold pokeChecked at h
  split at h
  · injection h with h; rw [← h, pokeAt_length]
  · exact absurd h (by simp)

theorem chunkEnvelope_overrun (mem : List Nat) (n : Nat) (h5 : 4 < (sprintf04x n).length)
    (hmem : mem.length = n + 8) : chunkEnvelope mem n = none := by
  unfold chunkEnvelope
  simp only [Option.bind_eq_bind, Option.pure_def]
  cases h1 : pokeChecked mem 0 (sprintf04x n ++ [0]) with
  | none => rfl
  | some m1 =>
    have l1 := pokeChecked_length _ _ _ _ h1
    simp only [Option.some_bind]
    cases h2 : pokeChecked m1 (sprintf04x n).length [13] with
    | none => rfl
    | some m2 =>
      have l2 := pokeChecked_length _ _ _ _ h2
      simp only [Option.some_bind]
      cases h3 : pokeChecked m2 ((sprintf04x n).length + 1) [10] with
      | none => rfl
      | some m3 =>
        have l3 := pokeChecked_length _ _ _ _ h3
        simp only [Option.some_bind]
        cases h4 : pokeChecked m3 ((sprintf04x n).length + 2 + n) [13] with
        | none => rfl
        | some m4 =>
          have l4 := pokeChecked_length _ _ _ _ h4
          simp only [Option.some_bind]
          have : pokeChecked m4 ((sprintf04x n).length + 2 + n + 1) [10] = none := by
            unfold pokeChecked
            rw [if_neg]
            simp only [List.length_singleton]
            omega
          rw [this]
          rfl

/-! ## Packet allocation and hand-over -/

theorem ofSize_data (granted : Bool) (junk len : Nat)
    (h : (DynamicBuffer.ofSize granted junk len)._len ≠ 0) :
    (DynamicBuffer.ofSize granted junk len)._data
      = some (List.replicate (DynamicBuffer.ofSize granted junk len)._len junk) := by
  unfold DynamicBuffer.ofSize at h ⊢
  by_cases hn : len = 0
  · simp [hn] at h
  · cases granted
    · simp [hn] at h
    · simp [hn]

theorem clear_resize_data (b : DynamicBuffer) (granted : Bool) (junk s : Nat)
    (h : (b.clear.resize granted junk s).1._len ≠ 0) :
    (b.clear.resize granted junk s).1._data
      = some (List.replicate (b.clear.resize granted junk s).1._len junk) := by
  unfold DynamicBuffer.clear DynamicBuffer.resize at h ⊢
  by_cases hs : 0 = s
  · simp [hs.symm] at h
  · have hs2 : ¬ s = 0 := fun h0 => hs h0.symm
    cases granted
    · simp [hs, hs2] at h
    · simp [hs, hs2]

theorem clear_resize_fresh (b : DynamicBuffer) (granted : Bool) (junk s : Nat) :
    (b.clear.resize granted junk s).1.freed = false := by
  unfold DynamicBuffer.clear DynamicBuffer.resize
  by_cases hs : 0 = s
  · simp [hs.symm]
  · have hs2 : ¬ s = 0 := fun h0 => hs h0.symm
    cases granted <;> simp [hs, hs2]

theorem safe_allocate_fresh (pf : Platform) (env : AckEnv) (n : Nat) :
    (_safe_allocate_buffer pf env n).freed = false := by
  unfold _safe_allocate_buffer
  simp only []
  split
  · split
    · exact clear_resize_fresh _ _ _ _
    · rfl
  · rfl

theorem safe_allocate_data (pf : Platform) (env : AckEnv) (n : Nat)
    (h : (_safe_allocate_buffer pf env n)._len ≠ 0) :
    (_safe_allocate_buffer pf env n)._data
      = some (List.replicate (_safe_allocate_buffer pf env n)._len env.junk) := by
  unfold _safe_allocate_buffer at h ⊢
  simp only [] at h ⊢
  split
  · split
    · rename_i h1 h2
      rw [if_pos h1, if_pos h2] at h
      exact clear_resize_data _ _ _ _ h
    · rename_i h1 h2
      rw [if_pos h1, if_neg h2] at h
      exact ofSize_data _ _ _ h
  · rename_i h1
    rw [if_neg h1] at h
    exact ofSize_data _ _ _ h

theorem writePacket_events (pf : Platform) (env : AckEnv) (r : Response) (packet : Walkable)
    (outLen : Nat) (accepts : List Nat) (events : List Event) (h : packet.size ≠ 0) :
    ∃ k rest, (writePacket pf env r packet outLen accepts events).2.2
        = events ++ Event.write (packet.read env.junk packet.size) k :: rest := by
  unfold writePacket
  rw [if_pos h]
  simp only []
  split
  · exact ⟨_, _, by simp only [writeAgain, List.append_assoc, List.singleton_append]; rfl⟩
  · exact ⟨_, [], rfl⟩

theorem resize_exact (b : DynamicBuffer) (mem : List Nat) (junk s : Nat)
    (hdata : b._data = some mem) (hlen : b._len = mem.length) (hs : s ≤ mem.length)
    (hpos : 0 < s) (hfr : b.freed = false) :
    (b.resize true junk s).1._data = some (mem.take s) ∧ (b.resize true junk s).1._len = s
      ∧ (b.resize true junk s).1.freed = false := by
  unfold DynamicBuffer.resize
  rcases b with ⟨d, l, f⟩
  simp only at hdata hlen hfr
  subst hdata hlen hfr
  have h0 : ¬ s = 0 := by omega
  by_cases he : mem.length = s
  · subst he; simp
  · have : s - mem.length = 0 := by omega
    simp [he, this, h0]

/-- A `resize` that does not request the size 0 of a buffer of another size: either it returns
`s`, with the size set to `s`, the block as long as that and the first `min(old size, s)` bytes
as they were, or `realloc` answered null and it returns the previous size and leaves the buffer
as it was. -/
theorem resize_succeeds_or_keeps (b : DynamicBuffer) (granted : Bool) (junk s : Nat)
    (hwf : b.WellFormed) (hs0 : s ≠ 0 ∨ b._len = s) :
    ((b.resize granted junk s).2 = s ∧ (b.resize granted junk s).1._len = s
        ∧ (b.resize granted junk s).1.WellFormed
        ∧ (b.resize granted junk s).1.contents.take (min b._len s)
            = b.contents.take (min b._len s)
        ∧ (b._len = s ∨ granted = true))
      ∨ ((b.resize granted junk s).2 = b._len ∧ (b.resize granted junk s).1 = b
        ∧ b._len ≠ s ∧ granted = false) := by
  unfold DynamicBuffer.WellFormed at hwf
  by_cases hs : b._len = s
  · left
    have hr : b.resize granted junk s = (b, b._len) := by simp [DynamicBuffer.resize, hs]
    rw [hr]
    exact ⟨hs, hs, hwf, rfl, Or.inl hs⟩
  · have hs1 : ¬ s = 0 := by
      rcases hs0 with h | h
      · exact h
      · exact absurd h hs
    cases granted
    · right
      have hr : b.resize false junk s = (b, b._len) := by simp [DynamicBuffer.resize, hs, hs1]
      rw [hr]
      exact ⟨rfl, rfl, hs, rfl⟩
    · left
      have hr : b.resize true junk s
          = ({ _data := some ((b._data.getD []).take s
                ++ List.replicate (s - (b._data.getD []).length) junk), _len := s,
               freed := b.freed }, s) := by
        simp [DynamicBuffer.resize, hs, hs1]
      rw [hr]
      refine ⟨rfl, rfl, ?_, ?_, Or.inr rfl⟩
      · simp only [DynamicBuffer.WellFormed, Option.getD_some, List.length_append,
          List.length_take, List.length_replicate]
        omega
      · simp only [DynamicBuffer.contents, Option.getD_some]
        rw [List.take_append_of_le_length (by rw [List.length_take]; omega), List.take_take]
        congr 1
        omega

theorem ackSend_events (pf : Platform) (env : AckEnv) (r : Response) (packet : Walkable)
    (mem : List Nat) (outLen readLen : Nat) (accepts : List Nat)
    (hres : env.resizeOk = true) (hleft : packet._left = 0)
    (hdata : packet._buf._data = some mem) (hlen : packet._buf._len = mem.length)
    (hout : outLen ≤ mem.length) (hpos : 0 < outLen) (hfr : packet._buf.freed = false) :
    ∃ k rest, (ackSend pf env r packet outLen readLen accepts []).events
        = Event.write (mem.take outLen) k :: rest := by
  unfold ackSend
  rw [hleft, hres, Nat.add_zero]
  obtain ⟨hnd, hnl, hnf⟩ := resize_exact _ mem env.junk _ hdata hlen hout hpos hfr
  generalize (packet._buf.resize true env.junk outLen).1 = nb at hnd hnl hnf ⊢
  simp only [hnf, Bool.false_eq_true, false_and, if_false, AckOutcome.events]
  have hsize : ({ _buf := nb, _left := 0 } : Walkable).size = outLen := by
    simp [Walkable.size, hnl]
  have hread : ({ _buf := nb, _left := 0 } : Walkable).read env.junk outLen
      = mem.take outLen := by
    have hmin : min outLen mem.length = outLen := Nat.min_eq_left hout
    simp [Walkable.read, hnd, hnl, hmin, List.take_take]
  obtain ⟨k, rest, h⟩ := writePacket_events pf env r
    { _buf := nb, _left := 0 } outLen accepts []
    (by rw [hsize]; exact Nat.pos_iff_ne_zero.mp hpos)
  rw [hsize, hread] at h
  exact ⟨k, rest, by simpa using h⟩

theorem ackFill_chunk_events (pf : Platform) (fuel : Nat) (env : AckEnv) (r : Response)
    (needs_send : Bool) (accepts : List Nat) (sc : Scan)
    (hch : r._chunked = true) (hsp : 8 < env.space)
    (hsz : 8 ≤ (chunkPacket pf env)._len)
    (haddr : env.addr + (chunkPacket pf env)._len < SIZE_MOD)
    (hfill : chunkFill pf fuel env r = Outcome.returned sc)
    (hn : sc.len ≠ RESPONSE_TRY_AGAIN) (h16 : sc.len < 65536) (hres : env.resizeOk = true) :
    ∃ k rest, (ackFill pf fuel env r env.space needs_send accepts []).events
        = Event.write (sprintf04x sc.len ++ CRLF ++ sc.buf.bytes.take sc.len ++ CRLF) k
            :: rest := by
  unfold chunkFill chunkPacket at *
  have hdata := safe_allocate_data pf env env.space (by omega)
  have hfresh := safe_allocate_fresh pf env env.space
  generalize hb : _safe_allocate_buffer pf env env.space = b at *
  rcases b with ⟨d, l, f⟩
  simp only at hdata hsz haddr hfill hfresh
  subst hdata hfresh
  simp only [Option.getD_some] at hfill
  have hslice : slice (List.replicate l env.junk) 6 (l - 8) = List.replicate (l - 8) env.junk := by
    simp [slice]; omega
  rw [hslice] at hfill
  have hsafe := fill_safe pf fuel (env.addr + 6) r._callback r.fillState
    (List.replicate (l - 8) env.junk) (by omega) (by simp; omega)
  rw [hfill] at hsafe
  obtain ⟨s1, s2, s3, s4⟩ := hsafe
  simp only [Outcome.scan, List.length_replicate] at s1 s2 s3 s4
  have hlen : sc.len ≤ l - 8 := by
    rcases s4 with h | h
    · exact h
    · exact absurd h hn
  obtain ⟨rest0, henv, hrest0⟩ := chunkEnvelope_spec (List.replicate l env.junk) sc.buf.bytes sc.len
    (by simp; omega) (by omega) h16
  unfold ackFill
  rw [if_neg (by omega)]
  simp only [hch, if_true, hb, Walkable.size, Option.getD_some, Nat.sub_zero]
  rw [if_neg (by omega), hslice, hfill]
  simp only []
  rw [if_neg (by omega), if_neg hn, henv]
  simp only []
  obtain ⟨k, rest, h⟩ := ackSend_events pf env (r.withFillState sc.st)
    { _buf := { _data := some (sprintf04x sc.len ++ CRLF ++ sc.buf.bytes.take sc.len ++ CRLF ++ rest0),
                _len := l }, _left := 0 }
    (sprintf04x sc.len ++ CRLF ++ sc.buf.bytes.take sc.len ++ CRLF ++ rest0)
    (sc.len + 8) sc.len accepts hres rfl rfl
    (by simp [sprintf04x_length sc.len h16, CRLF]; omega)
    (by simp [sprintf04x_length sc.len h16, CRLF]; omega) (by omega) rfl
  refine ⟨k, rest, ?_⟩
  rw [h]
  congr 2
  have : (sprintf04x sc.len ++ CRLF ++ sc.buf.bytes.take sc.len ++ CRLF).length = sc.len + 8 := by
    simp [sprintf04x_length sc.len h16, CRLF]; omega
  rw [← this, List.take_left]

/-- C4 (as amended). For a chunked response in `RESPONSE_CONTENT` with an empty `_packet`, a valid
source and a window above 8, whose packet buffer of at least 8 bytes was obtained and whose fill
returned `n` bytes with `n` not `RESPONSE_TRY_AGAIN` and `n < 65536`, the first thing `_ack`
hands the transport, when the closing `resize` is served, is a `write` of exactly: the lowercase
hexadecimal numeral of `n` zero-padded to four digits, CR LF, the `n` filled bytes, CR LF. -/
theorem ack_chunk_packet_layout (pf : Platform) (fuel : Nat) (env : AckEnv) (r : Response)
    (len : Nat) (sc : Scan)
    (hvalid : env.sourceValid = true) (hst : r._state = RESPONSE_CONTENT)
    (hch : r._chunked = true) (hpk : r._packet.size = 0) (hsp : 8 < env.space)
    (hsz : 8 ≤ (chunkPacket pf env)._len)
    (haddr : env.addr + (chunkPacket pf env)._len < SIZE_MOD)
    (hfill : chunkFill pf fuel env r = Outcome.returned sc)
    (hn : sc.len ≠ RESPONSE_TRY_AGAIN) (h16 : sc.len < 65536) (hres : env.resizeOk = true) :
    ∃ k rest, (_ack pf fuel env r len).events
        = Event.write (sprintf04x sc.len ++ CRLF ++ sc.buf.bytes.take sc.len ++ CRLF) k
            :: rest := by
  unfold _ack
  simp only [hvalid, not_true_eq_false, if_false, hst]
  rw [if_neg (by omega)]
  simp only [reduceCtorEq, if_false, if_true]
  unfold ackContent
  simp only [hpk, ne_eq, not_true_eq_false, if_false]
  refine ackFill_chunk_events pf fuel env _ false env.accepts sc ?_ hsp hsz haddr ?_ hn h16 hres
  · exact hch
  · rw [← hfill]
    unfold chunkFill
    rfl

/-! ## Scan loops that make no progress -/

theorem scanLoop_next (pf : Platform) (base N : Nat) (cb : AwsTemplateProcessor) (fuel : Nat)
    (sc sc1 : Scan) (h : scanStep pf base N cb sc = Step.next sc1) :
    scanLoop pf base N cb (fuel + 1) sc = scanLoop pf base N cb fuel sc1 := by
  conv_lhs => unfold scanLoop
  rw [h]

theorem stuck_nul_step :
    scanStep esp 0x3FFE8000 3 allX (stuckScan [37, 0, 37] [])
      = Step.next (stuckScan [37, 0, 37] []) := by
  decide

theorem stuck_nul_loop (fuel : Nat) :
    scanLoop esp 0x3FFE8000 3 allX fuel (stuckScan [37, 0, 37] [])
      = Outcome.running (stuckScan [37, 0, 37] []) := by
  induction fuel with
  | zero => rfl
  | succ fuel ih =>
    rw [scanLoop_next esp 0x3FFE8000 3 allX fuel _ _ stuck_nul_step]
    exact ih

theorem stuck_echo_step (calls : List (List Nat)) :
    scanStep esp 0x3FFE8000 3 echoName (stuckScan [37, 65, 37] calls)
      = Step.next (stuckScan [37, 65, 37] (calls ++ [[65]])) := by
  simp [scanStep, stuckScan, ptrLt, memchr, findByte, slice, substitute, makeRoom, echoName, cstr,
    Buf.store, pokeAt, esp, SIZE_MOD, TEMPLATE_PLACEHOLDER]

theorem stuck_echo_loop (fuel : Nat) (calls : List (List Nat)) :
    ∃ more, more.length = fuel ∧
      scanLoop esp 0x3FFE8000 3 echoName fuel (stuckScan [37, 65, 37] calls)
        = Outcome.running (stuckScan [37, 65, 37] (calls ++ more)) := by
  induction fuel generalizing calls with
  | zero => exact ⟨[], rfl, by rw [List.append_nil]; rfl⟩
  | succ fuel ih =>
    obtain ⟨more, hlen, h⟩ := ih (calls ++ [[65]])
    refine ⟨[65] :: more, by rw [List.length_cons, hlen], ?_⟩
    have e : calls ++ [65] :: more = calls ++ [[65]] ++ more := by
      rw [List.append_assoc]; rfl
    rw [e, scanLoop_next esp 0x3FFE8000 3 echoName fuel _ _ (stuck_echo_step calls)]
    exact h

theorem firstRead_nul :
    firstRead (textSource "%\x00%") (List.replicate 3 0) = stuckScan [37, 0, 37] [] := by
  decide

theorem firstRead_echo :
    firstRead (textSource "%A%") (List.replicate 3 0) = stuckScan [37, 65, 37] [] := by
  decide

/-! ## Terminal states -/

/-- A call of `_ack` on a response in `RESPONSE_FAILED` returns, leaves it in `RESPONSE_FAILED`
and calls nothing but `close()`. -/
theorem ack_failed_step (pf : Platform) (fuel : Nat) (env : AckEnv) (r : Response) (len : Nat)
    (h : r._state = RESPONSE_FAILED) :
    ∃ r1 ret events, _ack pf fuel env r len = AckOutcome.done r1 ret events
      ∧ r1._state = RESPONSE_FAILED ∧ ret = 0 ∧ ∀ e ∈ events, e = Event.close false := by
  unfold _ack
  cases hv : env.sourceValid
  · refine ⟨{ r with _state := RESPONSE_FAILED }, 0, [Event.close false], ?_, rfl, rfl, ?_⟩
    · simp
    · simp
  · refine ⟨{ r with _ackedLength := (r._ackedLength + len) % SIZE_MOD }, 0, [], ?_, h, rfl, ?_⟩
    · simp [h]
    · simp

/-- Calls of `close()` alone hand no byte to the transport. -/
theorem accepted_of_close (events : List Event) (h : ∀ e ∈ events, e = Event.close false) :
    accepted events = [] := by
  induction events with
  | nil => rfl
  | cons e rest ih =>
    have he := h e (List.mem_cons_self _ _)
    subst he
    simp only [accepted]
    exact ih (fun e he => h e (List.mem_cons_of_mem _ he))

/-- From `RESPONSE_FAILED` every sequence of `_ack` calls returns and stays there, calling
nothing but `close()`. -/
theorem ackRun_failed (pf : Platform) (fuel : Nat) (calls : List (AckEnv × Nat)) :
    ∀ r : Response, r._state = RESPONSE_FAILED →
      ∃ r1 events, ackRun pf fuel r calls = some (r1, events)
        ∧ r1._state = RESPONSE_FAILED ∧ ∀ e ∈ events, e = Event.close false := by
  induction calls with
  | nil => intro r h; exact ⟨r, [], rfl, h, by simp⟩
  | cons c rest ih =>
    intro r h
    obtain ⟨r1, ret, ev1, h1, hs1, -, he1⟩ := ack_failed_step pf fuel c.1 r c.2 h
    obtain ⟨r2, ev2, h2, hs2, he2⟩ := ih r1 hs1
    refine ⟨r2, ev1 ++ ev2, ?_, hs2, ?_⟩
    · obtain ⟨env, len⟩ := c
      simp only [ackRun]
      simp only at h1
      rw [h1]
      simp [h2]
    · intro e he
      rcases List.mem_append.mp he with h | h
      · exact he1 e h
      · exact he2 e h

/-! ## Bulk allocation -/

theorem buffersNeeded_zero (m : Nat) : buffersNeeded 0 m = 0 := by
  unfold buffersNeeded
  rcases Nat.eq_zero_or_pos m with h | h
  · subst h; simp
  · exact Nat.div_eq_of_lt (by omega)

theorem buffersNeeded_succ (t m : Nat) (hm : 0 < m) :
    buffersNeeded (t + 1) m = buffersNeeded (t + 1 - min (t + 1) m) m + 1 := by
  unfold buffersNeeded
  have h : t + 1 + m - 1 = (t + 1 - min (t + 1) m + m - 1) + min (t + 1) m := by omega
  rcases Nat.lt_or_ge (t + 1) m with hlt | hge
  · have h1 : min (t + 1) m = t + 1 := by omega
    rw [h1]
    have h2 : t + 1 - (t + 1) + m - 1 = m - 1 := by omega
    rw [h2, Nat.div_eq_of_lt (by omega : m - 1 < m)]
    have h3 : t + 1 + m - 1 = t + m := by omega
    rw [h3, Nat.add_div_right _ hm, Nat.div_eq_of_lt (by omega : t < m)]
  · have h1 : min (t + 1) m = m := by omega
    rw [h, h1, Nat.add_div_right _ hm]

theorem getD_headD (grants : List Bool) : grants.getD 0 true = grants.headD true := by
  cases grants <;> rfl

theorem getD_tail (grants : List Bool) (i : Nat) :
    grants.tail.getD i true = grants.getD (i + 1) true := by
  cases grants <;> simp

/-- The loop of `allocateList` for a positive maximum: it ends within `total` passes, either with
nothing left to allocate and the buffers as specified, or at a refused allocation. -/
theorem allocateLoop_spec (junk m : Nat) (hm : 0 < m) :
    ∀ (fuel total : Nat) (grants : List Bool) (acc : List DynamicBuffer), total < fuel →
      ∃ rem built, allocateLoop junk m fuel total grants acc = some (rem, acc ++ built)
        ∧ ((rem = 0 ∧ (∀ i, i < buffersNeeded total m → grants.getD i true = true)
              ∧ built.length = buffersNeeded total m
              ∧ (∀ b ∈ built, b._data.isSome = true ∧ b._len ≤ m)
              ∧ (∀ b ∈ built.dropLast, b._len = m)
              ∧ (built.map (fun b => b._len)).sum = total)
          ∨ (rem ≠ 0 ∧ ∃ i, i < buffersNeeded total m ∧ grants.getD i true = false)) := by
  intro fuel
  induction fuel with
  | zero => intro total _ _ h; omega
  | succ fuel ih =>
    intro total grants acc hlt
    cases total with
    | zero =>
      refine ⟨0, [], by simp [allocateLoop], Or.inl ⟨rfl, ?_, ?_, ?_, ?_, ?_⟩⟩
      · intro i hi; rw [buffersNeeded_zero] at hi; omega
      · rw [buffersNeeded_zero]; rfl
      · simp
      · simp
      · simp
    | succ t =>
      have halloc : min (t + 1) m ≠ 0 := by omega
      cases hg : grants.headD true with
      | false =>
        refine ⟨t + 1, [DynamicBuffer.ofSize false junk (min (t + 1) m)], ?_, Or.inr ⟨by omega, 0, ?_, ?_⟩⟩
        · have hb : DynamicBuffer.ofSize false junk (min (t + 1) m)
              = { _data := none, _len := 0 } := by
            simp [DynamicBuffer.ofSize]
          rw [allocateLoop]
          simp only [hg]
          rw [hb]
          simp
        · rw [buffersNeeded_succ t m hm]; omega
        · rw [getD_headD]; exact hg
      | true =>
        have hb : DynamicBuffer.ofSize true junk (min (t + 1) m)
            = { _data := some (List.replicate (min (t + 1) m) junk), _len := min (t + 1) m } := by
          simp [DynamicBuffer.ofSize, halloc]
        obtain ⟨rem, built, hrun, hres⟩ := ih (t + 1 - min (t + 1) m) grants.tail
          (acc ++ [DynamicBuffer.ofSize true junk (min (t + 1) m)]) (by omega)
        refine ⟨rem, DynamicBuffer.ofSize true junk (min (t + 1) m) :: built, ?_, ?_⟩
        · rw [allocateLoop]
          simp only [hg]
          rw [hb] at hrun ⊢
          simp only [Option.isNone_some, Bool.false_eq_true, if_false]
          rw [hrun]
          simp
        · rcases hres with ⟨h0, hgr, hlen, hall, hlast, hsum⟩ | ⟨h0, i, hi, hgi⟩
          · refine Or.inl ⟨h0, ?_, ?_, ?_, ?_, ?_⟩
            · intro i hi
              rw [buffersNeeded_succ t m hm] at hi
              cases i with
              | zero => rw [getD_headD]; exact hg
              | succ j =>
                rw [← getD_tail]
                exact hgr j (by omega)
            · rw [buffersNeeded_succ t m hm, List.length_cons, hlen]
            · intro b hb1
              rcases List.mem_cons.mp hb1 with h | h
              · subst h; rw [hb]; simp
              · exact hall b h
            · intro b hb1
              cases built with
              | nil => simp at hb1
              | cons c rest =>
                rw [List.dropLast_cons₂] at hb1
                rcases List.mem_cons.mp hb1 with h | h
                · subst h
                  rw [hb]
                  simp only
                  have hpos : 0 < buffersNeeded (t + 1 - min (t + 1) m) m := by
                    rw [← hlen]; simp
                  have : t + 1 - min (t + 1) m ≠ 0 := by
                    intro h0
                    rw [h0, buffersNeeded_zero] at hpos
                    omega
                  omega
                · exact hlast b h
            · rw [List.map_cons, List.sum_cons, hsum, hb]
              simp only
              omega
          · refine Or.inr ⟨h0, i + 1, ?_, ?_⟩
            · rw [buffersNeeded_succ t m hm]; omega
            · rw [← getD_tail]; exact hgi

/-- With a maximum of 0 the first buffer is constructed with no block and the loop is left. -/
theorem allocateLoop_max_zero (junk fuel t : Nat) (grants : List Bool)
    (acc : List DynamicBuffer) :
    allocateLoop junk 0 (fuel + 1) (t + 1) grants acc
      = some (t + 1, acc ++ [{ _data := none, _len := 0 }]) := by
  simp [allocateLoop, DynamicBuffer.ofSize]

/-- The accumulation of `totalSize` from any start value. -/
theorem foldl_size (buffers : List DynamicBuffer) :
    ∀ s, buffers.foldl (fun s b => (s + b._len) % SIZE_MOD) s
      = if buffers = [] then s else (s + (buffers.map (fun b => b._len)).sum) % SIZE_MOD := by
  induction buffers with
  | nil => intro s; rfl
  | cons b rest ih =>
    intro s
    rw [List.foldl_cons, ih]
    by_cases hr : rest = []
    · subst hr; simp
    · simp only [hr, if_false, List.map_cons, List.sum_cons]
      simp [Nat.add_assoc]

theorem totalSize_eq (buffers : List DynamicBuffer)
    (h : (buffers.map (fun b => b._len)).sum < SIZE_MOD) :
    totalSize buffers = (buffers.map (fun b => b._len)).sum := by
  unfold totalSize
  rw [foldl_size]
  by_cases hb : buffers = []
  · subst hb; rfl
  · simp only [hb, if_false, Nat.zero_add]
    exact Nat.mod_eq_of_lt h

theorem totalSizeShared_eq (buffers : List DynamicBuffer) :
    totalSizeShared (buffers.map SharedBuffer.mk) = totalSize buffers := by
  unfold totalSizeShared totalSize
  rw [List.foldl_map]

/-! ## Fills over a whole template -/

theorem pokeAt_eq (mem : List Nat) (off : Nat) (xs : List Nat)
    (h : off + xs.length ≤ mem.length) :
    pokeAt mem off xs = mem.take off ++ xs ++ mem.drop (off + xs.length) := by
  have h1 : (mem.take off).length = off := by rw [List.length_take]; omega
  have h2 : pokeAt mem off xs = pokeAt (mem.take off ++ mem.drop off) (mem.take off).length xs := by
    rw [List.take_append_drop, h1]
  rw [h2, pokeAt_append, pokeAt_zero _ _ (by rw [List.length_drop]; omega), List.drop_drop,
    List.append_assoc]

theorem store_bytes (b : Buf) (off : Nat) (xs : List Nat)
    (h : off + xs.length ≤ b.bytes.length) :
    (b.store off xs).bytes = b.bytes.take off ++ xs ++ b.bytes.drop (off + xs.length) := by
  unfold Buf.store
  split
  · rename_i h0
    have : xs = [] := List.length_eq_zero.mp h0
    subst this
    simp
  · exact pokeAt_eq _ _ _ h

theorem findByte_none (c : Nat) (xs : List Nat) (h : c ∉ xs) : findByte c xs = none := by
  induction xs with
  | nil => rfl
  | cons b bs ih =>
    have hb : b ≠ c := fun e => h (by rw [e]; exact List.mem_cons_self _ _)
    have hbs : c ∉ bs := fun e => h (List.mem_cons_of_mem _ e)
    simp [findByte, hb, ih hbs]

theorem findByte_first (c : Nat) (a b : List Nat) (h : c ∉ a) :
    findByte c (a ++ c :: b) = some a.length := by
  induction a with
  | nil => simp [findByte]
  | cons x a ih =>
    have hx : x ≠ c := fun e => h (by rw [e]; exact List.mem_cons_self _ _)
    have ha : c ∉ a := fun e => h (List.mem_cons_of_mem _ e)
    simp [findByte, hx, ih ha]

theorem slice_eq (mem a b c : List Nat) (off n : Nat) (h : mem = a ++ b ++ c)
    (ho : off = a.length) (hn : n = b.length) : slice mem off n = b := by
  subst h ho hn
  unfold slice
  rw [List.append_assoc, List.drop_left, List.take_left]

theorem drained_read (st : FillState) (n : Nat) (h : Drained st) :
    (_readDataFromCacheOrContent st n).1 = 0 ∧ (_readDataFromCacheOrContent st n).2.1 = []
      ∧ Drained (_readDataFromCacheOrContent st n).2.2 := by
  obtain ⟨h1, h2, h3⟩ := h
  unfold _readDataFromCacheOrContent Source._fillBuffer Drained
  simp only [h1, h2, h3]
  by_cases hn : n > 0
  · simp [hn, RESPONSE_TRY_AGAIN, h2, h3]
  · simp [hn, h1, h2, h3]

theorem ptrLt_eq (base N a b : Nat) (hfit : base + N < SIZE_MOD) (ha : a ≤ N) (hb : b ≤ N) :
    ptrLt base a b = decide (a < b) := by
  unfold ptrLt
  rw [Nat.mod_eq_of_lt (by omega), Nat.mod_eq_of_lt (by omega)]
  simp

theorem cstr_eq (name : List Nat) (h : 0 ∉ name) : cstr name = name := by
  unfold cstr
  rw [List.takeWhile_eq_self_iff]
  intro x hx
  simp only [ne_eq, decide_not, Bool.not_eq_eq_eq_not, Bool.not_true, decide_eq_false_iff_not]
  intro e
  exact h (e ▸ hx)

theorem scanLoop_exit (pf : Platform) (base N : Nat) (cb : AwsTemplateProcessor) (fuel : Nat)
    (sc sc1 : Scan) (h : scanStep pf base N cb sc = Step.exit sc1) :
    scanLoop pf base N cb (fuel + 1) sc = Outcome.returned sc1 := by
  conv_lhs => unfold scanLoop
  rw [h]

theorem scanLoop_undefined (pf : Platform) (base N : Nat) (cb : AwsTemplateProcessor)
    (fuel : Nat) (sc sc1 : Scan) (h : scanStep pf base N cb sc = Step.undefined sc1) :
    scanLoop pf base N cb (fuel + 1) sc = Outcome.undefined sc1 := by
  conv_lhs => unfold scanLoop
  rw [h]

/-- The loop is left when no delimiter is found from `pTemplateStart` on. -/
theorem scanStep_exit_of (pf : Platform) (base N : Nat) (cb : AwsTemplateProcessor) (sc : Scan)
    (h : ptrLt base sc.pTemplateStart sc.len = false
      ∨ memchr sc.buf.bytes sc.pTemplateStart TEMPLATE_PLACEHOLDER
          (sc.len - sc.pTemplateStart) = none) :
    scanStep pf base N cb sc = Step.exit sc := by
  unfold scanStep
  rcases h with h | h
  · simp [h]
  · simp only [h]
    split <;> rfl

/-- The pass of the loop over an escaped pair found at `s` and `s + 1`. -/
theorem scanStep_escape_of (pf : Platform) (base N : Nat) (cb : AwsTemplateProcessor)
    (sc : Scan) (s : Nat) (hptr : ptrLt base sc.pTemplateStart sc.len = true)
    (h1 : memchr sc.buf.bytes sc.pTemplateStart TEMPLATE_PLACEHOLDER
      (sc.len - sc.pTemplateStart) = some s)
    (hlt : s + 1 < sc.len)
    (h2 : memchr sc.buf.bytes (s + 1) TEMPLATE_PLACEHOLDER (sc.len - 1 - s) = some (s + 1)) :
    scanStep pf base N cb sc
      = Step.next
          { buf := (sc.buf.store (s + 1) (slice sc.buf.bytes (s + 1 + 1) (sc.len - (s + 1) - 1))).store
              (sc.len - 1) (_readDataFromCacheOrContent sc.st 1).2.1,
            len := (sc.len + ((_readDataFromCacheOrContent sc.st 1).1 + SIZE_MOD - 1) % SIZE_MOD)
              % SIZE_MOD,
            pTemplateStart := s + 1, st := (_readDataFromCacheOrContent sc.st 1).2.2,
            calls := sc.calls } := by
  unfold scanStep
  simp [hptr, h1, hlt, h2]

/-- The pass of the loop over a placeholder found within the chunk, from `s` to `e`. -/
theorem scanStep_subst_of (pf : Platform) (base N : Nat) (cb : AwsTemplateProcessor)
    (sc : Scan) (s e : Nat) (hptr : ptrLt base sc.pTemplateStart sc.len = true)
    (h1 : memchr sc.buf.bytes sc.pTemplateStart TEMPLATE_PLACEHOLDER
      (sc.len - sc.pTemplateStart) = some s)
    (hlt : s + 1 < sc.len)
    (h2 : memchr sc.buf.bytes (s + 1) TEMPLATE_PLACEHOLDER (sc.len - 1 - s) = some e)
    (hname : min pf.TEMPLATE_PARAM_NAME_LENGTH (e - s - 1) ≠ 0) :
    scanStep pf base N cb sc
      = Step.next (substitute N cb { sc with pTemplateStart := s } e
          (cstr (slice sc.buf.bytes (s + 1) (min pf.TEMPLATE_PARAM_NAME_LENGTH (e - s - 1))))) := by
  unfold scanStep
  simp only [hptr, h1, hlt, h2]
  simp [hname]

/-- The loop is left when the text still to scan holds no delimiter.  The scan state is given by
the text already passed (`done`), the text still to scan (`rest`) and what lies behind it in the
buffer (`pad`). -/
theorem scanStep_clean_exit (pf : Platform) (base N : Nat) (cb : AwsTemplateProcessor)
    (done rest pad : List Nat) (hw : Nat) (st : FillState) (calls : List (List Nat))
    (hrest : TEMPLATE_PLACEHOLDER ∉ rest) :
    scanStep pf base N cb
        { buf := { bytes := done ++ rest ++ pad, hw := hw }, len := done.length + rest.length,
          pTemplateStart := done.length, st := st, calls := calls }
      = Step.exit
        { buf := { bytes := done ++ rest ++ pad, hw := hw }, len := done.length + rest.length,
          pTemplateStart := done.length, st := st, calls := calls } := by
  apply scanStep_exit_of
  right
  simp only
  unfold memchr
  rw [slice_eq (done ++ rest ++ pad) done rest pad _ _ rfl rfl (by omega),
    findByte_none _ _ hrest]
  rfl

/-- The pass of the loop over an escaped pair, for a drained source: the second delimiter is
removed and the scan goes on behind the first. -/
theorem scanStep_pair (pf : Platform) (base N : Nat) (cb : AwsTemplateProcessor)
    (done lit rest pad : List Nat) (hw : Nat) (st : FillState) (calls : List (List Nat))
    (hlit : TEMPLATE_PLACEHOLDER ∉ lit)
    (hN : (done ++ (lit ++ TEMPLATE_PLACEHOLDER :: TEMPLATE_PLACEHOLDER :: rest) ++ pad).length = N)
    (hfit : base + N < SIZE_MOD) (hst : Drained st) :
    ∃ pad1 hw1 st1,
      scanStep pf base N cb
          { buf := { bytes := done ++ (lit ++ TEMPLATE_PLACEHOLDER :: TEMPLATE_PLACEHOLDER :: rest)
                      ++ pad, hw := hw },
            len := done.length + (lit ++ TEMPLATE_PLACEHOLDER :: TEMPLATE_PLACEHOLDER :: rest).length,
            pTemplateStart := done.length, st := st, calls := calls }
        = Step.next
          { buf := { bytes := (done ++ lit ++ [TEMPLATE_PLACEHOLDER]) ++ rest ++ pad1, hw := hw1 },
            len := (done ++ lit ++ [TEMPLATE_PLACEHOLDER]).length + rest.length,
            pTemplateStart := (done ++ lit ++ [TEMPLATE_PLACEHOLDER]).length, st := st1,
            calls := calls }
      ∧ Drained st1 ∧ ((done ++ lit ++ [TEMPLATE_PLACEHOLDER]) ++ rest ++ pad1).length = N := by
  generalize hmem : done ++ (lit ++ TEMPLATE_PLACEHOLDER :: TEMPLATE_PLACEHOLDER :: rest) ++ pad
    = mem at hN ⊢
  have hlenN : done.length + lit.length + 2 + rest.length + pad.length = N := by
    rw [← hN, ← hmem]; simp; omega
  obtain ⟨hr0, hr1, hr2⟩ := drained_read st 1 hst
  have hptr : ptrLt base done.length
      (done.length + (lit ++ TEMPLATE_PLACEHOLDER :: TEMPLATE_PLACEHOLDER :: rest).length)
      = true := by
    rw [ptrLt_eq base N _ _ hfit (by omega) (by simp; omega)]
    simp
  have h1 : memchr mem done.length TEMPLATE_PLACEHOLDER
      (done.length + (lit ++ TEMPLATE_PLACEHOLDER :: TEMPLATE_PLACEHOLDER :: rest).length
        - done.length) = some (lit.length + done.length) := by
    unfold memchr
    rw [slice_eq mem done _ pad _ _ hmem.symm rfl (by omega), findByte_first _ _ _ hlit]
    rfl
  have h2 : memchr mem (lit.length + done.length + 1) TEMPLATE_PLACEHOLDER
      (done.length + (lit ++ TEMPLATE_PLACEHOLDER :: TEMPLATE_PLACEHOLDER :: rest).length
        - 1 - (lit.length + done.length)) = some (lit.length + done.length + 1) := by
    unfold memchr
    rw [slice_eq mem (done ++ lit ++ [TEMPLATE_PLACEHOLDER]) (TEMPLATE_PLACEHOLDER :: rest) pad _ _
      (by rw [← hmem]; simp) (by simp; omega) (by simp; omega)]
    simp [findByte]
  have h3 : slice mem (lit.length + done.length + 1 + 1)
      (done.length + (lit ++ TEMPLATE_PLACEHOLDER :: TEMPLATE_PLACEHOLDER :: rest).length
        - (lit.length + done.length + 1) - 1) = rest :=
    slice_eq mem (done ++ lit ++ [TEMPLATE_PLACEHOLDER, TEMPLATE_PLACEHOLDER]) rest pad _ _
      (by rw [← hmem]; simp) (by simp; omega) (by simp; omega)
  have htake : mem.take (lit.length + done.length + 1) = done ++ lit ++ [TEMPLATE_PLACEHOLDER] := by
    rw [← hmem]
    have : done ++ (lit ++ TEMPLATE_PLACEHOLDER :: TEMPLATE_PLACEHOLDER :: rest) ++ pad
        = (done ++ lit ++ [TEMPLATE_PLACEHOLDER]) ++ (TEMPLATE_PLACEHOLDER :: rest ++ pad) := by
      simp
    rw [this]
    exact List.take_left' (by simp; omega)
  have hstep := scanStep_escape_of pf base N cb
    { buf := { bytes := mem, hw := hw },
      len := done.length + (lit ++ TEMPLATE_PLACEHOLDER :: TEMPLATE_PLACEHOLDER :: rest).length,
      pTemplateStart := done.length, st := st, calls := calls } (lit.length + done.length)
    hptr h1 (by simp; omega) h2
  simp only [h3, hr0, hr1] at hstep
  refine ⟨mem.drop (lit.length + done.length + 1 + rest.length),
    (Buf.store { bytes := mem, hw := hw } (lit.length + done.length + 1) rest).hw,
    (_readDataFromCacheOrContent st 1).2.2, ?_, hr2, ?_⟩
  · rw [hstep]
    have hb : ((Buf.store { bytes := mem, hw := hw } (lit.length + done.length + 1) rest).store
        (done.length + (lit ++ TEMPLATE_PLACEHOLDER :: TEMPLATE_PLACEHOLDER :: rest).length - 1) [])
        = Buf.store { bytes := mem, hw := hw } (lit.length + done.length + 1) rest := by
      simp [Buf.store]
    rw [hb]
    have hbytes : (Buf.store { bytes := mem, hw := hw } (lit.length + done.length + 1) rest).bytes
        = (done ++ lit ++ [TEMPLATE_PLACEHOLDER]) ++ rest
            ++ mem.drop (lit.length + done.length + 1 + rest.length) := by
      rw [store_bytes _ _ _ (by simp only; omega)]
      simp only [htake]
    have hlen : (done.length
        + (lit ++ TEMPLATE_PLACEHOLDER :: TEMPLATE_PLACEHOLDER :: rest).length
        + (0 + SIZE_MOD - 1) % SIZE_MOD) % SIZE_MOD
        = (done ++ lit ++ [TEMPLATE_PLACEHOLDER]).length + rest.length := by
      simp only [List.length_append, List.length_cons, List.length_nil]
      rw [SIZE_MOD_eq] at hfit ⊢
      omega
    rw [hlen, ← hbytes]
    simp
    omega
  · simp only [List.length_append, List.length_cons, List.length_nil, List.length_drop]
    omega

theorem pairedOnly_cases_aux :
    ∀ (n : Nat) (rest : List Nat), rest.length ≤ n → pairedOnly rest = true →
      (TEMPLATE_PLACEHOLDER ∉ rest ∧ unescape rest = rest)
        ∨ ∃ lit rest1, rest = lit ++ TEMPLATE_PLACEHOLDER :: TEMPLATE_PLACEHOLDER :: rest1
            ∧ TEMPLATE_PLACEHOLDER ∉ lit ∧ pairedOnly rest1 = true
            ∧ unescape rest = lit ++ TEMPLATE_PLACEHOLDER :: unescape rest1 := by
  intro n
  induction n with
  | zero =>
    intro rest hlen _
    have hnil : rest = [] := List.length_eq_zero.mp (by omega)
    subst hnil
    left; simp [unescape]
  | succ n ih =>
    intro rest hlen h
    match rest, hlen, h with
    | [], _, _ => left; simp [unescape]
    | [b], _, h =>
      left
      simp only [pairedOnly, decide_eq_true_eq] at h
      simp only [List.mem_singleton, unescape, and_true]
      exact fun e => h e.symm
    | b :: c :: rest, hlen, h =>
      by_cases hb : b = TEMPLATE_PLACEHOLDER
      · right
        simp only [pairedOnly, hb, if_true, Bool.and_eq_true, decide_eq_true_eq] at h
        refine ⟨[], rest, ?_, by simp, h.2, ?_⟩
        · rw [h.1, hb]; rfl
        · simp [unescape, h.1, hb]
      · simp only [pairedOnly, hb, if_false] at h
        have hl : (c :: rest).length ≤ n := by
          simp only [List.length_cons] at hlen ⊢
          omega
        rcases ih (c :: rest) hl h with ⟨h1, h2⟩ | ⟨lit, rest1, h1, h2, h3, h4⟩
        · left
          refine ⟨?_, ?_⟩
          · intro hm
            rcases List.mem_cons.mp hm with e | e
            · exact hb e.symm
            · exact h1 e
          · simp [unescape, hb, h2]
        · right
          refine ⟨b :: lit, rest1, by rw [h1]; rfl, ?_, h3, ?_⟩
          · intro hm
            rcases List.mem_cons.mp hm with e | e
            · exact hb e.symm
            · exact h2 e
          · simp [unescape, hb, h4]

/-- A text with paired delimiters only either holds no delimiter or starts with literal bytes
followed by a pair. -/
theorem pairedOnly_cases (rest : List Nat) (h : pairedOnly rest = true) :
    (TEMPLATE_PLACEHOLDER ∉ rest ∧ unescape rest = rest)
      ∨ ∃ lit rest1, rest = lit ++ TEMPLATE_PLACEHOLDER :: TEMPLATE_PLACEHOLDER :: rest1
          ∧ TEMPLATE_PLACEHOLDER ∉ lit ∧ pairedOnly rest1 = true
          ∧ unescape rest = lit ++ TEMPLATE_PLACEHOLDER :: unescape rest1 :=
  pairedOnly_cases_aux rest.length rest (le_refl _) h

/-- The scan loop over a text with paired delimiters only, for a drained source: it returns
within one pass per pair and one more, with the pairs replaced and no callback invoked. -/
theorem scanLoop_unescapes (pf : Platform) (base N : Nat) (cb : AwsTemplateProcessor)
    (hfit : base + N < SIZE_MOD) :
    ∀ (n : Nat) (rest : List Nat), rest.length ≤ n →
      ∀ (done pad : List Nat) (hw : Nat) (st : FillState) (calls : List (List Nat)) (fuel : Nat),
        pairedOnly rest = true → n < fuel → (done ++ rest ++ pad).length = N → Drained st →
        ∃ sc, scanLoop pf base N cb fuel
            { buf := { bytes := done ++ rest ++ pad, hw := hw },
              len := done.length + rest.length, pTemplateStart := done.length, st := st,
              calls := calls } = Outcome.returned sc
          ∧ sc.buf.bytes.take sc.len = done ++ unescape rest
          ∧ sc.len = (done ++ unescape rest).length ∧ sc.calls = calls := by
  intro n
  induction n with
  | zero =>
    intro rest hlen done pad hw st calls fuel hp hfuel hN hst
    have hnil : rest = [] := List.length_eq_zero.mp (by omega)
    subst hnil
    obtain ⟨f, rfl⟩ : ∃ f, fuel = f + 1 := ⟨fuel - 1, by omega⟩
    refine ⟨_, scanLoop_exit pf base N cb f _ _
      (scanStep_clean_exit pf base N cb done [] pad hw st calls (by simp)), ?_, ?_, rfl⟩
    · simp [unescape]
    · simp [unescape]
  | succ n ih =>
    intro rest hlen done pad hw st calls fuel hp hfuel hN hst
    obtain ⟨f, rfl⟩ : ∃ f, fuel = f + 1 := ⟨fuel - 1, by omega⟩
    rcases pairedOnly_cases rest hp with ⟨h1, h2⟩ | ⟨lit, rest1, h1, h2, h3, h4⟩
    · refine ⟨_, scanLoop_exit pf base N cb f _ _
        (scanStep_clean_exit pf base N cb done rest pad hw st calls h1), ?_, ?_, rfl⟩
      · simp only [h2]
        rw [← List.length_append]
        exact List.take_left' rfl
      · simp [h2]
    · subst h1
      obtain ⟨pad1, hw1, st1, hstep, hst1, hN1⟩ :=
        scanStep_pair pf base N cb done lit rest1 pad hw st calls h2 hN hfit hst
      rw [scanLoop_next pf base N cb f _ _ hstep]
      have hl : rest1.length ≤ n := by
        simp only [List.length_append, List.length_cons] at hlen
        omega
      obtain ⟨sc, hrun, hout, hlen1, hcalls⟩ :=
        ih rest1 hl (done ++ lit ++ [TEMPLATE_PLACEHOLDER]) pad1 hw1 st1 calls f h3
          (by omega) hN1 hst1
      refine ⟨sc, hrun, ?_, ?_, hcalls⟩
      · rw [hout, h4]; simp
      · rw [hlen1, h4]; simp

/-- The first read of a fill whose buffer takes the whole content of a fresh source. -/
theorem firstRead_whole (content data : List Nat) (sent : Nat)
    (hfit : content.length ≤ data.length) (hsmall : data.length < RESPONSE_TRY_AGAIN) :
    ∃ hw st1,
      firstRead { _cache := [], source := { content := content, answers := [] },
                  _sentLength := sent } data
        = { buf := { bytes := [] ++ content ++ data.drop content.length, hw := hw },
            len := ([] : List Nat).length + content.length,
            pTemplateStart := ([] : List Nat).length, st := st1, calls := [] }
      ∧ Drained st1 := by
  have hread : (_readDataFromCacheOrContent
        { _cache := [], source := { content := content, answers := [] }, _sentLength := sent }
        data.length).1 = content.length
      ∧ (_readDataFromCacheOrContent
        { _cache := [], source := { content := content, answers := [] }, _sentLength := sent }
        data.length).2.1 = content
      ∧ Drained (_readDataFromCacheOrContent
        { _cache := [], source := { content := content, answers := [] }, _sentLength := sent }
        data.length).2.2 := by
    unfold _readDataFromCacheOrContent Source._fillBuffer Drained
    by_cases hd : data.length > 0
    · have hne : min data.length content.length ≠ RESPONSE_TRY_AGAIN := by omega
      have hne2 : content.length ≠ RESPONSE_TRY_AGAIN := by omega
      simp [hd, hne, hne2, hfit, List.take_of_length_le hfit, List.drop_of_length_le hfit]
    · have hc : content = [] := List.length_eq_zero.mp (by omega)
      subst hc
      simp [hd]
  obtain ⟨h1, h2, h3⟩ := hread
  refine ⟨(Buf.store { bytes := data, hw := 0 } 0 content).hw, _, ?_, h3⟩
  unfold firstRead
  simp only [h1, h2]
  have hb : (Buf.store { bytes := data, hw := 0 } 0 content).bytes
      = [] ++ content ++ data.drop content.length := by
    rw [store_bytes _ _ _ (by simp only; omega)]
    simp
  rw [← hb]
  simp

theorem unescape_length_le :
    ∀ (n : Nat) (xs : List Nat), xs.length ≤ n → (unescape xs).length ≤ xs.length := by
  intro n
  induction n with
  | zero =>
    intro xs hlen
    have hnil : xs = [] := List.length_eq_zero.mp (by omega)
    subst hnil
    simp [unescape]
  | succ n ih =>
    intro xs hlen
    match xs, hlen with
    | [], _ => simp [unescape]
    | [b], _ => simp [unescape]
    | b :: c :: rest, hlen =>
      simp only [List.length_cons] at hlen
      unfold unescape
      split
      · have := ih rest (by omega)
        simp only [List.length_cons]
        omega
      · have := ih (c :: rest) (by simp only [List.length_cons]; omega)
        simp only [List.length_cons] at this ⊢
        omega

/-- The buffer after the data behind a placeholder has been moved to `s + v.length` and the value
`v` stored at `s`. -/
theorem two_store_bytes (mem v suf : List Nat) (hw s : Nat)
    (h : s + v.length + suf.length ≤ mem.length) :
    ((Buf.store { bytes := mem, hw := hw } (s + v.length) suf).store s v).bytes
      = mem.take s ++ v ++ suf ++ mem.drop (s + v.length + suf.length) := by
  have hl : (Buf.store { bytes := mem, hw := hw } (s + v.length) suf).bytes.length
      = mem.length := store_length _ _ _
  rw [store_bytes _ _ _ (by rw [hl]; omega), store_bytes _ _ _ (by simp only; omega)]
  simp only
  have h1 : (mem.take (s + v.length)).length = s + v.length := by
    rw [List.length_take]; omega
  rw [List.append_assoc (mem.take (s + v.length)), List.take_append_of_le_length (by omega),
    List.take_take, List.drop_left' h1]
  simp [List.append_assoc]

/-- A substitution whose result fits the buffer, for a drained source: the value replaces the
placeholder `[s, e]`, the data behind it follows the value, and `len` is adjusted. -/
theorem substitute_fits (N : Nat) (cb : AwsTemplateProcessor) (mem : List Nat)
    (hw len s e : Nat) (st : FillState) (calls : List (List Nat)) (name : List Nat)
    (hname : name ≠ []) (hmem : mem.length = N) (hse : s < e) (hel : e < len) (hlen : len ≤ N)
    (hsize : N < SIZE_MOD) (hroom : s + (cb name).length + (len - e - 1) ≤ N)
    (hst : Drained st) :
    ∃ hw1 st1,
      substitute N cb
          { buf := { bytes := mem, hw := hw }, len := len, pTemplateStart := s, st := st,
            calls := calls } e name
        = { buf := { bytes := mem.take s ++ cb name ++ slice mem (e + 1) (len - e - 1)
                      ++ mem.drop (s + (cb name).length + (len - e - 1)), hw := hw1 },
            len := s + (cb name).length + (len - e - 1), pTemplateStart := s, st := st1,
            calls := calls ++ [name] }
      ∧ Drained st1 := by
  have hn0 : name.length ≠ 0 := fun h => hname (List.length_eq_zero.mp h)
  have hmin : min (cb name).length (N - s) = (cb name).length := by omega
  have hsl : (slice mem (e + 1) (len - e - 1)).length = len - e - 1 := by
    rw [slice_length]; omega
  have hbytes := two_store_bytes mem (cb name) (slice mem (e + 1) (len - e - 1)) hw s
    (by rw [hsl]; omega)
  rw [hsl] at hbytes
  rcases Nat.lt_trichotomy (s + (cb name).length) (e + 1) with hc | hc | hc
  · -- the value is shorter than the placeholder
    obtain ⟨hr0, hr1, hr2⟩ := drained_read st (N - len + (e + 1 - s - (cb name).length)) hst
    refine ⟨((Buf.store { bytes := mem, hw := hw } (s + (cb name).length)
        (slice mem (e + 1) (len - e - 1))).store s (cb name)).hw, _, ?_, hr2⟩
    unfold substitute makeRoom
    simp only [hn0, if_false, hmin, List.take_length]
    have hc1 : ¬ (e + 1 < s + (cb name).length
        ∧ N - (s + (cb name).length - e - 1) < len) := by omega
    have hc2 : e + 1 ≠ s + (cb name).length := by omega
    simp only [hc1, hc2, if_false, if_true, ne_eq, not_false_eq_true, lt_irrefl, hc, hr0, hr1]
    rw [← hbytes]
    have hl : (len + (0 + SIZE_MOD - (e + 1 - s - (cb name).length)) % SIZE_MOD) % SIZE_MOD
        = s + (cb name).length + (len - e - 1) := by
      rw [SIZE_MOD_eq] at hsize ⊢
      omega
    rw [hl]
    simp [Buf.store]
  · -- the value is as long as the placeholder
    refine ⟨(Buf.store { bytes := mem, hw := hw } s (cb name)).hw, st, ?_, hst⟩
    unfold substitute makeRoom
    simp only [hn0, if_false, hmin, List.take_length]
    have hc1 : ¬ (e + 1 < s + (cb name).length
        ∧ N - (s + (cb name).length - e - 1) < len) := by omega
    have hc2 : ¬ (e + 1 ≠ s + (cb name).length) := by omega
    have hc3 : ¬ (s + (cb name).length < e + 1) := by omega
    simp only [hc1, hc2, hc3, if_false, lt_irrefl]
    have haux : mem.drop (s + (cb name).length)
        = slice mem (e + 1) (len - e - 1)
          ++ mem.drop (s + (cb name).length + (len - e - 1)) := by
      have h := (List.take_append_drop (len - e - 1) (mem.drop (e + 1))).symm
      rw [List.drop_drop] at h
      rw [hc]
      unfold slice
      exact h
    have hb : (Buf.store { bytes := mem, hw := hw } s (cb name)).bytes
        = mem.take s ++ cb name ++ slice mem (e + 1) (len - e - 1)
          ++ mem.drop (s + (cb name).length + (len - e - 1)) := by
      rw [store_bytes _ _ _ (by simp only; omega)]
      simp only
      rw [haux, ← List.append_assoc]
    rw [← hb]
    have hl : min (len + (s + (cb name).length - e - 1)) N
        = s + (cb name).length + (len - e - 1) := by omega
    rw [hl]
  · -- the value is longer than the placeholder
    refine ⟨((Buf.store { bytes := mem, hw := hw } (s + (cb name).length)
        (slice mem (e + 1) (len - e - 1))).store s (cb name)).hw, st, ?_, hst⟩
    unfold substitute makeRoom
    simp only [hn0, if_false, hmin, List.take_length]
    have hc1 : ¬ (e + 1 < s + (cb name).length
        ∧ N - (s + (cb name).length - e - 1) < len) := by omega
    have hc2 : e + 1 ≠ s + (cb name).length := by omega
    have hc3 : ¬ (s + (cb name).length < e + 1) := by omega
    simp only [hc1, hc2, hc3, if_false, if_true, ne_eq, not_false_eq_true, lt_irrefl]
    rw [← hbytes]
    have hl : min (len + (s + (cb name).length - e - 1)) N
        = s + (cb name).length + (len - e - 1) := by omega
    rw [hl]

/-- The pass of the scan loop over the one placeholder of `pre ++ %name% ++ suf`, for a drained
source and a value that fits: the value takes the place of the placeholder and the scan goes on
at its first byte. -/
theorem scanStep_placeholder (pf : Platform) (base N : Nat) (cb : AwsTemplateProcessor)
    (pre name suf pad : List Nat) (hw : Nat) (st : FillState) (calls : List (List Nat))
    (hpre : TEMPLATE_PLACEHOLDER ∉ pre) (hname : TEMPLATE_PLACEHOLDER ∉ name)
    (hnul : 0 ∉ name) (hlen1 : 1 ≤ name.length)
    (hlen2 : name.length ≤ pf.TEMPLATE_PARAM_NAME_LENGTH)
    (hN : ([] ++ (pre ++ [TEMPLATE_PLACEHOLDER] ++ name ++ [TEMPLATE_PLACEHOLDER] ++ suf)
      ++ pad).length = N)
    (hroom : (pre ++ cb name ++ suf).length ≤ N)
    (hfit : base + N < SIZE_MOD) (hst : Drained st) :
    ∃ pad1 hw1 st1,
      scanStep pf base N cb
          { buf := { bytes := [] ++ (pre ++ [TEMPLATE_PLACEHOLDER] ++ name
                      ++ [TEMPLATE_PLACEHOLDER] ++ suf) ++ pad, hw := hw },
            len := ([] : List Nat).length
              + (pre ++ [TEMPLATE_PLACEHOLDER] ++ name ++ [TEMPLATE_PLACEHOLDER] ++ suf).length,
            pTemplateStart := ([] : List Nat).length, st := st, calls := calls }
        = Step.next
          { buf := { bytes := pre ++ (cb name ++ suf) ++ pad1, hw := hw1 },
            len := pre.length + (cb name ++ suf).length, pTemplateStart := pre.length,
            st := st1, calls := calls ++ [name] }
      ∧ Drained st1 := by
  generalize hmem : [] ++ (pre ++ [TEMPLATE_PLACEHOLDER] ++ name ++ [TEMPLATE_PLACEHOLDER] ++ suf)
    ++ pad = mem at hN ⊢
  generalize hlen : ([] : List Nat).length
    + (pre ++ [TEMPLATE_PLACEHOLDER] ++ name ++ [TEMPLATE_PLACEHOLDER] ++ suf).length = len
  have hlen' : len = pre.length + name.length + 2 + suf.length := by
    rw [← hlen]; simp; omega
  have hlenN : len + pad.length = N := by
    rw [← hN, ← hmem, hlen']; simp; omega
  have hroom' : pre.length + (cb name).length + suf.length ≤ N := by
    simpa [Nat.add_assoc] using hroom
  have hptr : ptrLt base ([] : List Nat).length len = true := by
    rw [ptrLt_eq base N _ _ hfit (by simp) (by omega)]
    simp; omega
  have h1 : memchr mem ([] : List Nat).length TEMPLATE_PLACEHOLDER
      (len - ([] : List Nat).length) = some pre.length := by
    unfold memchr
    rw [slice_eq mem [] (pre ++ [TEMPLATE_PLACEHOLDER] ++ name ++ [TEMPLATE_PLACEHOLDER] ++ suf)
      pad _ _ hmem.symm rfl (by rw [← hlen]; simp)]
    have : pre ++ [TEMPLATE_PLACEHOLDER] ++ name ++ [TEMPLATE_PLACEHOLDER] ++ suf
        = pre ++ TEMPLATE_PLACEHOLDER :: (name ++ [TEMPLATE_PLACEHOLDER] ++ suf) := by simp
    rw [this, findByte_first _ _ _ hpre]
    rfl
  have h2 : memchr mem (pre.length + 1) TEMPLATE_PLACEHOLDER (len - 1 - pre.length)
      = some (name.length + (pre.length + 1)) := by
    unfold memchr
    rw [slice_eq mem (pre ++ [TEMPLATE_PLACEHOLDER]) (name ++ TEMPLATE_PLACEHOLDER :: suf) pad _ _
      (by rw [← hmem]; simp) (by simp) (by simp; omega), findByte_first _ _ _ hname]
    rfl
  have hmin : min pf.TEMPLATE_PARAM_NAME_LENGTH (name.length + (pre.length + 1) - pre.length - 1)
      = name.length := by omega
  have hstep := scanStep_subst_of pf base N cb
    { buf := { bytes := mem, hw := hw }, len := len, pTemplateStart := ([] : List Nat).length,
      st := st, calls := calls } pre.length (name.length + (pre.length + 1)) hptr h1
    (by simp only; omega) h2 (by rw [hmin]; omega)
  have hslice : slice mem (pre.length + 1) name.length = name :=
    slice_eq mem (pre ++ [TEMPLATE_PLACEHOLDER]) name (TEMPLATE_PLACEHOLDER :: suf ++ pad) _ _
      (by rw [← hmem]; simp) (by simp) rfl
  simp only [hmin, hslice, cstr_eq name hnul] at hstep
  have hne : name ≠ [] := fun h => by rw [h] at hlen1; simp at hlen1
  obtain ⟨hw1, st1, hsub, hst1⟩ := substitute_fits N cb mem hw len pre.length
    (name.length + (pre.length + 1)) st calls name hne hN.symm.symm (by omega) (by omega)
    (by omega) (by omega) (by omega) hst
  have htake : mem.take pre.length = pre := by
    rw [← hmem]
    have : [] ++ (pre ++ [TEMPLATE_PLACEHOLDER] ++ name ++ [TEMPLATE_PLACEHOLDER] ++ suf) ++ pad
        = pre ++ (TEMPLATE_PLACEHOLDER :: name ++ TEMPLATE_PLACEHOLDER :: suf ++ pad) := by simp
    rw [this]
    exact List.take_left' rfl
  have hsuf : slice mem (name.length + (pre.length + 1) + 1)
      (len - (name.length + (pre.length + 1)) - 1) = suf :=
    slice_eq mem (pre ++ [TEMPLATE_PLACEHOLDER] ++ name ++ [TEMPLATE_PLACEHOLDER]) suf pad _ _
      (by rw [← hmem]; simp) (by simp; omega) (by omega)
  rw [htake, hsuf] at hsub
  refine ⟨mem.drop (pre.length + (cb name).length
      + (len - (name.length + (pre.length + 1)) - 1)), hw1, st1, ?_, hst1⟩
  rw [hstep, hsub]
  have hl : pre.length + (cb name).length + (len - (name.length + (pre.length + 1)) - 1)
      = pre.length + (cb name ++ suf).length := by
    rw [List.length_append]; omega
  rw [hl]
  simp

/-! ## Fills that produce nothing -/

/-- A fill into a buffer of no bytes returns 0 at once and asks the source for nothing. -/
theorem fill_nothing (pf : Platform) (fuel base : Nat) (cb : Option AwsTemplateProcessor)
    (st : FillState) (hfuel : 1 ≤ fuel) :
    _fillBufferAndProcessTemplates pf fuel base cb st []
      = Outcome.returned
          { buf := { bytes := [], hw := 0 }, len := 0, pTemplateStart := 0, st := st,
            calls := [] } := by
  have hfirst : firstRead st []
      = { buf := { bytes := [], hw := 0 }, len := 0, pTemplateStart := 0, st := st,
          calls := [] } := by
    simp [firstRead, _readDataFromCacheOrContent, Buf.store]
  unfold _fillBufferAndProcessTemplates
  rw [hfirst]
  cases cb with
  | none => rfl
  | some f =>
    obtain ⟨k, rfl⟩ : ∃ k, fuel = k + 1 := ⟨fuel - 1, by omega⟩
    simp only [List.length_nil]
    exact scanLoop_exit pf base 0 f k _ _
      (scanStep_exit_of pf base 0 f _ (Or.inl (by simp [ptrLt])))

/-- A fill whose first read finds the cache empty and the source answering
`RESPONSE_TRY_AGAIN` returns that value, with the buffer and `_sentLength` as they were. -/
theorem fill_try_again (pf : Platform) (fuel base : Nat) (cb : Option AwsTemplateProcessor)
    (st : FillState) (rest : List (Option Nat)) (data : List Nat) (hfuel : 1 ≤ fuel)
    (hbase : 0 < base) (hfit : base < SIZE_MOD) (hcache : st._cache = [])
    (hanswer : st.source.answers = none :: rest) (hdata : data ≠ []) :
    _fillBufferAndProcessTemplates pf fuel base cb st data
      = Outcome.returned
          { buf := { bytes := data, hw := 0 }, len := RESPONSE_TRY_AGAIN, pTemplateStart := 0,
            st := { _cache := [],
                    source := { content := st.source.content, answers := rest },
                    _sentLength := st._sentLength },
            calls := [] } := by
  have hlen : 0 < data.length := List.length_pos.mpr hdata
  have hfirst : firstRead st data
      = { buf := { bytes := data, hw := 0 }, len := RESPONSE_TRY_AGAIN, pTemplateStart := 0,
          st := { _cache := [],
                  source := { content := st.source.content, answers := rest },
                  _sentLength := st._sentLength },
          calls := [] } := by
    simp [firstRead, _readDataFromCacheOrContent, Source._fillBuffer, hcache, hanswer, hlen,
      Buf.store]
  unfold _fillBufferAndProcessTemplates
  rw [hfirst]
  cases cb with
  | none => rfl
  | some f =>
    obtain ⟨k, rfl⟩ : ∃ k, fuel = k + 1 := ⟨fuel - 1, by omega⟩
    refine scanLoop_exit pf base data.length f k _ _
      (scanStep_exit_of pf base data.length f _ (Or.inl ?_))
    simp only [ptrLt, decide_eq_false_iff_not]
    rw [SIZE_MOD_eq] at hfit ⊢
    rw [TRY_AGAIN_eq]
    omega

/-! ## Sending the head -/

theorem accepted_append (a b : List Event) : accepted (a ++ b) = accepted a ++ accepted b := by
  induction a with
  | nil => rfl
  | cons e rest ih =>
    cases e <;> simp [accepted, ih]

/-- The write of the packet keeps `_head` and `_state` and puts its transport calls behind
those made before it. -/
theorem writePacket_keeps (pf : Platform) (env : AckEnv) (r : Response) (packet : Walkable)
    (outLen : Nat) (accepts : List Nat) (events : List Event) :
    (writePacket pf env r packet outLen accepts events).1._head = r._head
      ∧ (writePacket pf env r packet outLen accepts events).1._state = r._state
      ∧ ∃ tail, (writePacket pf env r packet outLen accepts events).2.2 = events ++ tail := by
  unfold writePacket
  split
  · simp only []
    split
    · exact ⟨rfl, rfl, _, by simp only [writeAgain, List.append_assoc]; rfl⟩
    · exact ⟨rfl, rfl, _, rfl⟩
  · exact ⟨rfl, rfl, [], by simp⟩

theorem ackSend_keeps (pf : Platform) (env : AckEnv) (r : Response) (packet : Walkable)
    (outLen readLen : Nat) (accepts : List Nat) (events : List Event)
    (r1 : Response) (ret : Nat) (ev : List Event)
    (h : ackSend pf env r packet outLen readLen accepts events = AckOutcome.done r1 ret ev) :
    r1._head = r._head ∧ (r1._state = r._state ∨ r1._state = RESPONSE_WAIT_ACK)
      ∧ ∃ tail, ev = events ++ tail := by
  unfold ackSend at h
  simp only [] at h
  split at h
  · cases h
  · obtain ⟨h1, h2, tail, h3⟩ := writePacket_keeps pf env r
      { packet with
        _buf := (packet._buf.resize env.resizeOk env.junk (outLen + packet._left)).1 }
      outLen accepts events
    simp only [AckOutcome.done.injEq] at h
    obtain ⟨hr, -, hev⟩ := h
    subst hr hev
    refine ⟨?_, ?_, tail, h3⟩
    · split
      · exact h1
      · exact h1
    · split
      · exact Or.inr rfl
      · exact Or.inl h2

theorem contentAbort_keeps (r : Response) (needs_send : Bool) (events : List Event)
    (r1 : Response) (ret : Nat) (ev : List Event)
    (h : contentAbort r needs_send events = AckOutcome.done r1 ret ev) :
    r1 = r ∧ ∃ tail, ev = events ++ tail := by
  unfold contentAbort at h
  simp only [AckOutcome.done.injEq] at h
  obtain ⟨hr, -, hev⟩ := h
  subst hr hev
  refine ⟨rfl, ?_⟩
  split
  · exact ⟨_, rfl⟩
  · exact ⟨[], by simp⟩

theorem ackFill_keeps (pf : Platform) (fuel : Nat) (env : AckEnv) (r : Response) (space : Nat)
    (needs_send : Bool) (accepts : List Nat) (events : List Event)
    (r1 : Response) (ret : Nat) (ev : List Event)
    (h : ackFill pf fuel env r space needs_send accepts events = AckOutcome.done r1 ret ev) :
    r1._head = r._head ∧ (r1._state = r._state ∨ r1._state = RESPONSE_WAIT_ACK)
      ∧ ∃ tail, ev = events ++ tail := by
  unfold ackFill at h
  simp only [] at h
  split at h
  · obtain ⟨hr, htail⟩ := contentAbort_keeps _ _ _ _ _ _ h
    subst hr
    exact ⟨rfl, Or.inl rfl, htail⟩
  · generalize _safe_allocate_buffer pf env _ = pk at h
    split at h
    · split at h
      · obtain ⟨hr, htail⟩ := contentAbort_keeps _ _ _ _ _ _ h
        subst hr
        exact ⟨rfl, Or.inl rfl, htail⟩
      · split at h
        · cases h
        · cases h
        · split at h
          · cases h
          · split at h
            · obtain ⟨hr, htail⟩ := contentAbort_keeps _ _ _ _ _ _ h
              subst hr
              exact ⟨rfl, Or.inl rfl, htail⟩
            · split at h
              · cases h
              · obtain ⟨h1, h2, h3⟩ := ackSend_keeps _ _ _ _ _ _ _ _ _ _ _ h
                exact ⟨h1, h2, h3⟩
    · split at h
      · cases h
      · cases h
      · split at h
        · cases h
        · split at h
          · obtain ⟨hr, htail⟩ := contentAbort_keeps _ _ _ _ _ _ h
            subst hr
            exact ⟨rfl, Or.inl rfl, htail⟩
          · obtain ⟨h1, h2, h3⟩ := ackSend_keeps _ _ _ _ _ _ _ _ _ _ _ h
            exact ⟨h1, h2, h3⟩

/-- The content branch of `_ack`, whenever it returns, has kept `_head`, has left the state as
it was or set `RESPONSE_WAIT_ACK`, and has put its transport calls behind those made before
it. -/
theorem ackContent_keeps (pf : Platform) (fuel : Nat) (env : AckEnv) (r : Response) (space : Nat)
    (needs_send : Bool) (accepts : List Nat) (events : List Event)
    (r1 : Response) (ret : Nat) (ev : List Event)
    (h : ackContent pf fuel env r space needs_send accepts events = AckOutcome.done r1 ret ev) :
    r1._head = r._head ∧ (r1._state = r._state ∨ r1._state = RESPONSE_WAIT_ACK)
      ∧ ∃ tail, ev = events ++ tail := by
  unfold ackContent at h
  simp only [] at h
  split at h
  · split at h
    · simp only [AckOutcome.done.injEq] at h
      obtain ⟨hr, -, hev⟩ := h
      subst hr hev
      refine ⟨rfl, Or.inl rfl, ?_⟩
      split
      · exact ⟨_, by rw [List.append_assoc]⟩
      · exact ⟨_, rfl⟩
    · obtain ⟨h1, h2, tail, h3⟩ := ackFill_keeps _ _ _ _ _ _ _ _ _ _ _ h
      exact ⟨h1, h2, _, by rw [h3, List.append_assoc]⟩
  · obtain ⟨h1, h2, h3⟩ := ackFill_keeps _ _ _ _ _ _ _ _ _ _ _ h
    exact ⟨h1, h2, h3⟩

theorem headAccepts_le (head : List Nat) (env : AckEnv) :
    headAccepts head env ≤ head.length := by
  unfold headAccepts transfer
  split
  · exact Nat.zero_le _
  · cases env.accepts with
    | nil => simp only [List.length_take]; omega
    | cons a rest => simp only [List.length_take]; omega

/-- One call of `_ack` in `RESPONSE_HEADERS` with a valid source.  Either the window is closed or
`add` takes less than the pending head: then the call returns with the response still in
`RESPONSE_HEADERS`, the bytes accepted in the call being the first `headAccepts` bytes of the
pending head and the head pending afterwards the rest.  Or the window is open and `add` takes
all of the pending head: then the call goes on into the content branch with the state
`RESPONSE_CONTENT` and an empty `_head`. -/
theorem ack_headers_step (pf : Platform) (fuel : Nat) (env : AckEnv) (r : Response) (len : Nat)
    (hvalid : env.sourceValid = true) (hstate : r._state = RESPONSE_HEADERS) :
    ((env.space = 0 ∨ headAccepts r._head env < r._head.length)
        ∧ ∃ r1 ret events, _ack pf fuel env r len = AckOutcome.done r1 ret events
          ∧ r1._state = RESPONSE_HEADERS
          ∧ accepted events = r._head.take (headAccepts r._head env)
          ∧ r1._head = r._head.drop (headAccepts r._head env))
      ∨ (env.space ≠ 0 ∧ headAccepts r._head env = r._head.length
        ∧ _ack pf fuel env r len
            = ackContent pf fuel env
                { r with
                  _ackedLength := (r._ackedLength + len) % SIZE_MOD,
                  _writtenLength := (r._writtenLength + r._head.length) % SIZE_MOD,
                  _state := RESPONSE_CONTENT, _head := [] }
                (env.space - r._head.length) true
                (transfer (r._head.take (min env.space r._head.length)) env.accepts).2
                [Event.add r._head r._head.length]) := by
  by_cases hs : env.space = 0
  · left
    refine ⟨Or.inl hs,
      { r with _ackedLength := (r._ackedLength + len) % SIZE_MOD }, 0, [], ?_, hstate, ?_, ?_⟩
    · unfold _ack
      simp [hvalid, hs, hstate]
    · simp [accepted, headAccepts, hs]
    · simp [headAccepts, hs]
  · have hacc : headAccepts r._head env
        = (transfer (r._head.take (min env.space r._head.length)) env.accepts).1 := by
      simp [headAccepts, hs]
    have hle : (transfer (r._head.take (min env.space r._head.length)) env.accepts).1
        ≤ min env.space r._head.length := by
      unfold transfer
      cases env.accepts with
      | nil => simp
      | cons a rest => simp only [List.length_take]; omega
    by_cases hlt : (transfer (r._head.take (min env.space r._head.length)) env.accepts).1
        < r._head.length
    · left
      refine ⟨Or.inr (by rw [hacc]; exact hlt), { r with
          _ackedLength := (r._ackedLength + len) % SIZE_MOD,
          _writtenLength := (r._writtenLength
            + (transfer (r._head.take (min env.space r._head.length)) env.accepts).1)
            % SIZE_MOD,
          _head := r._head.drop
            (transfer (r._head.take (min env.space r._head.length)) env.accepts).1 },
        (transfer (r._head.take (min env.space r._head.length)) env.accepts).1,
        [Event.add (r._head.take (min env.space r._head.length))
            (transfer (r._head.take (min env.space r._head.length)) env.accepts).1,
          Event.send], ?_, hstate, ?_, ?_⟩
      · unfold _ack
        simp [hvalid, hs, hstate, hlt]
      · simp only [accepted, List.append_nil]
        rw [List.take_take, min_eq_left hle, hacc]
      · rw [hacc]
    · right
      have heq : (transfer (r._head.take (min env.space r._head.length)) env.accepts).1
          = r._head.length := by omega
      have hmin : min env.space r._head.length = r._head.length := by omega
      refine ⟨hs, by rw [hacc]; exact heq, ?_⟩
      unfold _ack
      simp only [hvalid, not_true_eq_false, if_false, hs, false_and, hstate, if_true]
      rw [if_neg (by omega)]
      rw [heq]
      simp only [hmin, List.take_length]

/-! ## Response stream -/

theorem fillLoop_zero (fuel : Nat) (s : AsyncResponseStream) (read : Nat) (out : List Nat) :
    AsyncResponseStream.fillLoop fuel s 0 read out = some (read, out, s) := by
  cases fuel <;>
  · unfold AsyncResponseStream.fillLoop
    cases s._content <;> simp

theorem remaining_cons (b : DynamicBuffer) (rest : List DynamicBuffer) (off : Nat)
    (hwf : b.WellFormed) (hoff : off ≤ b._len) :
    AsyncResponseStream.remaining { _content := b :: rest, _offset := off }
      = b.contents.drop off
        ++ AsyncResponseStream.remaining { _content := rest, _offset := 0 } := by
  unfold DynamicBuffer.WellFormed at hwf
  simp only [AsyncResponseStream.remaining, List.map_cons, List.flatten_cons, List.drop_zero]
  rw [List.drop_append_of_le_length]
  simp only [DynamicBuffer.contents]
  omega

/-- The loop of `_fillBuffer` on a sound stream: it ends within one pass per chunk and one
more, having copied the next `maxLen` bytes the stream holds, or all of them if they are
fewer. -/
theorem fillLoop_spec :
    ∀ (fuel : Nat) (s : AsyncResponseStream) (maxLen read : Nat) (out : List Nat),
      s.Sound → s._content.length < fuel → read + maxLen < SIZE_MOD →
      ∃ s1, AsyncResponseStream.fillLoop fuel s maxLen read out
          = some (read + min maxLen s.remaining.length, out ++ s.remaining.take maxLen, s1)
        ∧ s1.Sound ∧ s1.remaining = s.remaining.drop maxLen
        ∧ s1._content.length ≤ s._content.length := by
  intro fuel
  induction fuel with
  | zero => intro s _ _ _ _ h _; omega
  | succ fuel ih =>
    intro s maxLen read out hsound hfuel hsmall
    obtain ⟨content, offset⟩ := s
    cases content with
    | nil =>
      refine ⟨{ _content := [], _offset := offset }, ?_, hsound, ?_, le_refl _⟩
      · unfold AsyncResponseStream.fillLoop
        simp [AsyncResponseStream.remaining]
      · simp [AsyncResponseStream.remaining]
    | cons dbuf rest =>
      by_cases hz : maxLen = 0
      · subst hz
        refine ⟨{ _content := dbuf :: rest, _offset := offset }, ?_, hsound, ?_, le_refl _⟩
        · rw [fillLoop_zero]; simp
        · simp
      · obtain ⟨hwf, hoff⟩ := hsound
        have hd := hwf dbuf (List.mem_cons_self _ _)
        have hoff2 : offset ≤ dbuf._len := by
          rcases hoff with h | ⟨b, r, h1, h2⟩
          · simp only at h; omega
          · simp only [List.cons.injEq] at h1
            simp only at h2
            rw [h1.1]; omega
        have hrem := remaining_cons dbuf rest offset hd.1 hoff2
        have hclen : (dbuf.contents.drop offset).length = dbuf._len - offset := by
          have := hd.1
          unfold DynamicBuffer.WellFormed at this
          simp only [DynamicBuffer.contents, List.length_drop]
          omega
        have hsub : (dbuf._len + SIZE_MOD - offset) % SIZE_MOD = dbuf._len - offset := by
          have := hd.2
          rw [SIZE_MOD_eq] at this ⊢
          omega
        have hsound1 : AsyncResponseStream.Sound { _content := rest, _offset := 0 } :=
          ⟨fun b hb => hwf b (List.mem_cons_of_mem _ hb), Or.inl rfl⟩
        rw [AsyncResponseStream.fillLoop]
        simp only [hz, if_false, hsub]
        by_cases hall : dbuf._len - offset ≤ maxLen
        · -- the rest of the first chunk is taken and the chunk removed
          have hmin : min (dbuf._len - offset) maxLen = dbuf._len - offset := by omega
          have hoff1 : (offset + (dbuf._len - offset)) % SIZE_MOD = dbuf._len := by
            have := hd.2
            rw [SIZE_MOD_eq] at this ⊢
            omega
          have hread : (read + (dbuf._len - offset)) % SIZE_MOD
              = read + (dbuf._len - offset) := by
            rw [SIZE_MOD_eq] at hsmall ⊢
            omega
          have hslice : slice (dbuf._data.getD []) offset (dbuf._len - offset)
              = dbuf.contents.drop offset := by
            have hl : (List.drop offset (dbuf._data.getD [])).length = dbuf._len - offset :=
              hclen
            unfold slice DynamicBuffer.contents
            rw [← hl]
            exact List.take_length _
          have htk : (dbuf.contents.drop offset).take maxLen = dbuf.contents.drop offset :=
            List.take_of_length_le (by rw [hclen]; exact hall)
          have hdr : (dbuf.contents.drop offset).drop maxLen = [] :=
            List.drop_of_length_le (by rw [hclen]; exact hall)
          simp only [hmin, hoff1, if_true, hread, hslice]
          obtain ⟨s1, hrun, hs1, hrem1, hlen1⟩ :=
            ih { _content := rest, _offset := 0 } (maxLen - (dbuf._len - offset))
              (read + (dbuf._len - offset)) (out ++ dbuf.contents.drop offset) hsound1
              (by simp only [List.length_cons] at hfuel ⊢; omega) (by omega)
          refine ⟨s1, ?_, hs1, ?_, ?_⟩
          · rw [hrun, hrem]
            simp only [List.length_append, hclen, Option.some.injEq, Prod.mk.injEq, and_true]
            refine ⟨by omega, ?_⟩
            rw [List.take_append_eq_append_take, htk, hclen, List.append_assoc]
          · rw [hrem1, hrem, List.drop_append_eq_append_drop, hdr, hclen, List.nil_append]
          · simp only [List.length_cons] at hlen1 ⊢; omega
        · -- the request ends inside the first chunk
          have hmin : min (dbuf._len - offset) maxLen = maxLen := by omega
          have hoff1 : (offset + maxLen) % SIZE_MOD = offset + maxLen := by
            have := hd.2
            rw [SIZE_MOD_eq] at this ⊢
            omega
          have hne : ¬ (offset + maxLen = dbuf._len) := by omega
          simp only [hmin, hoff1, hne, if_false, Nat.sub_self]
          rw [fillLoop_zero]
          refine ⟨{ _content := dbuf :: rest, _offset := offset + maxLen }, ?_,
            ⟨hwf, Or.inr ⟨dbuf, rest, rfl, by simp only; omega⟩⟩, ?_, le_refl _⟩
          · rw [hrem]
            simp only [List.length_append, hclen, Option.some.injEq, Prod.mk.injEq, and_true]
            refine ⟨?_, ?_⟩
            · rw [SIZE_MOD_eq] at hsmall ⊢
              omega
            · rw [List.take_append_of_le_length (by rw [hclen]; omega)]
              rfl
          · simp only [AsyncResponseStream.remaining]
            rw [List.drop_drop]

theorem drain_concat (lens : List Nat) :
    ∀ bytes : List Nat,
      ((drainInOrder bytes lens).map (fun p => p.2)).flatten = bytes.take lens.sum := by
  induction lens with
  | nil => intro bytes; simp [drainInOrder]
  | cons n ns ih =>
    intro bytes
    simp only [drainInOrder, List.map_cons, List.flatten_cons, List.sum_cons, ih]
    rw [List.take_add]

/-- Successive calls of `_fillBuffer` on a sound stream. -/
theorem streamRun_spec (fuel : Nat) (lens : List Nat) :
    ∀ s : AsyncResponseStream, s.Sound → s._content.length < fuel →
      (∀ n ∈ lens, n < SIZE_MOD) →
      ∃ s1, streamRun fuel s lens = some (drainInOrder s.remaining lens, s1)
        ∧ s1.Sound ∧ s1.remaining = s.remaining.drop lens.sum := by
  induction lens with
  | nil => intro s hs _ _; exact ⟨s, rfl, hs, by simp⟩
  | cons n ns ih =>
    intro s hs hfuel hlens
    obtain ⟨s1, hrun, hs1, hrem1, hlen1⟩ :=
      fillLoop_spec fuel s n 0 [] hs hfuel (by
        have := hlens n (List.mem_cons_self _ _)
        omega)
    obtain ⟨s2, hrun2, hs2, hrem2⟩ :=
      ih s1 hs1 (by omega) (fun m hm => hlens m (List.mem_cons_of_mem _ hm))
    refine ⟨s2, ?_, hs2, ?_⟩
    · simp only [streamRun, AsyncResponseStream._fillBuffer, hrun, hrun2, hrem1,
        Option.map_some', drainInOrder, Nat.zero_add, List.nil_append]
    · rw [hrem2, hrem1, List.drop_drop, List.sum_cons]

/-! ## Buffer to string -/

theorem takeWhile_take (p : Nat → Bool) (l : List Nat) :
    ∀ k, (l.take k).takeWhile p = (l.takeWhile p).take k := by
  induction l with
  | nil => intro k; simp
  | cons x xs ih =>
    intro k
    cases k with
    | zero => simp
    | succ k =>
      rw [List.take_succ_cons]
      by_cases hx : p x = true
      · simp [List.takeWhile_cons, hx, ih k]
      · simp [List.takeWhile_cons, hx]

theorem take_takeWhile_length (p : Nat → Bool) (l : List Nat) :
    l.take (l.takeWhile p).length = l.takeWhile p := by
  induction l with
  | nil => simp
  | cons x xs ih =>
    by_cases hx : p x = true
    · simp [List.takeWhile_cons, hx, ih]
    · simp [List.takeWhile_cons, hx]

theorem cstr_length_lt (mem : List Nat) (h : 0 ∈ mem) : (cstr mem).length < mem.length := by
  induction mem with
  | nil => simp at h
  | cons x xs ih =>
    unfold cstr at ih ⊢
    by_cases hx : x = 0
    · simp [List.takeWhile_cons, hx]
    · have hxs : 0 ∈ xs := by
        rcases List.mem_cons.mp h with e | e
        · exact absurd e.symm hx
        · exact e
      have h1 := ih hxs
      have h2 : List.takeWhile (· ≠ 0) (x :: xs) = x :: List.takeWhile (· ≠ 0) xs := by
        simp [List.takeWhile_cons, hx]
      rw [h2]
      simp only [List.length_cons]
      omega

/-! ## String/code response -/

theorem foldl_append_lines {α : Type} (f : α → List Nat) (l : List α) :
    ∀ init : List Nat, l.foldl (fun acc x => acc ++ f x) init = init ++ (l.map f).flatten := by
  induction l with
  | nil => intro init; simp
  | cons x xs ih => intro init; simp [ih]

/-- The head `_assembleHead` returns, line by line. -/
theorem assembleHead_lines (r : Response) (version : Nat) :
    (_assembleHead r version).1
      = statusLine r version ++ contentLengthLine r ++ middleLines r version
        ++ chunkedLine r version ++ CRLF := by
  unfold _assembleHead statusLine contentLengthLine middleLines chunkedLine
  simp only [foldl_append_lines]
  cases r._sendContentLength <;> cases r._chunked <;>
    by_cases hv : version = 0 <;> by_cases hc : r._contentType.length = 0 <;>
    simp [hv, hc, List.append_assoc]

/-- The flags `AsyncAbstractResponse::AsyncAbstractResponse` leaves: chunked without
Content-Length when a template callback is given, Content-Length without chunking otherwise. -/
theorem abstract_flags (defaultHeaders : List (List Nat × List Nat)) (source : Source)
    (callback : Option AwsTemplateProcessor) :
    ((newAsyncAbstractResponse defaultHeaders source callback)._chunked = true
        ∧ (newAsyncAbstractResponse defaultHeaders source
            callback)._sendContentLength = false)
      ∨ ((newAsyncAbstractResponse defaultHeaders source callback)._chunked
          = false
        ∧ (newAsyncAbstractResponse defaultHeaders source
            callback)._sendContentLength = true) := by
  unfold newAsyncAbstractResponse
    newAsyncWebServerResponse
  cases callback <;> simp
/-- The constructor of `AsyncBasicResponse` leaves a response whose content length is the length
of its content and of which nothing counts as sent. -/
theorem newAsyncBasicResponse_lengths (defaultHeaders : List (List Nat × List Nat))
    (plain : List Nat) (code : Int) (contentType content : List Nat) :
    (newAsyncBasicResponse defaultHeaders plain code contentType content).base._contentLength
        = (newAsyncBasicResponse defaultHeaders plain code contentType content)._content.length
      ∧ (newAsyncBasicResponse defaultHeaders plain code contentType content).base._sentLength
        = 0 := by
  unfold newAsyncBasicResponse newAsyncWebServerResponse addHeader
  by_cases hc : content.length = 0
  · simp [hc]
  · simp only [ne_eq, hc, not_false_eq_true, if_true]
    split <;> simp

/-! ## The claims -/

set_option maxRecDepth 100000 in
/-- C1 (evaluation at the failing input). A length-delimited response with head
`HTTP/1.1 200 OK` and content `abcd` meets a window of 23 bytes; the transport takes the 19 head
bytes, then 3 of the 4 content bytes, then 2 of the 2 bytes the second `write` offers.  That
second `write` offers `min(outLen/2, TCP_MSS) = 2` bytes although `_packet` holds one, so the
transport receives a byte from past the packet, and what it has accepted is no initial segment
of head and content. -/
theorem ack_retry_write_reads_past_packet :
    accepted (_ack esp 0 (plainEnv 23 [19, 3, 2])
        (lengthResponse "HTTP/1.1 200 OK\r\n\r\n" "abcd") 0).events
      = ascii "HTTP/1.1 200 OK\r\n\r\n" ++ ascii "abcd" ++ [63]
    ∧ ¬ (accepted (_ack esp 0 (plainEnv 23 [19, 3, 2])
          (lengthResponse "HTTP/1.1 200 OK\r\n\r\n" "abcd") 0).events
        <+: ascii "HTTP/1.1 200 OK\r\n\r\n" ++ ascii "abcd") := by
  decide

set_option maxRecDepth 100000 in
/-- C2 (evaluation at the failing input). For the content `%%escaped%%` and a callback that
answers `X`, one fill of the whole content yields `%escaped%` without any callback invocation,
whereas a fill of 1 byte followed by a fill of the rest yields `X%` and invokes the callback
with `escaped`: the escaped pair that straddles the chunk edge is taken for an opening
delimiter. -/
theorem split_fill_differs_on_escaped_pair :
    (fillRun esp 16 0x3FFE8000 0 (some allX) (textSource "%%escaped%%") [11]).map
        (fun res => (res.1, res.2.2)) = some (ascii "%escaped%", [])
    ∧ (fillRun esp 16 0x3FFE8000 0 (some allX) (textSource "%%escaped%%") [1, 11]).map
        (fun res => (res.1, res.2.2)) = some (ascii "X%", [ascii "escaped"]) := by
  decide

set_option maxRecDepth 100000 in
/-- C3 (evaluation at the failing input). A chunked response with content `hi`: the first `_ack`
sends the chunk `0002 CRLF hi CRLF`; in the second the source reports the end, the closing chunk
`0000 CRLF CRLF` is offered twice and the transport takes nothing of it, yet the state moves to
`RESPONSE_WAIT_ACK`; the third `_ack` moves to `RESPONSE_END`.  The closing chunk left in
`_packet` is never handed over: the body the transport got has no zero-length chunk. -/
theorem chunked_end_drops_pending_last_chunk :
    (ackRun esp 0 (bodyResponse "hi" true)
        [(plainEnv 100 [], 0), (plainEnv 100 [0, 0], 10), (plainEnv 100 [], 0)]).map
      (fun res => (res.1._state, accepted res.2))
      = some (RESPONSE_END, ascii "0002\r\nhi\r\n") := by
  decide

set_option maxRecDepth 100000 in
/-- C4 (the claim as stated fails). For a chunked response whose fill returns the 2 bytes `hi`,
the packet offered to the transport is `0002 CRLF hi CRLF`; it is not the hexadecimal numeral of
2 (the single digit `2`) followed by CR LF, the payload and CR LF.  And for a fill of 65536 bytes
into a packet of 65536 + 8 bytes the numeral has five digits and the envelope does not fit: its
last store falls outside the packet buffer. -/
theorem chunk_size_is_zero_padded :
    (_ack esp 0 (plainEnv 100 []) (bodyResponse "hi" true) 0).events
        = [Event.write (ascii "0002\r\nhi\r\n") 10]
    ∧ (¬ ∃ k rest, (_ack esp 0 (plainEnv 100 []) (bodyResponse "hi" true) 0).events
        = Event.write (hexNumeral 2 ++ CRLF ++ ascii "hi" ++ CRLF) k :: rest)
    ∧ chunkEnvelope (List.replicate (65536 + 8) 63) 65536 = none := by
  have h : (_ack esp 0 (plainEnv 100 []) (bodyResponse "hi" true) 0).events
        = [Event.write (ascii "0002\r\nhi\r\n") 10] := by decide
  refine ⟨h, ?_, chunkEnvelope_overrun _ _ (by decide) (by rw [List.length_replicate])⟩
  rintro ⟨k, rest, h2⟩
  rw [h] at h2
  have h3 : ascii "0002\r\nhi\r\n" = hexNumeral 2 ++ CRLF ++ ascii "hi" ++ CRLF := by
    injection h2 with h4 _
    injection h4
  exact absurd h3 (by decide)

set_option maxRecDepth 100000 in
/-- C4 (witness of the amended claim): the chunked response with content `hi` in a window of 100
bytes. -/
theorem ack_chunk_packet_layout_witness :
    ∃ k rest, (_ack esp 0 (plainEnv 100 []) (bodyResponse "hi" true) 7).events
        = Event.write (sprintf04x 2 ++ CRLF ++ ascii "hi" ++ CRLF) k :: rest :=
  ack_chunk_packet_layout esp 0 (plainEnv 100 []) (bodyResponse "hi" true) 7
    (chunkFill esp 0 (plainEnv 100 []) (bodyResponse "hi" true)).scan
    (by decide) (by decide) (by decide) (by decide) (by decide) (by decide) (by decide)
    (by decide) (by decide) (by decide) (by decide)

set_option maxRecDepth 100000 in
/-- C5 (evaluation at the failing input). For a response with the header `X-Note` whose value is
300 bytes long, `_assembleHead` emits only the first 299 bytes of the header line, without its
CR LF, so that `Accept-Ranges: none` follows the cut value on the same line: the head differs
from the documented format. -/
theorem assembleHead_truncates_long_header :
    (_assembleHead longHeaderResponse 1).1
        = ascii "HTTP/1.1 200 OK\r\nContent-Length: 0\r\n"
            ++ (ascii "X-Note: " ++ List.replicate 291 97)
            ++ ascii "Accept-Ranges: none\r\n\r\n"
    ∧ (_assembleHead longHeaderResponse 1).1 ≠ headFormat longHeaderResponse 1 := by
  decide

set_option maxRecDepth 100000 in
/-- C6 (evaluation at the failing input). The content `ab%X%` is read into a buffer of 10 bytes
(the read returns 5), and the callback answers `0123456789`.  Successive fills yield `ab012`
and `89` and then nothing, with cache and source empty: the bytes `34567` of the value are
lost. -/
theorem long_value_after_short_read_loses_bytes :
    (fillRun esp 16 0x3FFE8000 0 (some tenDigits) (textSource "ab%X%") [10, 10, 10]).map
        (fun res => (res.1, res.2.1._cache, res.2.1.source.content))
      = some (ascii "ab01289", [], []) := by
  decide

set_option maxRecDepth 100000 in
/-- C7 (evaluation at the failing input). With `TEMPLATE_PARAM_NAME_LENGTH = 32`, the content made
of a delimiter, 33 letters `A` and a delimiter is not emitted as it stands: the callback is
invoked with the first 32 letters and the whole span is replaced by its value `X`. -/
theorem long_name_is_truncated_and_substituted :
    (fillRun esp 16 0x3FFE8000 0 (some allX)
        (textSource "%AAAAAAAAAAAAAAAAAAAAAAAAAAAAAAAAA%") [35]).map (fun res => (res.1, res.2.2))
      = some (ascii "X", [ascii "AAAAAAAAAAAAAAAAAAAAAAAAAAAAAAAA"]) := by
  decide

set_option maxRecDepth 100000 in
/-- C8 (evaluation at the failing input). The content `%NAME%` is filled into a buffer of three
bytes with a callback set; the source gives three bytes to the first read and answers the next
call with `RESPONSE_TRY_AGAIN`.  The scan finds the opening delimiter and no closing one among
the three bytes, so it reads ahead, `_readDataFromCacheOrContent(buf + 2, 31)`; that read returns
`RESPONSE_TRY_AGAIN`, which is not 0, and the code goes on to search `0xFFFFFFFF` bytes from
`buf + 2` on, inside an array of 33 bytes, and to store through what the search finds.  However
many passes the loop is given, the call ends there in undefined behaviour: it returns neither
`RESPONSE_TRY_AGAIN` nor a count of at most 3, and what it writes is no longer bounded. -/
theorem fill_look_ahead_try_again_is_undefined :
    firstRead (stallingSource "%NAME%" [some 3, none]) (List.replicate 3 0)
        = { buf := { bytes := ascii "%NA", hw := 3 }, len := 3, pTemplateStart := 0,
            st := { _cache := [], source := { content := ascii "ME%", answers := [none] },
                    _sentLength := 3 },
            calls := [] }
      ∧ (_readDataFromCacheOrContent
            { _cache := [], source := { content := ascii "ME%", answers := [none] },
              _sentLength := 3 } (esp.TEMPLATE_PARAM_NAME_LENGTH + 2 - 3)).1
          = RESPONSE_TRY_AGAIN
      ∧ ∀ fuel, _fillBufferAndProcessTemplates esp (fuel + 1) 0x3FFE8000 (some allX)
            (stallingSource "%NAME%" [some 3, none]) (List.replicate 3 0)
          = Outcome.undefined
              { buf := { bytes := ascii "%NA", hw := 3 }, len := 3, pTemplateStart := 0,
                st := { _cache := [], source := { content := ascii "ME%", answers := [] },
                        _sentLength := 3 },
                calls := [] } := by
  have hfirst : firstRead (stallingSource "%NAME%" [some 3, none]) (List.replicate 3 0)
        = { buf := { bytes := ascii "%NA", hw := 3 }, len := 3, pTemplateStart := 0,
            st := { _cache := [], source := { content := ascii "ME%", answers := [none] },
                    _sentLength := 3 },
            calls := [] } := by
    decide
  refine ⟨hfirst, by decide, ?_⟩
  intro fuel
  unfold _fillBufferAndProcessTemplates
  simp only [List.length_replicate]
  rw [hfirst]
  exact scanLoop_undefined esp 0x3FFE8000 3 allX fuel _ _ (by decide)

/-- C9 (evaluation at the failing inputs). The scan loop never ends, however many passes it is
given: for the content `%`, NUL, `%` with any callback (the name reads as empty, nothing is
replaced and `pTemplateStart` stays on the opening delimiter), and for the content `%A%` with a
callback whose value is the placeholder itself (each pass invokes the callback once more). -/
theorem fill_scan_loop_never_ends :
    (∀ fuel, _fillBufferAndProcessTemplates esp fuel 0x3FFE8000 (some allX)
        (textSource "%\x00%") (List.replicate 3 0) = Outcome.running (stuckScan [37, 0, 37] []))
    ∧ (∀ fuel, ∃ calls, calls.length = fuel ∧
        _fillBufferAndProcessTemplates esp fuel 0x3FFE8000 (some echoName)
          (textSource "%A%") (List.replicate 3 0)
          = Outcome.running (stuckScan [37, 65, 37] calls)) := by
  constructor
  · intro fuel
    unfold _fillBufferAndProcessTemplates
    simp only [List.length_replicate]
    rw [firstRead_nul]
    exact stuck_nul_loop fuel
  · intro fuel
    obtain ⟨more, hlen, h⟩ := stuck_echo_loop fuel []
    refine ⟨more, hlen, ?_⟩
    unfold _fillBufferAndProcessTemplates
    simp only [List.length_replicate]
    rw [firstRead_echo, h, List.nil_append]

set_option maxRecDepth 100000 in
/-- C10 (evaluation at the failing input). The content `%%abc` is filled in requests of 4 bytes.
When the one-byte refill after the escaped pair is answered with `RESPONSE_TRY_AGAIN`, the
fills yield `%ac` in all, the byte `b` being lost; when the source never answers
`RESPONSE_TRY_AGAIN` they yield `%abc`. -/
theorem try_again_in_refill_loses_byte :
    (fillRun esp 16 0x3FFE8000 0 (some allX) (stallingSource "%%abc" [some 4, none])
        [4, 4, 4]).map (fun res => (res.1, res.2.1.source.content)) = some (ascii "%ac", [])
    ∧ (fillRun esp 16 0x3FFE8000 0 (some allX) (textSource "%%abc") [4, 4, 4]).map
        (fun res => (res.1, res.2.1.source.content)) = some (ascii "%abc", []) := by
  decide

/-- C13 (as written): a call of `_ack` in `RESPONSE_CONTENT` with a closed window and an
acknowledged length of 5 does change the response: `_ackedLength` goes from 0 to 5. -/
theorem ack_closed_window_counts_acknowledged :
    (bodyResponse "hello" false)._ackedLength = 0
      ∧ ((_ack esp 4 (plainEnv 0 []) (bodyResponse "hello" false) 5).response.map
          (fun r => r._ackedLength)) = some 5 := by
  decide

/-- C13 (amended): for a response in `RESPONSE_HEADERS` or `RESPONSE_CONTENT` with a valid
source, a call of `_ack` while `space()` is 0 returns 0, makes no transport call, and leaves
every member as it was except `_ackedLength`, which grows by `len` in `size_t`. -/
theorem ack_closed_window_only_counts (pf : Platform) (fuel : Nat) (env : AckEnv) (r : Response)
    (len : Nat) (hvalid : env.sourceValid = true) (hspace : env.space = 0)
    (hstate : r._state = RESPONSE_HEADERS ∨ r._state = RESPONSE_CONTENT) :
    _ack pf fuel env r len
      = AckOutcome.done { r with _ackedLength := (r._ackedLength + len) % SIZE_MOD } 0 [] := by
  unfold _ack
  simp [hvalid, hspace, hstate]

/-- C13 (witness of the amended claim): a length-delimited response in `RESPONSE_HEADERS`, a
closed window and an acknowledged length of 7. -/
theorem ack_closed_window_only_counts_witness :
    _ack esp 4 (plainEnv 0 []) (lengthResponse "HTTP/1.1 200 OK\r\n\r\n" "hello") 7
      = AckOutcome.done
          { lengthResponse "HTTP/1.1 200 OK\r\n\r\n" "hello" with
            _ackedLength := ((lengthResponse "HTTP/1.1 200 OK\r\n\r\n" "hello")._ackedLength + 7)
              % SIZE_MOD } 0 [] :=
  ack_closed_window_only_counts esp 4 (plainEnv 0 []) _ 7 rfl rfl (Or.inl rfl)

/-- C16 (as written): a response in `RESPONSE_END` whose source reports invalid is moved to
`RESPONSE_FAILED` by the next `_ack`. -/
theorem ack_end_to_failed_on_invalid_source :
    (_ack esp 4 { plainEnv 100 [] with sourceValid := false }
        { bodyResponse "hello" false with _state := RESPONSE_END } 0).state
      = some RESPONSE_FAILED := by
  decide

/-- C16 (amended): a call of `_ack` on a response in `RESPONSE_END` or `RESPONSE_FAILED` always
returns, and leaves the state as it was when the source reports valid; when the source reports
invalid the state afterwards is `RESPONSE_FAILED`, also from `RESPONSE_END`. -/
theorem ack_terminal_state (pf : Platform) (fuel : Nat) (env : AckEnv) (r : Response)
    (len : Nat) (hstate : r._state = RESPONSE_END ∨ r._state = RESPONSE_FAILED) :
    (_ack pf fuel env r len).state
      = some (if env.sourceValid then r._state else RESPONSE_FAILED) := by
  unfold _ack
  rcases hstate with h | h <;> cases hv : env.sourceValid <;>
    simp [h, AckOutcome.state, AckOutcome.response]

/-- C16 (witness of the amended claim): a response in `RESPONSE_END` and a valid source. -/
theorem ack_terminal_state_witness :
    (_ack esp 4 (plainEnv 100 []) { bodyResponse "hello" false with _state := RESPONSE_END }
        3).state
      = some (if (plainEnv 100 []).sourceValid then RESPONSE_END else RESPONSE_FAILED) :=
  ack_terminal_state esp 4 (plainEnv 100 [])
    { bodyResponse "hello" false with _state := RESPONSE_END } 3 (Or.inl rfl)

/-- C17: when the source reports invalid, `_ack` sets the state to `RESPONSE_FAILED`, calls
`close()` on the transport and nothing else, and returns 0, whatever the state before; every
later sequence of `_ack` calls returns with the response still in `RESPONSE_FAILED`, having
made no `add` or `write` call (only `close()`), so no byte is handed to the transport. -/
theorem ack_invalid_source_fails (pf : Platform) (fuel : Nat) (env : AckEnv) (r : Response)
    (len : Nat) (hinvalid : env.sourceValid = false) :
    _ack pf fuel env r len
        = AckOutcome.done { r with _state := RESPONSE_FAILED } 0 [Event.close false]
      ∧ ∀ calls : List (AckEnv × Nat), ∃ r1 events,
          ackRun pf fuel { r with _state := RESPONSE_FAILED } calls = some (r1, events)
            ∧ r1._state = RESPONSE_FAILED ∧ (∀ e ∈ events, e = Event.close false)
            ∧ accepted events = [] := by
  constructor
  · unfold _ack
    simp [hinvalid]
  · intro calls
    obtain ⟨r1, events, h1, h2, h3⟩ :=
      ackRun_failed pf fuel calls { r with _state := RESPONSE_FAILED } rfl
    exact ⟨r1, events, h1, h2, h3, accepted_of_close events h3⟩

/-- C17 (witness): a response in `RESPONSE_CONTENT` whose source reports invalid. -/
theorem ack_invalid_source_fails_witness :
    _ack esp 4 { plainEnv 100 [] with sourceValid := false } (bodyResponse "hello" false) 0
        = AckOutcome.done { bodyResponse "hello" false with _state := RESPONSE_FAILED } 0
            [Event.close false]
      ∧ ∀ calls : List (AckEnv × Nat), ∃ r1 events,
          ackRun esp 4 { bodyResponse "hello" false with _state := RESPONSE_FAILED } calls
              = some (r1, events)
            ∧ r1._state = RESPONSE_FAILED ∧ (∀ e ∈ events, e = Event.close false)
            ∧ accepted events = [] :=
  ack_invalid_source_fails esp 4 { plainEnv 100 [] with sourceValid := false }
    (bodyResponse "hello" false) 0 rfl

/-- C18: in `RESPONSE_WAIT_ACK` with a valid source, `_ack` counts the acknowledged length,
returns 0, and moves the response to `RESPONSE_END` exactly when it sends no Content-Length or
the acknowledged count has reached the written count (otherwise it stays in
`RESPONSE_WAIT_ACK`); its only possible transport call is `close(true)`, made exactly when the
response is neither chunked nor length-delimited, in which case it is moved to
`RESPONSE_END`. -/
theorem ack_wait_ack (pf : Platform) (fuel : Nat) (env : AckEnv) (r : Response) (len : Nat)
    (hvalid : env.sourceValid = true) (hstate : r._state = RESPONSE_WAIT_ACK) :
    _ack pf fuel env r len
      = AckOutcome.done
          { r with
            _ackedLength := (r._ackedLength + len) % SIZE_MOD,
            _state :=
              if r._sendContentLength = false
                  ∨ r._writtenLength ≤ (r._ackedLength + len) % SIZE_MOD
              then RESPONSE_END else RESPONSE_WAIT_ACK }
          0
          (if r._chunked = false ∧ r._sendContentLength = false then [Event.close true]
            else []) := by
  unfold _ack
  cases hc : r._chunked <;> cases hl : r._sendContentLength <;>
    by_cases ha : r._writtenLength ≤ (r._ackedLength + len) % SIZE_MOD <;>
    simp [hvalid, hstate, hc, hl, ha]

/-- C18 (witness): a length-delimited response in `RESPONSE_WAIT_ACK` with 5 bytes written, and
an `_ack` for those 5 bytes. -/
theorem ack_wait_ack_witness :
    _ack esp 4 (plainEnv 100 [])
        { bodyResponse "hello" false with _state := RESPONSE_WAIT_ACK, _writtenLength := 5 } 5
      = AckOutcome.done
          { bodyResponse "hello" false with
            _writtenLength := 5,
            _ackedLength := (0 + 5) % SIZE_MOD,
            _state :=
              if (bodyResponse "hello" false)._sendContentLength = false
                  ∨ 5 ≤ (0 + 5) % SIZE_MOD
              then RESPONSE_END else RESPONSE_WAIT_ACK }
          0
          (if (bodyResponse "hello" false)._chunked = false
              ∧ (bodyResponse "hello" false)._sendContentLength = false
            then [Event.close true] else []) :=
  ack_wait_ack esp 4 (plainEnv 100 [])
    { bodyResponse "hello" false with _state := RESPONSE_WAIT_ACK, _writtenLength := 5 } 5
    rfl rfl

set_option maxRecDepth 100000 in
/-- C14: a response without Content-Length and without chunking, with a head of 19 bytes and
the content `hello`, meets a window of exactly 19 bytes: the first `_ack` queues the head, has
no window left, fills zero bytes and moves to `RESPONSE_WAIT_ACK`; the second moves to
`RESPONSE_END` and closes the transport.  The transport has taken the head only and the source
still holds all of `hello`, which it was never asked for. -/
theorem unframed_ends_when_head_fills_window :
    (ackRun esp 4 (unframedResponse "HTTP/1.1 200 OK\r\n\r\n" "hello")
        [(plainEnv 19 [], 0)]).map (fun res => res.1._state) = some RESPONSE_WAIT_ACK
      ∧ (ackRun esp 4 (unframedResponse "HTTP/1.1 200 OK\r\n\r\n" "hello")
          [(plainEnv 19 [], 0), (plainEnv 1460 [], 19)]).map
          (fun res => (res.1._state, accepted res.2, res.2.getLast?, res.1.source.content,
            res.1._sentLength))
        = some (RESPONSE_END, ascii "HTTP/1.1 200 OK\r\n\r\n", some (Event.close true),
            ascii "hello", 0) := by
  decide

set_option maxRecDepth 100000 in
/-- C15: an `AsyncBasicResponse` with the content `abcd` is started with a window of 1000
bytes; its `write` offers the head and the content, 108 bytes, of which the transport takes 50.
The response counts 50 bytes written, never offers the other 58 again, and the `_ack` for
those 50 bytes moves it to `RESPONSE_END`: the transport has taken 50 bytes, a proper part of
the head. -/
theorem basic_response_drops_unaccepted_bytes :
    ((basicResponse 200 "text/plain" "abcd")._respond 1 1000 63 [50]).2
        = [Event.write (ascii ("HTTP/1.1 200 OK\r\nContent-Length: 4\r\n"
            ++ "Content-Type: text/plain\r\nConnection: close\r\nAccept-Ranges: none\r\n\r\n"
            ++ "abcd")) 50]
      ∧ (basicRun 1 63 (basicResponse 200 "text/plain" "abcd") (1000, [50])
            [(1000, [], 50)]).1.base._state = RESPONSE_END
      ∧ (basicRun 1 63 (basicResponse 200 "text/plain" "abcd") (1000, [50])
            [(1000, [], 50)]).1.base._writtenLength = 50
      ∧ accepted (basicRun 1 63 (basicResponse 200 "text/plain" "abcd") (1000, [50])
            [(1000, [], 50)]).2
          = ascii ("HTTP/1.1 200 OK\r\nContent-Length: 4\r\n"
              ++ "Content-Type: ") := by
  decide

/-- C20: a buffer of four bytes, its block granted by `malloc`, is resized to 0.  The `realloc`
of size 0 releases the block and answers null, so `resize` assigns neither member: whatever the
heap would grant, the buffer keeps the size 4 and a data pointer that is not null, while it holds
no allocation any more. -/
theorem resize_zero_keeps_size_without_block :
    DynamicBuffer.ofSize true 63 4 = { _data := some [63, 63, 63, 63], _len := 4 }
      ∧ (DynamicBuffer.ofSize true 63 4).holdsAllocation = true
      ∧ ∀ granted : Bool,
          ((DynamicBuffer.ofSize true 63 4).resize granted 63 0).1
              = { _data := some [63, 63, 63, 63], _len := 4, freed := true }
            ∧ ((DynamicBuffer.ofSize true 63 4).resize granted 63 0).1._len ≠ 0
            ∧ ((DynamicBuffer.ofSize true 63 4).resize granted 63 0).1.holdsAllocation = false := by
  decide

/-- C19: for every total below `2^32` and every maximum buffer size (zero included),
`allocateDynamicBufferList` and `allocateSharedBufferList` end within `total` passes of the loop
and return the same buffers.  When every allocation succeeds the list holds the buffers needed
in order, each with its block and no larger than the maximum, all but the last exactly the
maximum, with sizes summing to the total, which is what `totalSize` gives for it; when some
allocation does not succeed the list is empty. -/
theorem allocateList_all_or_nothing (fuel junk : Nat) (grants : List Bool)
    (total max_buffer_size : Nat) (hfuel : total < fuel) (htotal : total < SIZE_MOD) :
    ∃ buffers, allocateDynamicBufferList fuel junk grants total max_buffer_size = some buffers
      ∧ allocateSharedBufferList fuel junk grants total max_buffer_size
          = some (buffers.map SharedBuffer.mk)
      ∧ (allocationsSucceed grants total max_buffer_size →
          buffers.length = buffersNeeded total max_buffer_size
            ∧ (∀ b ∈ buffers, b._data.isSome = true ∧ b._len ≤ max_buffer_size)
            ∧ (∀ b ∈ buffers.dropLast, b._len = max_buffer_size)
            ∧ (buffers.map (fun b => b._len)).sum = total
            ∧ totalSize buffers = total
            ∧ totalSizeShared (buffers.map SharedBuffer.mk) = total)
      ∧ (¬ allocationsSucceed grants total max_buffer_size → buffers = []) := by
  rcases Nat.eq_zero_or_pos max_buffer_size with hm | hm
  · subst hm
    cases total with
    | zero =>
      cases fuel with
      | zero => omega
      | succ f =>
        refine ⟨[], by simp [allocateDynamicBufferList, allocateLoop],
          by simp [allocateSharedBufferList, allocateDynamicBufferList, allocateLoop], ?_, ?_⟩
        · intro _
          refine ⟨by rw [buffersNeeded_zero]; rfl, by simp, by simp, rfl, rfl, rfl⟩
        · intro _; rfl
    | succ t =>
      cases fuel with
      | zero => omega
      | succ f =>
        refine ⟨[], ?_, ?_, ?_, ?_⟩
        · simp [allocateDynamicBufferList, allocateLoop_max_zero]
        · simp [allocateSharedBufferList, allocateDynamicBufferList, allocateLoop_max_zero]
        · intro h
          rcases h.1 with h0 | h0 <;> omega
        · intro _; rfl
  · obtain ⟨rem, built, hrun, hres⟩ :=
      allocateLoop_spec junk max_buffer_size hm fuel total grants [] hfuel
    rw [List.nil_append] at hrun
    rcases hres with ⟨h0, hgr, hlen, hall, hlast, hsum⟩ | ⟨h0, i, hi, hgi⟩
    · subst h0
      have hts : totalSize built = total := by
        rw [totalSize_eq built (by rw [hsum]; exact htotal), hsum]
      refine ⟨built, ?_, ?_, ?_, ?_⟩
      · simp [allocateDynamicBufferList, hrun]
      · simp [allocateSharedBufferList, allocateDynamicBufferList, hrun]
      · intro _
        exact ⟨hlen, hall, hlast, hsum, hts, by rw [totalSizeShared_eq, hts]⟩
      · intro hn
        exact absurd ⟨Or.inr hm, hgr⟩ hn
    · refine ⟨[], ?_, ?_, ?_, ?_⟩
      · simp [allocateDynamicBufferList, hrun, h0]
      · simp [allocateSharedBufferList, allocateDynamicBufferList, hrun, h0]
      · intro h
        have := h.2 i hi
        rw [hgi] at this
        exact absurd this (by decide)
      · intro _; rfl

/-- C19 (witness): 10 bytes in buffers of at most 4. -/
theorem allocateList_all_or_nothing_witness :
    ∃ buffers, allocateDynamicBufferList 11 63 [true, true, true] 10 4 = some buffers
      ∧ allocateSharedBufferList 11 63 [true, true, true] 10 4
          = some (buffers.map SharedBuffer.mk)
      ∧ (allocationsSucceed [true, true, true] 10 4 →
          buffers.length = buffersNeeded 10 4
            ∧ (∀ b ∈ buffers, b._data.isSome = true ∧ b._len ≤ 4)
            ∧ (∀ b ∈ buffers.dropLast, b._len = 4)
            ∧ (buffers.map (fun b => b._len)).sum = 10
            ∧ totalSize buffers = 10
            ∧ totalSizeShared (buffers.map SharedBuffer.mk) = 10)
      ∧ (¬ allocationsSucceed [true, true, true] 10 4 → buffers = []) :=
  allocateList_all_or_nothing 11 63 [true, true, true] 10 4 (by decide) (by decide)

/-- C12: for every content in which the delimiter byte occurs only in adjacent pairs, one call of
`_fillBufferAndProcessTemplates` with a template callback set, on a fresh source holding that
content and with a requested length that takes the whole content, returns within one pass of
the scan loop per byte of content and one more; the bytes it reports are the content with every
pair replaced by a single delimiter byte, and the callback is never invoked. -/
theorem fill_unescapes_paired_delimiters (pf : Platform) (fuel base sent : Nat)
    (cb : AwsTemplateProcessor) (content data : List Nat)
    (hpairs : pairedOnly content = true) (hfit : content.length ≤ data.length)
    (hbase : 0 < base) (haddr : base + data.length < SIZE_MOD)
    (hfuel : content.length < fuel) :
    ∃ sc, _fillBufferAndProcessTemplates pf fuel base (some cb)
          { _cache := [], source := { content := content, answers := [] },
            _sentLength := sent } data = Outcome.returned sc
      ∧ sc.output = unescape content ∧ sc.len = (unescape content).length
      ∧ sc.calls = [] := by
  have hsmall : data.length < RESPONSE_TRY_AGAIN := by
    rw [SIZE_MOD_eq] at haddr
    rw [TRY_AGAIN_eq]
    omega
  obtain ⟨hw, st1, hfirst, hst1⟩ := firstRead_whole content data sent hfit hsmall
  have hN : ([] ++ content ++ data.drop content.length).length = data.length := by
    simp only [List.nil_append, List.length_append, List.length_drop]
    omega
  obtain ⟨sc, hrun, hout, hlen, hcalls⟩ :=
    scanLoop_unescapes pf base data.length cb haddr content.length content (le_refl _) []
      (data.drop content.length) hw st1 [] fuel hpairs hfuel hN hst1
  refine ⟨sc, ?_, ?_, ?_, hcalls⟩
  · unfold _fillBufferAndProcessTemplates
    simp only
    rw [hfirst]
    exact hrun
  · unfold Scan.output
    have h1 := unescape_length_le content.length content (le_refl _)
    have hne : sc.len ≠ RESPONSE_TRY_AGAIN := by
      rw [hlen]
      simp only [List.nil_append]
      omega
    simp only [hne, if_false]
    rw [hout]
    rfl
  · rw [hlen]
    rfl

set_option maxRecDepth 100000 in
/-- C12 (witness): the content `%%escaped%%` in a buffer of 11 bytes yields `%escaped%`. -/
theorem fill_unescapes_paired_delimiters_witness :
    (∃ sc, _fillBufferAndProcessTemplates esp 12 0x3FFE8000 (some allX)
          { _cache := [], source := { content := ascii "%%escaped%%", answers := [] },
            _sentLength := 0 } (List.replicate 11 0) = Outcome.returned sc
      ∧ sc.output = unescape (ascii "%%escaped%%")
      ∧ sc.len = (unescape (ascii "%%escaped%%")).length ∧ sc.calls = [])
    ∧ unescape (ascii "%%escaped%%") = ascii "%escaped%" :=
  ⟨fill_unescapes_paired_delimiters esp 12 0x3FFE8000 0 allX (ascii "%%escaped%%")
      (List.replicate 11 0) (by decide) (by decide) (by decide) (by decide) (by decide),
    by decide⟩

set_option maxRecDepth 100000 in
/-- C11 (as written): the name `A\0B` (three bytes, no delimiter among them) in the content
`abc%A\0B%def`: one call over the whole content with room to spare invokes the callback with
the name `A`, the bytes before the zero byte, not with the three-byte name. -/
theorem fill_passes_name_up_to_zero_byte :
    (_fillBufferAndProcessTemplates esp 8 0x3FFE8000 (some allX)
        { _cache := [],
          source := { content := ascii "abc" ++ [37] ++ [65, 0, 66] ++ [37] ++ ascii "def",
                      answers := [] },
          _sentLength := 0 } (List.replicate 16 0)).scan.calls = [[65]]
      ∧ (_fillBufferAndProcessTemplates esp 8 0x3FFE8000 (some allX)
        { _cache := [],
          source := { content := ascii "abc" ++ [37] ++ [65, 0, 66] ++ [37] ++ ascii "def",
                      answers := [] },
          _sentLength := 0 } (List.replicate 16 0)).scan.output = ascii "abcXdef"
      ∧ TEMPLATE_PLACEHOLDER ∉ [65, 0, 66]
      ∧ 1 ≤ [65, 0, 66].length ∧ [65, 0, 66].length ≤ esp.TEMPLATE_PARAM_NAME_LENGTH := by
  decide

/-- C11 (amended): for every prefix and suffix containing no delimiter byte, every name of 1 to
`TEMPLATE_PARAM_NAME_LENGTH` bytes containing neither a delimiter nor a zero byte, and every
callback whose value for that name contains no delimiter, one call of
`_fillBufferAndProcessTemplates` on a fresh source holding `prefix % name % suffix`, with a
requested length at least as large as both the content and the result, returns within two
passes of the scan loop, has invoked the callback exactly once, with exactly that name, and
reports the bytes `prefix ++ value ++ suffix`. -/
theorem fill_substitutes_placeholder (pf : Platform) (fuel base sent : Nat)
    (cb : AwsTemplateProcessor) (pre name suf data : List Nat)
    (hpre : TEMPLATE_PLACEHOLDER ∉ pre) (hsuf : TEMPLATE_PLACEHOLDER ∉ suf)
    (hname : TEMPLATE_PLACEHOLDER ∉ name) (hval : TEMPLATE_PLACEHOLDER ∉ cb name)
    (hnul : 0 ∉ name) (hlen1 : 1 ≤ name.length)
    (hlen2 : name.length ≤ pf.TEMPLATE_PARAM_NAME_LENGTH)
    (hfit1 : (pre ++ [TEMPLATE_PLACEHOLDER] ++ name ++ [TEMPLATE_PLACEHOLDER] ++ suf).length
      ≤ data.length)
    (hfit2 : (pre ++ cb name ++ suf).length ≤ data.length)
    (hbase : 0 < base) (haddr : base + data.length < SIZE_MOD) (hfuel : 2 ≤ fuel) :
    ∃ sc, _fillBufferAndProcessTemplates pf fuel base (some cb)
          { _cache := [],
            source := { content := pre ++ [TEMPLATE_PLACEHOLDER] ++ name
                          ++ [TEMPLATE_PLACEHOLDER] ++ suf,
                        answers := [] },
            _sentLength := sent } data = Outcome.returned sc
      ∧ sc.output = pre ++ cb name ++ suf ∧ sc.len = (pre ++ cb name ++ suf).length
      ∧ sc.calls = [name] := by
  have hsmall : data.length < RESPONSE_TRY_AGAIN := by
    rw [SIZE_MOD_eq] at haddr
    rw [TRY_AGAIN_eq]
    omega
  obtain ⟨hw, st0, hfirst, hst0⟩ := firstRead_whole _ data sent hfit1 hsmall
  have hN : ([] ++ (pre ++ [TEMPLATE_PLACEHOLDER] ++ name ++ [TEMPLATE_PLACEHOLDER] ++ suf)
      ++ data.drop (pre ++ [TEMPLATE_PLACEHOLDER] ++ name ++ [TEMPLATE_PLACEHOLDER]
        ++ suf).length).length = data.length := by
    simp only [List.nil_append, List.length_append, List.length_drop] at hfit1 ⊢
    omega
  obtain ⟨pad1, hw1, st1, hstep, hst1⟩ :=
    scanStep_placeholder pf base data.length cb pre name suf _ hw st0 [] hpre hname hnul hlen1
      hlen2 hN hfit2 haddr hst0
  have hclean : TEMPLATE_PLACEHOLDER ∉ cb name ++ suf := by
    intro h
    rcases List.mem_append.mp h with h | h
    · exact hval h
    · exact hsuf h
  obtain ⟨f, rfl⟩ : ∃ f, fuel = f + 2 := ⟨fuel - 2, by omega⟩
  refine ⟨{ buf := { bytes := pre ++ (cb name ++ suf) ++ pad1, hw := hw1 },
            len := pre.length + (cb name ++ suf).length, pTemplateStart := pre.length,
            st := st1, calls := [] ++ [name] }, ?_, ?_, ?_, ?_⟩
  · unfold _fillBufferAndProcessTemplates
    simp only
    rw [hfirst, scanLoop_next pf base data.length cb (f + 1) _ _ hstep]
    exact scanLoop_exit pf base data.length cb f _ _
      (scanStep_clean_exit pf base data.length cb pre (cb name ++ suf) pad1 hw1 st1 _ hclean)
  · unfold Scan.output
    have hne : pre.length + (cb name ++ suf).length ≠ RESPONSE_TRY_AGAIN := by
      simp only [List.length_append] at hfit2 ⊢
      omega
    simp only [hne, if_false]
    rw [← List.length_append, List.append_assoc pre (cb name) suf]
    exact List.take_left' rfl
  · simp only [List.length_append]
    omega
  · rfl

set_option maxRecDepth 100000 in
/-- C11 (witness of the amended claim): the content `abc%NAME%def` in a buffer of 16 bytes, with
the value `0123456789`. -/
theorem fill_substitutes_placeholder_witness :
    ∃ sc, _fillBufferAndProcessTemplates esp 2 0x3FFE8000 (some tenDigits)
          { _cache := [],
            source := { content := ascii "abc" ++ [TEMPLATE_PLACEHOLDER] ++ ascii "NAME"
                          ++ [TEMPLATE_PLACEHOLDER] ++ ascii "def",
                        answers := [] },
            _sentLength := 0 } (List.replicate 16 0) = Outcome.returned sc
      ∧ sc.output = ascii "abc" ++ tenDigits (ascii "NAME") ++ ascii "def"
      ∧ sc.len = (ascii "abc" ++ tenDigits (ascii "NAME") ++ ascii "def").length
      ∧ sc.calls = [ascii "NAME"] :=
  fill_substitutes_placeholder esp 2 0x3FFE8000 0 tenDigits (ascii "abc") (ascii "NAME")
    (ascii "def") (List.replicate 16 0) (by decide) (by decide) (by decide) (by decide)
    (by decide) (by decide) (by decide) (by decide) (by decide) (by decide) (by decide)
    (by decide)

/-- C21: the buffer holding the four bytes 1, 2, 3, 4 is resized to 0.  Whatever the heap would
grant, the call does not succeed (it returns 4, not 0, and the size stays 4), and the buffer is
not as it was either: `realloc` has released the block, so the four bytes are no longer the
buffer's to read, while `_data` still points at where they were. -/
theorem resize_zero_releases_block :
    fourBytes.holdsAllocation = true
      ∧ ∀ granted : Bool,
          (fourBytes.resize granted 63 0).2 = 4
            ∧ (fourBytes.resize granted 63 0).1._len = 4
            ∧ (fourBytes.resize granted 63 0).1._data = some [1, 2, 3, 4]
            ∧ (fourBytes.resize granted 63 0).1.freed = true
            ∧ (fourBytes.resize granted 63 0).1.holdsAllocation = false
            ∧ (fourBytes.resize granted 63 0).1 ≠ fourBytes := by
  decide

/-- C22: a response in `RESPONSE_HEADERS` with an empty header list: `setCode`,
`setContentLength` and `setContentType` leave their attribute as it was, but `addHeader` puts the
header `X-Late: 1` into the header list. -/
theorem addHeader_changes_started_response :
    (lengthResponse "HTTP/1.1 200 OK\r\n\r\n" "hello")._state = RESPONSE_HEADERS
      ∧ (lengthResponse "HTTP/1.1 200 OK\r\n\r\n" "hello")._headers = []
      ∧ (addHeader (lengthResponse "HTTP/1.1 200 OK\r\n\r\n" "hello") (ascii "X-Late")
          (ascii "1"))._headers = [(ascii "X-Late", ascii "1")]
      ∧ (setCode (lengthResponse "HTTP/1.1 200 OK\r\n\r\n" "hello") 404)._code = 200
      ∧ (setContentLength (lengthResponse "HTTP/1.1 200 OK\r\n\r\n" "hello") 9)._contentLength
          = 5
      ∧ (setContentType (lengthResponse "HTTP/1.1 200 OK\r\n\r\n" "hello")
          (ascii "text/html"))._contentType = [] := by
  decide

/-- C23: `canSend()` is true exactly when the queue holds fewer messages than
`WS_MAX_QUEUED_MESSAGES`; that bound is at least 1 whatever the build defines, so `canSend()` is
true for an empty queue; it is false for every queue whose length has reached the bound, and
true again for the queue one message shorter than a queue exactly at the bound. -/
theorem canSend_iff_below_bound {Message : Type} (esp32 : Bool) (configured : Option Int)
    (queue shorter : List Message) :
    (canSend esp32 configured queue = true
        ↔ (queue.length : Int) < WS_MAX_QUEUED_MESSAGES esp32 configured)
      ∧ 1 ≤ WS_MAX_QUEUED_MESSAGES esp32 configured
      ∧ canSend esp32 configured ([] : List Message) = true
      ∧ (WS_MAX_QUEUED_MESSAGES esp32 configured ≤ (queue.length : Int) →
          canSend esp32 configured queue = false)
      ∧ ((queue.length : Int) = WS_MAX_QUEUED_MESSAGES esp32 configured →
          shorter.length + 1 = queue.length → canSend esp32 configured shorter = true) := by
  have hb : 1 ≤ WS_MAX_QUEUED_MESSAGES esp32 configured := by
    unfold WS_MAX_QUEUED_MESSAGES
    cases configured with
    | none => cases esp32 <;> decide
    | some v =>
      by_cases hv : v < 1
      · simp only [hv, if_true]
        cases esp32 <;> decide
      · simp only [hv, if_false]
        omega
  refine ⟨by simp [canSend], hb, ?_, ?_, ?_⟩
  · simp only [canSend, List.length_nil, decide_eq_true_eq]
    omega
  · intro h
    simp only [canSend, decide_eq_false_iff_not]
    omega
  · intro h1 h2
    simp only [canSend, decide_eq_true_eq]
    omega

/-- C23 (witness): a build that defines the bound as 0 gets the bound 8; a queue of 8 messages
and one of 7. -/
theorem canSend_iff_below_bound_witness :
    (canSend false (some 0) (List.replicate 8 0) = true
        ↔ ((List.replicate 8 0).length : Int) < WS_MAX_QUEUED_MESSAGES false (some 0))
      ∧ 1 ≤ WS_MAX_QUEUED_MESSAGES false (some 0)
      ∧ canSend false (some 0) ([] : List Nat) = true
      ∧ (WS_MAX_QUEUED_MESSAGES false (some 0) ≤ ((List.replicate 8 0).length : Int) →
          canSend false (some 0) (List.replicate 8 0) = false)
      ∧ (((List.replicate 8 0).length : Int) = WS_MAX_QUEUED_MESSAGES false (some 0) →
          (List.replicate 7 0).length + 1 = (List.replicate 8 0).length →
          canSend false (some 0) (List.replicate 7 0) = true) :=
  canSend_iff_below_bound false (some 0) (List.replicate 8 0) (List.replicate 7 0)

/-- C28: for a request larger than `TCP_MSS`, `_safe_allocate_buffer` returns a buffer of the
requested size exactly when `malloc` served it and, with it allocated, `_max_heap_alloc()` is at
least the request; otherwise it returns a buffer of `TCP_MSS` bytes or one without a block and of
size 0.  For a request of at most `TCP_MSS` it returns a buffer of the requested size or one
without a block and of size 0.  `_max_heap_alloc()` is the largest free block less 128 in
`size_t` arithmetic: for a largest free block below 128 it is that block plus `2^32 - 128`. -/
theorem safe_allocate_size (pf : Platform) (env : AckEnv) (outLen : Nat) :
    (pf.TCP_MSS < outLen →
        ((_safe_allocate_buffer pf env outLen)._len = outLen
            ↔ env.allocOk = true ∧ outLen ≤ _max_heap_alloc env.maxFreeBlock)
          ∧ (¬ (env.allocOk = true ∧ outLen ≤ _max_heap_alloc env.maxFreeBlock) →
              (_safe_allocate_buffer pf env outLen)._len = pf.TCP_MSS
                ∨ _safe_allocate_buffer pf env outLen = { _data := none, _len := 0 }))
      ∧ (outLen ≤ pf.TCP_MSS →
          (_safe_allocate_buffer pf env outLen)._len = outLen
            ∨ _safe_allocate_buffer pf env outLen = { _data := none, _len := 0 })
      ∧ (_safe_allocate_buffer pf env outLen).WellFormed
      ∧ _max_heap_alloc env.maxFreeBlock = (env.maxFreeBlock + SIZE_MOD - 128) % SIZE_MOD
      ∧ (env.maxFreeBlock < 128 →
          _max_heap_alloc env.maxFreeBlock = env.maxFreeBlock + (SIZE_MOD - 128)) := by
  have hof : ∀ g : Bool, ∀ n : Nat,
      ((DynamicBuffer.ofSize g env.junk n)._len = n ∧ (n = 0 ∨ g = true)
          ∧ (DynamicBuffer.ofSize g env.junk n).WellFormed)
        ∨ (DynamicBuffer.ofSize g env.junk n = { _data := none, _len := 0 }
          ∧ (n = 0 ∨ g = false)) := by
    intro g n
    by_cases hn : n = 0
    · right; subst hn; simp [DynamicBuffer.ofSize]
    · cases g
      · right; simp [DynamicBuffer.ofSize, hn]
      · left; simp [DynamicBuffer.ofSize, hn, DynamicBuffer.WellFormed]
  have hre : ((DynamicBuffer.ofSize env.allocOk env.junk outLen).clear.resize env.retryOk
        env.junk pf.TCP_MSS).1._len = pf.TCP_MSS
        ∧ ((DynamicBuffer.ofSize env.allocOk env.junk outLen).clear.resize env.retryOk
          env.junk pf.TCP_MSS).1.WellFormed
      ∨ ((DynamicBuffer.ofSize env.allocOk env.junk outLen).clear.resize env.retryOk
        env.junk pf.TCP_MSS).1 = { _data := none, _len := 0 } := by
    by_cases hm : pf.TCP_MSS = 0
    · right; simp [DynamicBuffer.clear, DynamicBuffer.resize, hm]
    · have hm2 : ¬ (0 = pf.TCP_MSS) := fun h => hm h.symm
      cases env.retryOk
      · right; simp [DynamicBuffer.clear, DynamicBuffer.resize, hm, hm2]
      · left; simp [DynamicBuffer.clear, DynamicBuffer.resize, hm, hm2, DynamicBuffer.WellFormed]
  have hempty : DynamicBuffer.WellFormed { _data := none, _len := 0 } := by
    simp [DynamicBuffer.WellFormed]
  refine ⟨?_, ?_, ?_, rfl, ?_⟩
  · intro hbig
    by_cases hkeep : env.allocOk = true ∧ outLen ≤ _max_heap_alloc env.maxFreeBlock
    · have hsome : ¬ ((DynamicBuffer.ofSize env.allocOk env.junk outLen)._data.isNone = true
          ∨ _max_heap_alloc env.maxFreeBlock < outLen) := by
        rcases hof env.allocOk outLen with ⟨h1, h2, h3⟩ | ⟨h1, h2⟩
        · intro h
          rcases h with h | h
          · unfold DynamicBuffer.WellFormed at h3
            cases hd : (DynamicBuffer.ofSize env.allocOk env.junk outLen)._data with
            | none => rw [hd] at h3; simp at h3; omega
            | some d => rw [hd] at h; simp at h
          · omega
        · rcases h2 with h2 | h2
          · omega
          · rw [hkeep.1] at h2; simp at h2
      have hrv : _safe_allocate_buffer pf env outLen
          = DynamicBuffer.ofSize env.allocOk env.junk outLen := by
        unfold _safe_allocate_buffer
        simp only [gt_iff_lt, hbig, if_true, hsome, if_false]
      rw [hrv]
      rcases hof env.allocOk outLen with ⟨h1, h2, h3⟩ | ⟨h1, h2⟩
      · exact ⟨⟨fun _ => hkeep, fun _ => h1⟩, fun h => absurd hkeep h⟩
      · rcases h2 with h2 | h2
        · omega
        · rw [hkeep.1] at h2; simp at h2
    · have hnone : (DynamicBuffer.ofSize env.allocOk env.junk outLen)._data.isNone = true
          ∨ _max_heap_alloc env.maxFreeBlock < outLen := by
        by_cases ha : env.allocOk = true
        · right
          have : ¬ outLen ≤ _max_heap_alloc env.maxFreeBlock := fun h => hkeep ⟨ha, h⟩
          omega
        · left
          have ha2 : env.allocOk = false := by simpa using ha
          rw [ha2]
          simp [DynamicBuffer.ofSize]
      have hrv : _safe_allocate_buffer pf env outLen
          = ((DynamicBuffer.ofSize env.allocOk env.junk outLen).clear.resize env.retryOk
              env.junk pf.TCP_MSS).1 := by
        unfold _safe_allocate_buffer
        simp only [gt_iff_lt, hbig, if_true, hnone]
      rw [hrv]
      rcases hre with ⟨h1, _⟩ | h1
      · exact ⟨⟨fun h => by omega, fun h => absurd h hkeep⟩, fun _ => Or.inl h1⟩
      · refine ⟨⟨fun h => ?_, fun h => absurd h hkeep⟩, fun _ => Or.inr h1⟩
        rw [h1] at h
        simp only at h
        omega
  · intro hsmall
    have hrv : _safe_allocate_buffer pf env outLen
        = DynamicBuffer.ofSize env.allocOk env.junk outLen := by
      unfold _safe_allocate_buffer
      have : ¬ outLen > pf.TCP_MSS := by omega
      simp only [this, if_false]
    rw [hrv]
    rcases hof env.allocOk outLen with ⟨h1, _, _⟩ | ⟨h1, _⟩
    · exact Or.inl h1
    · exact Or.inr h1
  · unfold _safe_allocate_buffer
    simp only
    split
    · split
      · rcases hre with ⟨_, h⟩ | h
        · exact h
        · rw [h]; exact hempty
      · rcases hof env.allocOk outLen with ⟨_, _, h⟩ | ⟨h, _⟩
        · exact h
        · rw [h]; exact hempty
    · rcases hof env.allocOk outLen with ⟨_, _, h⟩ | ⟨h, _⟩
      · exact h
      · rw [h]; exact hempty
  · intro h
    unfold _max_heap_alloc
    rw [SIZE_MOD_eq]
    omega

/-- C29: `_readDataFromCacheOrContent(data, n)` with a cache holding `c`.  It takes
`min(n, |c|)` bytes from the front of the cache; when that covers the request the source is not
asked and `_sentLength` stays.  Otherwise the source is asked for the `n - |c|` bytes left: when
it answers with bytes, the result is the cache bytes followed by the source bytes, their count is
returned and `_sentLength` grows by the number of source bytes; when it answers
`RESPONSE_TRY_AGAIN`, the cache bytes alone are the result, their count is returned if there are
any and `RESPONSE_TRY_AGAIN` otherwise, and `_sentLength` stays. -/
theorem read_cache_then_content (st : FillState) (n : Nat) :
    (_readDataFromCacheOrContent st n).2.2._cache = st._cache.drop (min n st._cache.length)
      ∧ (n ≤ st._cache.length →
          _readDataFromCacheOrContent st n
            = (n, st._cache.take n, { st with _cache := st._cache.drop n }))
      ∧ (st._cache.length < n →
          (st.source._fillBuffer (n - st._cache.length)).1 ≠ RESPONSE_TRY_AGAIN →
          (st.source._fillBuffer (n - st._cache.length)).1
              = (st.source._fillBuffer (n - st._cache.length)).2.1.length
            ∧ _readDataFromCacheOrContent st n
              = (st._cache.length + (st.source._fillBuffer (n - st._cache.length)).1,
                  st._cache ++ (st.source._fillBuffer (n - st._cache.length)).2.1,
                  { _cache := [],
                    source := (st.source._fillBuffer (n - st._cache.length)).2.2,
                    _sentLength := (st._sentLength
                      + (st.source._fillBuffer (n - st._cache.length)).1) % SIZE_MOD }))
      ∧ (st._cache.length < n →
          (st.source._fillBuffer (n - st._cache.length)).1 = RESPONSE_TRY_AGAIN →
          _readDataFromCacheOrContent st n
            = (if st._cache.length = 0 then RESPONSE_TRY_AGAIN else st._cache.length,
                st._cache,
                { _cache := [],
                  source := (st.source._fillBuffer (n - st._cache.length)).2.2,
                  _sentLength := st._sentLength })) := by
  refine ⟨?_, ?_, ?_, ?_⟩
  · unfold _readDataFromCacheOrContent
    simp only
    split
    · split
      · rfl
      · split <;> rfl
    · rfl
  · intro h
    unfold _readDataFromCacheOrContent
    have h1 : min n st._cache.length = n := by omega
    simp only [h1, gt_iff_lt, lt_irrefl, if_false]
  · intro h hne
    have h1 : min n st._cache.length = st._cache.length := by omega
    refine ⟨?_, ?_⟩
    · rcases fillBuffer_spec st.source (n - st._cache.length) with h2 | h2
      · exact absurd h2.1 hne
      · exact h2.1
    · unfold _readDataFromCacheOrContent
      simp only [h1, gt_iff_lt, h, if_true, ne_eq, hne, not_false_eq_true, List.take_length,
        List.drop_length]
  · intro h heq
    have h1 : min n st._cache.length = st._cache.length := by omega
    unfold _readDataFromCacheOrContent
    simp only [h1, gt_iff_lt, h, if_true, ne_eq, heq, not_true_eq_false, if_false,
      List.take_length, List.drop_length]
    by_cases hc : st._cache.length = 0
    · have : st._cache = [] := List.length_eq_zero.mp hc
      simp [hc, this]
    · simp [hc]

set_option maxRecDepth 100000 in
/-- C25: the content `%A%` and a callback that gives `A` the value `%B%` and every other name
the value `X`: the fill substitutes `%B%` for the placeholder, scans the inserted bytes again,
invokes the callback a second time with `B`, and reports `X` instead of `%B%`. -/
theorem inserted_value_is_scanned_again :
    nestedValue (ascii "A") = ascii "%B%"
      ∧ (∃ sc, _fillBufferAndProcessTemplates esp 8 0x3FFE8000 (some nestedValue)
            (textSource "%A%") (List.replicate 8 0) = Outcome.returned sc
          ∧ sc.output = ascii "X" ∧ sc.calls = [ascii "A", ascii "B"]) := by
  refine ⟨by decide, _, rfl, ?_, ?_⟩ <;> decide

/-- C26 (as written): a window of 2000 bytes and a heap that serves no request.  For a chunked
response in `RESPONSE_CONTENT` neither the request of 2000 bytes nor the one of `TCP_MSS` bytes
tried instead is served, for a length-delimited one with five bytes to send the request of 5
bytes is not: in both cases `_ack` leaves the response in `RESPONSE_CONTENT`, not in
`RESPONSE_FAILED`. -/
theorem ack_allocation_failure_keeps_content :
    _safe_allocate_buffer esp (fullHeapEnv 2000) 2000 = { _data := none, _len := 0 }
      ∧ (_ack esp 4 (fullHeapEnv 2000) (bodyResponse "hello" true) 0).state
          = some RESPONSE_CONTENT
      ∧ _safe_allocate_buffer esp (fullHeapEnv 2000) 5 = { _data := none, _len := 0 }
      ∧ (_ack esp 4 (fullHeapEnv 2000) (bodyResponse "hello" false) 0).state
          = some RESPONSE_CONTENT := by
  decide

/-- C26 (amended): for a response in `RESPONSE_CONTENT` with a valid source, an empty `_packet`
and a non-zero window that is chunked, or that sends a Content-Length and has not yet written
its head and content length, when `_safe_allocate_buffer` returns a buffer without a block,
`_ack` returns 0, makes no transport call and leaves the response in `RESPONSE_CONTENT` with
every member but `_ackedLength` as it was, so that the next event tries again;
`RESPONSE_FAILED` is not set. -/
theorem ack_allocation_failure (pf : Platform) (fuel : Nat) (env : AckEnv) (r : Response)
    (len : Nat) (hvalid : env.sourceValid = true) (hstate : r._state = RESPONSE_CONTENT)
    (hpacket : r._packet = Walkable.empty) (hspace : env.space ≠ 0) (hfuel : 1 ≤ fuel)
    (hframed : r._chunked = true
      ∨ (r._sendContentLength = true
        ∧ r._writtenLength ≠ (r._headLength + r._contentLength) % SIZE_MOD))
    (hfail : _safe_allocate_buffer pf env (packetRequest r env.space)
      = { _data := none, _len := 0 }) :
    _ack pf fuel env r len
      = AckOutcome.done { r with _ackedLength := (r._ackedLength + len) % SIZE_MOD } 0 [] := by
  unfold _ack
  simp only [hvalid, hspace, hstate, not_true_eq_false, if_false, false_and]
  simp only [reduceCtorEq, if_false, if_true]
  unfold ackContent
  simp only [hpacket, Walkable.size, Walkable.empty, ne_eq, not_true_eq_false, if_false]
  unfold ackFill
  cases hc : r._chunked
  · -- not chunked: a fill of no bytes
    have h2 : r._sendContentLength = true := by
      rcases hframed with h | h
      · rw [hc] at h; cases h
      · exact h.1
    have h3 : r._writtenLength ≠ (r._headLength + r._contentLength) % SIZE_MOD := by
      rcases hframed with h | h
      · rw [hc] at h; cases h
      · exact h.2
    have hreq : _safe_allocate_buffer pf env
        (if ¬ r._sendContentLength = true then env.space
          else min env.space ((r._contentLength + SIZE_MOD - r._sentLength) % SIZE_MOD))
        = { _data := none, _len := 0 } := by
      simpa [packetRequest, hc] using hfail
    simp only [Bool.false_eq_true, false_and, if_false, hreq, Walkable.size, Option.getD_none,
      slice, List.drop_nil, List.take_nil]
    rw [fill_nothing pf fuel env.addr r._callback _ hfuel]
    simp only [gt_iff_lt, lt_irrefl, if_false, RESPONSE_TRY_AGAIN, OfNat.ofNat_ne_zero,
      Option.map_none', ackSend, DynamicBuffer.resize, writePacket, Walkable.size,
      ne_eq, not_true_eq_false, Nat.add_zero, Response.withFillState, Response.fillState,
      hc, Bool.false_eq_true, false_and, true_and, and_true, false_or, not_false_eq_true]
    simp [h2, h3, hpacket, Walkable.empty]
  · -- chunked: the attempt is given up
    have hreq : _safe_allocate_buffer pf env env.space = { _data := none, _len := 0 } := by
      simpa [packetRequest, hc] using hfail
    by_cases h8 : env.space ≤ 8
    · simp [h8, contentAbort, hc, hpacket, Walkable.empty]
    · simp [h8, contentAbort, hc, hreq, Walkable.size, Walkable.clear, DynamicBuffer.clear,
        hpacket, Walkable.empty]

/-- C26 (witness of the amended claim): the chunked response, the window of 2000 bytes and the
heap that serves no request. -/
theorem ack_allocation_failure_witness :
    _ack esp 4 (fullHeapEnv 2000) (bodyResponse "hello" true) 0
      = AckOutcome.done
          { bodyResponse "hello" true with
            _ackedLength := ((bodyResponse "hello" true)._ackedLength + 0) % SIZE_MOD }
          0 [] :=
  ack_allocation_failure esp 4 (fullHeapEnv 2000) (bodyResponse "hello" true) 0 rfl rfl rfl
    (by decide) (by decide) (by decide) (by decide)

/-- C27: for a response in `RESPONSE_CONTENT` with a valid source, an empty `_packet`, an empty
cache and a window that lets the fill request at least one byte (more than 8 bytes of window and
of packet buffer for a chunked response, a packet buffer of at least one byte otherwise), when
the source answers the fill with `RESPONSE_TRY_AGAIN`, `_ack` returns 0 and makes no transport
call; the response stays in `RESPONSE_CONTENT` with `_packet` empty, and apart from
`_ackedLength` and the answer the source has given, every member is as it was, `_sentLength`
and `_writtenLength` included. -/
theorem ack_try_again_keeps_content (pf : Platform) (fuel : Nat) (env : AckEnv) (r : Response)
    (len : Nat) (rest : List (Option Nat)) (hvalid : env.sourceValid = true)
    (hstate : r._state = RESPONSE_CONTENT) (hpacket : r._packet = Walkable.empty)
    (hcache : r._cache = []) (hanswer : r.source.answers = none :: rest) (hfuel : 1 ≤ fuel)
    (hbase : 0 < env.addr) (hfit : env.addr + 6 < SIZE_MOD)
    (hwindow : (if r._chunked then 8 else 0) < env.space)
    (hbuffer : (if r._chunked then 8 else 0)
      < (_safe_allocate_buffer pf env (packetRequest r env.space))._len) :
    _ack pf fuel env r len
      = AckOutcome.done
          { r with
            _ackedLength := (r._ackedLength + len) % SIZE_MOD,
            source := { content := r.source.content, answers := rest } }
          0 [] := by
  have hspace : env.space ≠ 0 := by
    intro h; rw [h] at hwindow; simp at hwindow
  unfold _ack
  simp only [hvalid, hspace, hstate, not_true_eq_false, if_false, false_and]
  simp only [reduceCtorEq, if_false, if_true]
  unfold ackContent
  simp only [hpacket, Walkable.size, Walkable.empty, ne_eq, not_true_eq_false, if_false]
  unfold ackFill
  cases hc : r._chunked
  · -- not chunked
    simp only [hc, Bool.false_eq_true, if_false, packetRequest] at hwindow hbuffer
    have hdata := safe_allocate_data pf env _ (by omega : (_safe_allocate_buffer pf env
      (if ¬ r._sendContentLength = true then env.space
        else min env.space ((r._contentLength + SIZE_MOD - r._sentLength) % SIZE_MOD)))._len ≠ 0)
    simp only [Bool.false_eq_true, false_and, if_false, Walkable.size, hdata, Option.getD_some,
      Nat.sub_zero]
    rw [fill_try_again pf fuel env.addr r._callback _ rest _ hfuel hbase (by omega) hcache
      hanswer]
    · simp [RESPONSE_TRY_AGAIN, contentAbort, Walkable.clear, DynamicBuffer.clear,
        Response.withFillState, Response.fillState, hpacket, hcache, Walkable.empty]
    · intro h
      have hl := congrArg List.length h
      simp only [slice_length, List.length_replicate, List.length_nil] at hl
      omega
  · -- chunked
    simp only [hc, if_true, packetRequest] at hwindow hbuffer
    have hdata := safe_allocate_data pf env env.space (by omega)
    have h8 : ¬ env.space ≤ 8 := by omega
    have h9 : ¬ (_safe_allocate_buffer pf env env.space)._len < 8 := by omega
    simp only [true_and, h8, if_false, if_true, Walkable.size, hdata, Option.getD_some,
      Nat.sub_zero, h9]
    rw [fill_try_again pf fuel (env.addr + 6) r._callback _ rest _ hfuel (by omega) hfit hcache
      hanswer]
    · simp [RESPONSE_TRY_AGAIN, contentAbort, Walkable.clear, DynamicBuffer.clear,
        Response.withFillState, Response.fillState, hpacket, hcache, Walkable.empty]
    · intro h
      have hl := congrArg List.length h
      simp only [slice_length, List.length_replicate, List.length_nil] at hl
      omega

set_option maxRecDepth 100000 in
/-- C27 (witness): a length-delimited response with the content `hello` whose source answers
`RESPONSE_TRY_AGAIN`, in a window of 100 bytes. -/
theorem ack_try_again_keeps_content_witness :
    _ack esp 4 (plainEnv 100 []) (stallingResponse "hello" false) 0
      = AckOutcome.done
          { stallingResponse "hello" false with
            _ackedLength := ((stallingResponse "hello" false)._ackedLength + 0) % SIZE_MOD,
            source := { content := (stallingResponse "hello" false).source.content,
                        answers := [] } }
          0 [] :=
  ack_try_again_keeps_content esp 4 (plainEnv 100 []) (stallingResponse "hello" false) 0 []
    rfl rfl rfl rfl rfl (by decide) (by decide) (by decide) (by decide) (by decide)

/-- C24: a response in `RESPONSE_HEADERS` and any sequence of `_ack` calls with a valid source,
whatever the windows and the counts `add` accepts.  There is a number `k` of calls during which
the response stays in `RESPONSE_HEADERS`.  After each of them (and before the first) the bytes
the transport has accepted so far, followed by the pending `_head`, are the head the response
started with.  Each of these `k` calls finds the window closed or has `add` take less than the
pending head; the bytes the transport accepts in it are the first bytes of the pending head, as
many as `add` took, and the head pending afterwards is the rest.  If calls are left after them,
then in the next call the window is open and `add` takes all of the pending head, so that the
bytes accepted up to and including this `add` are the whole head; the call goes on into the
content branch with the state `RESPONSE_CONTENT` and an empty `_head`, and whenever it returns,
the response is in `RESPONSE_CONTENT` or `RESPONSE_WAIT_ACK`, `_head` is empty and the first
transport call made in it is that `add`. -/
theorem head_is_sent_in_order (pf : Platform) (fuel : Nat) (calls : List (AckEnv × Nat))
    (r : Response) (hstate : r._state = RESPONSE_HEADERS)
    (hvalid : ∀ c ∈ calls, c.1.sourceValid = true) :
    ∃ k, k ≤ calls.length ∧ ∀ j, j ≤ k →
      ∃ rj evj, ackRun pf fuel r (calls.take j) = some (rj, evj)
        ∧ rj._state = RESPONSE_HEADERS
        ∧ accepted evj ++ rj._head = r._head
        ∧ ∀ c, calls[j]? = some c →
            (j < k →
              (c.1.space = 0 ∨ headAccepts rj._head c.1 < rj._head.length)
              ∧ ∃ rn evn, ackRun pf fuel r (calls.take (j + 1)) = some (rn, evj ++ evn)
                  ∧ accepted evn = rj._head.take (headAccepts rj._head c.1)
                  ∧ rn._head = rj._head.drop (headAccepts rj._head c.1))
            ∧ (j = k →
              c.1.space ≠ 0 ∧ headAccepts rj._head c.1 = rj._head.length
              ∧ accepted (evj ++ [Event.add rj._head rj._head.length]) = r._head
              ∧ _ack pf fuel c.1 rj c.2
                  = ackContent pf fuel c.1
                      { rj with
                        _ackedLength := (rj._ackedLength + c.2) % SIZE_MOD,
                        _writtenLength := (rj._writtenLength + rj._head.length) % SIZE_MOD,
                        _state := RESPONSE_CONTENT, _head := [] }
                      (c.1.space - rj._head.length) true
                      (transfer (rj._head.take (min c.1.space rj._head.length)) c.1.accepts).2
                      [Event.add rj._head rj._head.length]
              ∧ ∀ r1 ret ev, _ack pf fuel c.1 rj c.2 = AckOutcome.done r1 ret ev →
                  (r1._state = RESPONSE_CONTENT ∨ r1._state = RESPONSE_WAIT_ACK)
                  ∧ r1._head = []
                  ∧ ∃ tail, ev = Event.add rj._head rj._head.length :: tail) := by
  induction calls generalizing r with
  | nil =>
    refine ⟨0, le_refl _, ?_⟩
    intro j _
    refine ⟨r, [], by simp [ackRun], hstate, by simp [accepted], ?_⟩
    intro c hc
    simp at hc
  | cons c rest ih =>
    have hc : c.1.sourceValid = true := hvalid c (List.mem_cons_self _ _)
    have hrest : ∀ d ∈ rest, d.1.sourceValid = true :=
      fun d hd => hvalid d (List.mem_cons_of_mem _ hd)
    rcases ack_headers_step pf fuel c.1 r c.2 hc hstate with
      ⟨hcond, r1, ret, ev1, hack, hs1, hacc, hhead⟩ | ⟨hsp, hn, hack⟩
    · obtain ⟨k, hk, hall⟩ := ih r1 hs1 hrest
      have hrun1 : ∀ (l : List (AckEnv × Nat)) (rn : Response) (evn : List Event),
          ackRun pf fuel r1 l = some (rn, evn) →
          ackRun pf fuel r (c :: l) = some (rn, ev1 ++ evn) := by
        intro l rn evn hl
        obtain ⟨env, len⟩ := c
        simp only [ackRun]
        simp only at hack
        rw [hack]
        simp [hl]
      have hsplit : accepted ev1 ++ r1._head = r._head := by
        rw [hacc, hhead, List.take_append_drop]
      refine ⟨k + 1, by simp only [List.length_cons]; omega, ?_⟩
      intro j hj
      cases j with
      | zero =>
        refine ⟨r, [], by simp [ackRun], hstate, by simp [accepted], ?_⟩
        intro c0 hc0
        simp only [List.getElem?_cons_zero, Option.some.injEq] at hc0
        subst hc0
        refine ⟨fun _ => ⟨hcond, r1, ev1, ?_, hacc, hhead⟩, fun h0 => by omega⟩
        have := hrun1 [] r1 [] (by simp [ackRun])
        simpa using this
      | succ j =>
        obtain ⟨rj, evj, hrun, hsj, haj, hcl⟩ := hall j (by omega)
        refine ⟨rj, ev1 ++ evj, ?_, hsj, ?_, ?_⟩
        · simp only [List.take_succ_cons]
          exact hrun1 _ _ _ hrun
        · rw [accepted_append, List.append_assoc, haj, hsplit]
        · intro c0 hc0
          simp only [List.getElem?_cons_succ] at hc0
          obtain ⟨hstay, hleave⟩ := hcl c0 hc0
          constructor
          · intro hlt
            obtain ⟨hcond0, rn, evn, hrunn, haccn, hheadn⟩ := hstay (by omega)
            refine ⟨hcond0, rn, evn, ?_, haccn, hheadn⟩
            simp only [List.take_succ_cons]
            rw [List.append_assoc]
            exact hrun1 _ _ _ hrunn
          · intro heq
            obtain ⟨h1, h2, h3, h4, h5⟩ := hleave (by omega)
            refine ⟨h1, h2, ?_, h4, h5⟩
            rw [List.append_assoc, accepted_append, h3, hsplit]
    · refine ⟨0, Nat.zero_le _, ?_⟩
      intro j hj
      have hj0 : j = 0 := by omega
      subst hj0
      refine ⟨r, [], by simp [ackRun], hstate, by simp [accepted], ?_⟩
      intro c0 hc0
      simp only [List.getElem?_cons_zero, Option.some.injEq] at hc0
      subst hc0
      refine ⟨fun h0 => absurd h0 (by omega), fun _ => ⟨hsp, hn, ?_, hack, ?_⟩⟩
      · simp [accepted]
      · intro r2 ret ev hdone
        rw [hack] at hdone
        obtain ⟨h1, h2, tail, h3⟩ := ackContent_keeps _ _ _ _ _ _ _ _ _ _ _ hdone
        refine ⟨?_, h1, tail, by rw [h3]; rfl⟩
        rcases h2 with h2 | h2
        · exact Or.inl h2
        · exact Or.inr h2

/-- C24 (witness): a head of 19 bytes meets a window of 5 bytes and then one of 100 bytes. -/
theorem head_is_sent_in_order_witness :
    ∃ k, k ≤ narrowThenWide.length ∧ ∀ j, j ≤ k →
      ∃ rj evj, ackRun esp 4 (lengthResponse "HTTP/1.1 200 OK\r\n\r\n" "hello")
            (narrowThenWide.take j) = some (rj, evj)
        ∧ rj._state = RESPONSE_HEADERS
        ∧ accepted evj ++ rj._head = (lengthResponse "HTTP/1.1 200 OK\r\n\r\n" "hello")._head
        ∧ ∀ c, narrowThenWide[j]? = some c →
            (j < k →
              (c.1.space = 0 ∨ headAccepts rj._head c.1 < rj._head.length)
              ∧ ∃ rn evn, ackRun esp 4 (lengthResponse "HTTP/1.1 200 OK\r\n\r\n" "hello")
                    (narrowThenWide.take (j + 1)) = some (rn, evj ++ evn)
                  ∧ accepted evn = rj._head.take (headAccepts rj._head c.1)
                  ∧ rn._head = rj._head.drop (headAccepts rj._head c.1))
            ∧ (j = k →
              c.1.space ≠ 0 ∧ headAccepts rj._head c.1 = rj._head.length
              ∧ accepted (evj ++ [Event.add rj._head rj._head.length])
                  = (lengthResponse "HTTP/1.1 200 OK\r\n\r\n" "hello")._head
              ∧ _ack esp 4 c.1 rj c.2
                  = ackContent esp 4 c.1
                      { rj with
                        _ackedLength := (rj._ackedLength + c.2) % SIZE_MOD,
                        _writtenLength := (rj._writtenLength + rj._head.length) % SIZE_MOD,
                        _state := RESPONSE_CONTENT, _head := [] }
                      (c.1.space - rj._head.length) true
                      (transfer (rj._head.take (min c.1.space rj._head.length)) c.1.accepts).2
                      [Event.add rj._head rj._head.length]
              ∧ ∀ r1 ret ev, _ack esp 4 c.1 rj c.2 = AckOutcome.done r1 ret ev →
                  (r1._state = RESPONSE_CONTENT ∨ r1._state = RESPONSE_WAIT_ACK)
                  ∧ r1._head = []
                  ∧ ∃ tail, ev = Event.add rj._head rj._head.length :: tail) :=
  head_is_sent_in_order esp 4 narrowThenWide (lengthResponse "HTTP/1.1 200 OK\r\n\r\n" "hello")
    rfl (by decide)

/-- C30: for every queue of well-formed chunks (empty ones included) of a fresh response stream
and every sequence of requested lengths below `2^32`, each call of
`AsyncResponseStream::_fillBuffer` ends within one pass of its loop per chunk and one more, and
returns `min(requested, remaining)` bytes taken from the front of what the queue still holds:
the calls return what draining the concatenation of the chunks in order yields.  The outputs
concatenated are the first bytes of that concatenation, as many as were requested in all, and
the stream is left holding the bytes behind them. -/
theorem stream_fill_drains_in_order (fuel : Nat) (chunks : List DynamicBuffer)
    (lens : List Nat) (hchunks : ∀ b ∈ chunks, b.WellFormed ∧ b._len < SIZE_MOD)
    (hlens : ∀ n ∈ lens, n < SIZE_MOD) (hfuel : chunks.length < fuel) :
    ∃ s1, streamRun fuel { _content := chunks, _offset := 0 } lens
          = some (drainInOrder (chunks.map DynamicBuffer.contents).flatten lens, s1)
      ∧ ((drainInOrder (chunks.map DynamicBuffer.contents).flatten lens).map
            (fun p => p.2)).flatten
          = (chunks.map DynamicBuffer.contents).flatten.take lens.sum
      ∧ s1.remaining = (chunks.map DynamicBuffer.contents).flatten.drop lens.sum := by
  obtain ⟨s1, hrun, _, hrem⟩ :=
    streamRun_spec fuel lens { _content := chunks, _offset := 0 } ⟨hchunks, Or.inl rfl⟩ hfuel
      hlens
  have hall : AsyncResponseStream.remaining { _content := chunks, _offset := 0 }
      = (chunks.map DynamicBuffer.contents).flatten := by
    simp [AsyncResponseStream.remaining]
  rw [hall] at hrun hrem
  exact ⟨s1, hrun, drain_concat lens _, hrem⟩

/-- C30 (witness): the chunks `abc`, an empty chunk and `defgh`, read in requests of 2, 0, 3, 10
and 4 bytes. -/
theorem stream_fill_drains_in_order_witness :
    ∃ s1, streamRun 4 { _content := threeChunks, _offset := 0 } [2, 0, 3, 10, 4]
          = some (drainInOrder (threeChunks.map DynamicBuffer.contents).flatten
              [2, 0, 3, 10, 4], s1)
      ∧ ((drainInOrder (threeChunks.map DynamicBuffer.contents).flatten
            [2, 0, 3, 10, 4]).map (fun p => p.2)).flatten
          = (threeChunks.map DynamicBuffer.contents).flatten.take [2, 0, 3, 10, 4].sum
      ∧ s1.remaining
          = (threeChunks.map DynamicBuffer.contents).flatten.drop [2, 0, 3, 10, 4].sum :=
  stream_fill_drains_in_order 4 threeChunks [2, 0, 3, 10, 4] (by decide) (by decide)
    (by decide)

/-- C28 (witness): a request of 2000 bytes that `malloc` serves, with a largest free block of
100 bytes left: `_max_heap_alloc()` wraps to `2^32 - 28` and the buffer of 2000 bytes is
kept. -/
theorem safe_allocate_size_witness :
    (_safe_allocate_buffer esp (tightHeapEnv 2000) 2000)._len = 2000
      ∧ _max_heap_alloc (tightHeapEnv 2000).maxFreeBlock
          = (tightHeapEnv 2000).maxFreeBlock + (SIZE_MOD - 128) :=
  ⟨((safe_allocate_size esp (tightHeapEnv 2000) 2000).1 (by decide)).1.mpr
      ⟨rfl, by decide⟩,
    (safe_allocate_size esp (tightHeapEnv 2000) 2000).2.2.2.2 (by decide)⟩

/-- C29 (witness): four bytes are requested with `ab` in the cache and `cdef` in the source:
the result is `abcd`, and `_sentLength` grows by the two source bytes. -/
theorem read_cache_then_content_witness :
    (cachedAb.source._fillBuffer (4 - cachedAb._cache.length)).1
        = (cachedAb.source._fillBuffer (4 - cachedAb._cache.length)).2.1.length
      ∧ _readDataFromCacheOrContent cachedAb 4
        = (cachedAb._cache.length + (cachedAb.source._fillBuffer (4 - cachedAb._cache.length)).1,
            cachedAb._cache ++ (cachedAb.source._fillBuffer (4 - cachedAb._cache.length)).2.1,
            { _cache := [],
              source := (cachedAb.source._fillBuffer (4 - cachedAb._cache.length)).2.2,
              _sentLength := (cachedAb._sentLength
                + (cachedAb.source._fillBuffer (4 - cachedAb._cache.length)).1) % SIZE_MOD }) :=
  (read_cache_then_content cachedAb 4).2.2.1 (by decide) (by decide)

set_option maxRecDepth 100000 in
/-- C32: a chunked response with the content `hello` answers a request of protocol version 0
(HTTP/1.0) in a window of 1460 bytes: the head handed to the transport is the status line and
`Connection: close`, without the line `Transfer-Encoding: chunked`, and the body follows in a
chunk envelope, `0005 CRLF hello CRLF`. -/
theorem chunked_body_without_chunked_head :
    chunkedHello._chunked = true
      ∧ (_respond esp 4 (plainEnv 1460 []) chunkedHello 0).events
          = [Event.add (ascii "HTTP/1.0 200 OK\r\nConnection: close\r\n\r\n") 38,
             Event.write (ascii "0005\r\nhello\r\n") 13]
      ∧ ¬ (ascii "Transfer-Encoding: chunked"
            <:+: ascii "HTTP/1.0 200 OK\r\nConnection: close\r\n\r\n") := by
  decide

/-- C34 (as written): the buffer holding the three bytes `abc`, none of them zero:
`toString` returns the string `ab`, without the last byte. -/
theorem toString_drops_last_byte :
    toString { _data := some (ascii "abc"), _len := 3 } = some (ascii "ab") := by
  decide

/-- C34 (amended): for every non-empty buffer `b` (its block as long as its size says, the size
below `2^32`), `toString(b)` returns a string holding exactly the bytes of `b` that precede its
first zero byte when `b` contains a zero byte, and all of `b`'s bytes but the last when it
contains none. -/
theorem toString_chars (b : DynamicBuffer) (mem : List Nat) (hdata : b._data = some mem)
    (hlen : mem.length = b._len) (hpos : 0 < b._len) (hsize : b._len < SIZE_MOD) :
    toString b = some (if 0 ∈ mem then cstr mem else mem.dropLast) := by
  have hcap : (b._len + SIZE_MOD - 1) % SIZE_MOD = b._len - 1 := by
    rw [SIZE_MOD_eq] at hsize ⊢
    omega
  have hT : (mem.take (b._len - 1)).takeWhile (· ≠ 0) = (cstr mem).take (b._len - 1) :=
    takeWhile_take _ mem _
  have hle : ((mem.take (b._len - 1)).takeWhile (· ≠ 0)).length ≤ b._len - 1 := by
    rw [hT, List.length_take]
    omega
  have hpre : mem.take ((mem.take (b._len - 1)).takeWhile (· ≠ 0)).length
      = (mem.take (b._len - 1)).takeWhile (· ≠ 0) := by
    have h1 := take_takeWhile_length (· ≠ 0) (mem.take (b._len - 1))
    rw [List.take_take, min_eq_left hle] at h1
    exact h1
  have hchars : ∀ buf1 : List Nat,
      (buf1 = pokeAt mem ((mem.take (b._len - 1)).takeWhile (· ≠ 0)).length [0] ∨ buf1 = mem) →
      buf1.take ((mem.take (b._len - 1)).takeWhile (· ≠ 0)).length
        = (cstr mem).take (b._len - 1) := by
    intro buf1 h
    rcases h with h | h
    · rw [h, pokeAt_eq _ _ _ (by simp only [List.length_singleton]; omega),
        List.append_assoc, List.take_append_of_le_length (by rw [List.length_take]; omega),
        List.take_take, min_self, hpre, hT]
    · rw [h, hpre, hT]
  have hres : toString b = some ((cstr mem).take (b._len - 1)) := by
    unfold toString DynamicBufferString.ofBuffer
    rw [hdata]
    simp only [hcap, strnlen, Option.map_some', DynamicBufferString.chars, Option.some.injEq]
    split
    · exact hchars _ (Or.inl rfl)
    · exact hchars _ (Or.inr rfl)
  rw [hres]
  by_cases hz : 0 ∈ mem
  · have := cstr_length_lt mem hz
    simp only [hz, if_true]
    rw [List.take_of_length_le (by omega)]
  · simp only [hz, if_false]
    rw [cstr_eq mem hz, List.dropLast_eq_take, hlen]

/-- C34 (witness of the amended claim): a buffer of three bytes whose second byte is zero. -/
theorem toString_chars_witness :
    toString { _data := some [97, 0, 98], _len := 3 }
      = some (if 0 ∈ [97, 0, 98] then cstr [97, 0, 98] else [97, 0, 98].dropLast) :=
  toString_chars { _data := some [97, 0, 98], _len := 3 } [97, 0, 98] rfl rfl (by decide)
    (by decide)

/-- C33: every constructor call of `WebResponses.cpp` (basic, file with or without gzip,
stream, callback, chunked, progmem, response stream, with or without a template callback where
the constructor takes one) yields a response whose `_chunked` and `_sendContentLength` are not
both set.  The head `_assembleHead` returns for it consists of the status line, the
`Content-Length` line when `_sendContentLength` is set, the lines in between, the line
`Transfer-Encoding: chunked` when `_chunked` is set and the version is not 0, and the blank
line; so of the two lines at most one is emitted. -/
theorem constructed_flags_exclusive (defaultHeaders : List (List Nat × List Nat))
    (call : ConstructorCall) :
    ¬ ((call.response defaultHeaders)._chunked = true
        ∧ (call.response defaultHeaders)._sendContentLength = true)
      ∧ ∀ version : Nat,
          (_assembleHead (call.response defaultHeaders) version).1
              = statusLine (call.response defaultHeaders) version
                ++ contentLengthLine (call.response defaultHeaders)
                ++ middleLines (call.response defaultHeaders) version
                ++ chunkedLine (call.response defaultHeaders) version ++ CRLF
            ∧ (contentLengthLine (call.response defaultHeaders) = []
              ∨ chunkedLine (call.response defaultHeaders) version = []) := by
  have hflags : ¬ ((call.response defaultHeaders)._chunked = true
      ∧ (call.response defaultHeaders)._sendContentLength = true) := by
    cases call with
    | basic plain code contentType content =>
      simp only [ConstructorCall.response, newAsyncBasicResponse, addHeader,
        newAsyncWebServerResponse]
      split
      · split <;> simp
      · simp
    | file source contentTypeFor contentSize nameIsGzip pathIsGzip filenameStart path
        contentType download cb =>
      rcases abstract_flags defaultHeaders source cb with h | h
      · simp only [ConstructorCall.response, newAsyncFileResponse, addHeader]
        split <;> split <;> simp [h.1, h.2]
      · simp only [ConstructorCall.response, newAsyncFileResponse, addHeader]
        split <;> split <;> simp [h.1, h.2]
    | stream source contentType len cb =>
      rcases abstract_flags defaultHeaders source cb with h | h <;>
        simp [ConstructorCall.response, newAsyncStreamResponse, h.1, h.2]
    | callback source contentType len cb =>
      rcases abstract_flags defaultHeaders source cb with h | h <;>
        by_cases hl : len = 0 <;>
        simp [ConstructorCall.response, newAsyncCallbackResponse, h.1, h.2,
          hl]
    | chunked source contentType cb =>
      simp [ConstructorCall.response, newAsyncChunkedResponse]
    | progmem code contentType content len cb =>
      rcases abstract_flags defaultHeaders { content := content.take len, answers := [] } cb
        with h | h <;>
        simp [ConstructorCall.response, newAsyncProgmemResponse, h.1, h.2]
    | responseStream contentType =>
      simp [ConstructorCall.response, newAsyncResponseStream,
        newAsyncAbstractResponse,
        newAsyncWebServerResponse]
  refine ⟨hflags, fun version => ⟨assembleHead_lines _ version, ?_⟩⟩
  by_cases hs : (call.response defaultHeaders)._sendContentLength = true
  · right
    have hc : (call.response defaultHeaders)._chunked = false := by
      cases hch : (call.response defaultHeaders)._chunked
      · rfl
      · exact absurd ⟨hch, hs⟩ hflags
    simp [chunkedLine, hc]
  · left
    simp [contentLengthLine, hs]

end ESPAsyncWebServer
